import Mathlib

/-!
# Signalling core of the video-conference server

Shallow embedding of `backend/socket/socketHandlers.js`: the process-wide maps
`activeMeetings` and `meetingUserSockets`, the connected sockets with their
transport rooms, and the handlers registered for each socket event.

JavaScript `Map` and `Set` are insertion-ordered, so both are embedded as lists
(association lists for `Map`), with the operations of the source (`has`, `get`,
`set`, `delete`, `add`) defined on them.
-/

namespace VideoConference

/-! ## JavaScript values and containers -/

/-- Values a client can put in a field of an event payload: the field is
missing (`undefined`), is `null`, or is a string. -/
inductive JsVal where
  | undefined
  | null
  | str (s : String)
deriving DecidableEq, Repr

/-- JavaScript truthiness, as tested by `if (socket.meetingId)`. -/
def JsVal.truthy : JsVal → Bool
  | .str s => decide (s ≠ "")
  | _ => false

/-- Conversion done by a template literal. -/
def JsVal.render : JsVal → String
  | .undefined => "undefined"
  | .null => "null"
  | .str s => s

/-- Names of transport rooms. A room is named either by a socket id (the room
every socket is in from its connection on) or by the template "meeting-"
followed by a meeting id; `meeting name` stands for the string "meeting-"
followed by `name`. Socket ids are random tokens issued by the transport and
are taken never to have the form of a meeting room name. -/
inductive Room where
  | own (sid : String)
  | meeting (name : String)
deriving DecidableEq, Repr

/-- Name of the transport room of a meeting, the template "meeting-" followed by the id. -/
def roomName (meetingId : JsVal) : Room :=
  Room.meeting meetingId.render

/-- `Map.prototype.has`. -/
def mapHas {κ α : Type} [DecidableEq κ] (m : List (κ × α)) (k : κ) : Bool :=
  m.any (fun p => decide (p.1 = k))

/-- `Map.prototype.get`; `none` stands for `undefined`. -/
def mapGet {κ α : Type} [DecidableEq κ] (m : List (κ × α)) (k : κ) : Option α :=
  (m.find? (fun p => decide (p.1 = k))).map Prod.snd

/-- `Map.prototype.set`: an existing key keeps its position, a new key goes last. -/
def mapSet {κ α : Type} [DecidableEq κ] (m : List (κ × α)) (k : κ) (v : α) : List (κ × α) :=
  if mapHas m k then m.map (fun p => if p.1 = k then (k, v) else p) else m ++ [(k, v)]

/-- `Map.prototype.delete`. -/
def mapDelete {κ α : Type} [DecidableEq κ] (m : List (κ × α)) (k : κ) : List (κ × α) :=
  m.filter (fun p => decide (p.1 ≠ k))

/-- Keys of a `Map`, in insertion order. -/
def mapKeys {κ α : Type} (m : List (κ × α)) : List κ :=
  m.map Prod.fst

/-- `Set.prototype.add`. -/
def setAdd {α : Type} [DecidableEq α] (s : List α) (x : α) : List α :=
  if x ∈ s then s else s ++ [x]

/-- `Set.prototype.delete`. -/
def setDelete {α : Type} [DecidableEq α] (s : List α) (x : α) : List α :=
  s.filter (fun y => decide (y ≠ x))

/-! ## Data model -/

/-- The object stored in `socket.user` by the connection middleware. -/
structure User where
  id : String
  username : String
  isGuest : Bool
deriving DecidableEq, Repr

/-- Query parameters of the connection handshake (`socket.handshake.query`). -/
structure Handshake where
  userId : Option String
  userName : Option String
  isGuest : Option String
deriving DecidableEq, Repr

/-- A connected socket: its transport id, the identity attached by the
middleware, the `meetingId` property set by the handlers, and the transport
rooms it is in (every socket is in the room named by its own id). -/
structure Socket where
  id : String
  user : User
  meetingId : JsVal
  rooms : List Room
deriving DecidableEq, Repr

/-- One element of the `existing-users` list. -/
structure UserInfo where
  id : String
  name : String
  isGuest : Bool
deriving DecidableEq, Repr

/-- Events the server emits to clients. -/
inductive OutEvent where
  | existingUsers (users : List UserInfo)
  | userJoined (userId username : String) (isGuest : Bool)
  | userLeft (userId username : String) (isGuest : Bool)
  | offer (sender : String) (payload : JsVal)
  | answer (sender : String) (payload : JsVal)
  | iceCandidate (sender : String) (payload : JsVal)
  | chatMessage (userId username : String) (message messageType : JsVal) (timestamp : Nat)
  | error (message : String)
deriving DecidableEq, Repr

/-- A delivery: the id of the receiving socket and the event it receives. -/
abbrev Delivery := String × OutEvent

/-- State of the server process: the two maps closed over by
`setupSocketHandlers` and the sockets of the namespace (`io.sockets.sockets`),
in connection order. -/
structure State where
  activeMeetings : List (JsVal × List String)
  meetingUserSockets : List (JsVal × List (String × String))
  sockets : List Socket
deriving DecidableEq, Repr

/-- State right after `setupSocketHandlers`: both maps empty, nobody connected. -/
def State.init : State :=
  { activeMeetings := [], meetingUserSockets := [], sockets := [] }

/-- Events the server processes: a completed handshake, the client events of
each socket, and the transport-level disconnect. The payload `data` of a client
event is `none` when the client sent no object (`undefined` or `null`), which
makes the destructuring at the top of the handler throw. -/
inductive Event where
  | connect (sid : String) (q : Handshake) (now rnd : Nat)
  | joinMeeting (sid : String) (data : Option JsVal)
  | offer (sid : String) (data : Option (JsVal × JsVal))
  | answer (sid : String) (data : Option (JsVal × JsVal))
  | iceCandidate (sid : String) (data : Option (JsVal × JsVal))
  | leaveMeeting (sid : String) (data : Option JsVal)
  | chatMessage (sid : String) (data : Option (JsVal × JsVal)) (now : Nat)
  | debugMeetings (sid : String)
  | disconnect (sid : String)
deriving DecidableEq, Repr

/-! ## Transport primitives -/

/-- `io.sockets.sockets.get(sid)`. -/
def findSocket (sockets : List Socket) (sid : String) : Option Socket :=
  sockets.find? (fun s => decide (s.id = sid))

/-- Write back the mutated socket object. -/
def updateSocket (sockets : List Socket) (sid : String) (s1 : Socket) : List Socket :=
  sockets.map (fun s => if s.id = sid then s1 else s)

/-- `io.to(room).emit(ev)`: one delivery to every connected socket in `room`. -/
def emitToRoom (sockets : List Socket) (room : Room) (ev : OutEvent) : List Delivery :=
  (sockets.filter (fun s => decide (room ∈ s.rooms))).map (fun s => (s.id, ev))

/-- `socket.to(room).emit(ev)`: one delivery to every connected socket in `room`
that is not in the room named by the sender's id. -/
def emitToRoomExcept (sockets : List Socket) (room : Room) (sender : String) (ev : OutEvent) :
    List Delivery :=
  (sockets.filter (fun s => decide (room ∈ s.rooms) && decide (Room.own sender ∉ s.rooms))).map
    (fun s => (s.id, ev))

/-! ## Handlers -/

/-- The `io.use` middleware: identity taken from the handshake query, with
`'user-' + Date.now()` and `'User ' + Math.floor(Math.random() * 1000)` as
defaults (`now` and `rnd` are the two values drawn from the environment). -/
def authenticate (q : Handshake) (now rnd : Nat) : User :=
  { id := match q.userId with
      | some s => if s ≠ "" then s else "user-" ++ toString now
      | none => "user-" ++ toString now
    username := match q.userName with
      | some s => if s ≠ "" then s else "User " ++ toString rnd
      | none => "User " ++ toString rnd
    isGuest := decide (q.isGuest = some "true") }

/-- A handshake completes: the socket enters the namespace, in the room of its
own id, with `meetingId` undefined. The transport issues non-empty ids not in
use; a connect event with another id does not occur and is ignored. -/
def handleConnect (st : State) (sid : String) (q : Handshake) (now rnd : Nat) :
    State × List Delivery :=
  if sid = "" ∨ (findSocket st.sockets sid).isSome then (st, [])
  else
    ({ st with sockets := st.sockets ++
        [{ id := sid, user := authenticate q now rnd, meetingId := .undefined,
           rooms := [Room.own sid] }] },
     [])

/-- The `.map(uid => ...)` callback of the join handler: the first connected
socket whose user id is `uid` supplies name and guest flag. -/
def describeUser (sockets : List Socket) (uid : String) : UserInfo :=
  match sockets.find? (fun s => decide (s.user.id = uid)) with
  | some s =>
    { id := uid
      name := if s.user.username ≠ "" then s.user.username else "Participant"
      isGuest := s.user.isGuest }
  | none => { id := uid, name := "Participant", isGuest := true }

/-- Handler of `join-meeting`. -/
def handleJoinMeeting (st : State) (sid : String) (data : Option JsVal) :
    State × List Delivery :=
  match findSocket st.sockets sid with
  | none => (st, [])
  | some socket =>
    match data with
    | none => (st, [(sid, OutEvent.error "Failed to join meeting")])
    | some meetingId =>
      let socket1 : Socket :=
        { socket with rooms := setAdd socket.rooms (roomName meetingId), meetingId := meetingId }
      let sockets1 := updateSocket st.sockets sid socket1
      let am1 :=
        if mapHas st.activeMeetings meetingId then st.activeMeetings
        else mapSet st.activeMeetings meetingId []
      let mus1 :=
        if mapHas st.meetingUserSockets meetingId then st.meetingUserSockets
        else mapSet st.meetingUserSockets meetingId []
      let participants := (mapGet am1 meetingId).getD []
      let userSocketMap := (mapGet mus1 meetingId).getD []
      let existingUsers :=
        (participants.filter (fun uid => decide (uid ≠ socket.user.id))).map (describeUser sockets1)
      let am2 := mapSet am1 meetingId (setAdd participants socket.user.id)
      let mus2 := mapSet mus1 meetingId (mapSet userSocketMap socket.user.id sid)
      ({ activeMeetings := am2, meetingUserSockets := mus2, sockets := sockets1 },
       (sid, OutEvent.existingUsers existingUsers) ::
         emitToRoomExcept sockets1 (roomName meetingId) sid
           (OutEvent.userJoined socket.user.id socket.user.username socket.user.isGuest))

/-- Body shared by the `offer`, `answer` and `ice-candidate` handlers, which
differ only in the event they emit. -/
def relaySignal (mk : String → JsVal → OutEvent) (st : State) (sid : String)
    (data : Option (JsVal × JsVal)) : State × List Delivery :=
  match findSocket st.sockets sid with
  | none => (st, [])
  | some socket =>
    match data with
    | none => (st, [])
    | some (target, payload) =>
      if !socket.meetingId.truthy then (st, [])
      else
        let targetSocketId : Option String :=
          match mapGet st.meetingUserSockets socket.meetingId with
          | some userSocketMap =>
            match target with
            | .str uid => mapGet userSocketMap uid
            | _ => none
          | none => none
        match targetSocketId with
        | some targetSocketId1 =>
          if targetSocketId1 ≠ "" then
            (st, emitToRoom st.sockets (Room.own targetSocketId1) (mk socket.user.id payload))
          else (st, [])
        | none => (st, [])

/-- Handler of `offer`. -/
def handleOffer : State → String → Option (JsVal × JsVal) → State × List Delivery :=
  relaySignal OutEvent.offer

/-- Handler of `answer`. -/
def handleAnswer : State → String → Option (JsVal × JsVal) → State × List Delivery :=
  relaySignal OutEvent.answer

/-- Handler of `ice-candidate`. -/
def handleIceCandidate : State → String → Option (JsVal × JsVal) → State × List Delivery :=
  relaySignal OutEvent.iceCandidate

/-- The "remove from tracking" block on `activeMeetings`. -/
def removeParticipant (am : List (JsVal × List String)) (meetingId : JsVal) (uid : String) :
    List (JsVal × List String) :=
  match mapGet am meetingId with
  | none => am
  | some participants =>
    if (setDelete participants uid).length = 0 then mapDelete am meetingId
    else mapSet am meetingId (setDelete participants uid)

/-- The "remove from tracking" block on `meetingUserSockets`. -/
def removeUserSocket (mus : List (JsVal × List (String × String))) (meetingId : JsVal)
    (uid : String) : List (JsVal × List (String × String)) :=
  match mapGet mus meetingId with
  | none => mus
  | some userSocketMap =>
    if (mapDelete userSocketMap uid).length = 0 then mapDelete mus meetingId
    else mapSet mus meetingId (mapDelete userSocketMap uid)

/-- Handler of `leave-meeting`. -/
def handleLeaveMeeting (st : State) (sid : String) (data : Option JsVal) :
    State × List Delivery :=
  match findSocket st.sockets sid with
  | none => (st, [])
  | some socket =>
    match data with
    | none => (st, [])
    | some meetingId =>
      if socket.meetingId.truthy then
        let socket1 : Socket :=
          { socket with rooms := setDelete socket.rooms (roomName meetingId), meetingId := .null }
        ({ activeMeetings := removeParticipant st.activeMeetings meetingId socket.user.id
           meetingUserSockets := removeUserSocket st.meetingUserSockets meetingId socket.user.id
           sockets := updateSocket st.sockets sid socket1 },
         emitToRoomExcept st.sockets (roomName meetingId) sid
           (OutEvent.userLeft socket.user.id socket.user.username socket.user.isGuest))
      else (st, [])

/-- Handler of `chat-message`; `now` is the value of `new Date()`. -/
def handleChatMessage (st : State) (sid : String) (data : Option (JsVal × JsVal)) (now : Nat) :
    State × List Delivery :=
  match findSocket st.sockets sid with
  | none => (st, [])
  | some socket =>
    match data with
    | none => (st, [(sid, OutEvent.error "Failed to send message")])
    | some (message, messageType) =>
      if !socket.meetingId.truthy then (st, [])
      else
        (st, emitToRoom st.sockets (roomName socket.meetingId)
          (OutEvent.chatMessage socket.user.id socket.user.username message
            (if messageType = .undefined then .str "text" else messageType) now))

/-- Handler of `disconnect`. The transport has already taken the socket out of
all its rooms and out of the namespace when the handler runs. -/
def handleDisconnect (st : State) (sid : String) : State × List Delivery :=
  match findSocket st.sockets sid with
  | none => (st, [])
  | some socket =>
    let sockets1 := st.sockets.filter (fun s => decide (s.id ≠ sid))
    if socket.meetingId.truthy then
      ({ activeMeetings := removeParticipant st.activeMeetings socket.meetingId socket.user.id
         meetingUserSockets :=
           removeUserSocket st.meetingUserSockets socket.meetingId socket.user.id
         sockets := sockets1 },
       emitToRoomExcept sockets1 (roomName socket.meetingId) sid
         (OutEvent.userLeft socket.user.id socket.user.username socket.user.isGuest))
    else ({ st with sockets := sockets1 }, [])

/-- One event processed to completion: the new state and the deliveries made,
in emission order. `debug-meetings` only writes to the console. -/
def step (st : State) : Event → State × List Delivery
  | .connect sid q now rnd => handleConnect st sid q now rnd
  | .joinMeeting sid data => handleJoinMeeting st sid data
  | .offer sid data => handleOffer st sid data
  | .answer sid data => handleAnswer st sid data
  | .iceCandidate sid data => handleIceCandidate st sid data
  | .leaveMeeting sid data => handleLeaveMeeting st sid data
  | .chatMessage sid data now => handleChatMessage st sid data now
  | .debugMeetings _ => (st, [])
  | .disconnect sid => handleDisconnect st sid

/-- State after a finite sequence of events. -/
def run (st : State) : List Event → State
  | [] => st
  | e :: es => run (step st e).1 es

/-- Participant set of a meeting (`activeMeetings.get(m)`, empty when absent). -/
def participantsOf (st : State) (m : JsVal) : List String :=
  (mapGet st.activeMeetings m).getD []

/-- Directory of a meeting (`meetingUserSockets.get(m)`, empty when absent). -/
def directoryOf (st : State) (m : JsVal) : List (String × String) :=
  (mapGet st.meetingUserSockets m).getD []

/-! ## Allowed origins (`server.js`) -/

/-- Code points removed by `String.prototype.trim`: the white space and line
terminator characters of ECMAScript. -/
def isJsWhitespace (c : Char) : Bool :=
  decide (c.toNat ∈ [0x9, 0xA, 0xB, 0xC, 0xD, 0x20, 0xA0, 0x1680, 0x2028, 0x2029, 0x202F,
    0x205F, 0x3000, 0xFEFF]) || (decide (0x2000 ≤ c.toNat) && decide (c.toNat ≤ 0x200A))

/-- `split(',')` on the characters of a string: the segments between the
commas, at least one. -/
def splitComma : List Char → List (List Char)
  | [] => [[]]
  | c :: cs =>
    if c = ',' then [] :: splitComma cs
    else
      match splitComma cs with
      | [] => [[c]]
      | seg :: rest => (c :: seg) :: rest

/-- Segments put together again with a comma between neighbours: what the
segments of a split have to give back. -/
def joinComma : List (List Char) → List Char
  | [] => []
  | [seg] => seg
  | seg :: next :: rest => seg ++ ',' :: joinComma (next :: rest)

/-- `trim()`: white space dropped at both ends. -/
def jsTrim (s : List Char) : List Char :=
  ((s.dropWhile isJsWhitespace).reverse.dropWhile isJsWhitespace).reverse

/-- `getAllowedOrigins`; the argument is `process.env.FRONTEND_URL`, `none` when
the variable is unset. The warnings written to the console are left out. -/
def getAllowedOrigins (env : Option String) : List String :=
  let frontendUrl : String :=
    match env with
    | some v => if v ≠ "" then v else ""
    | none => ""
  let origins := ((splitComma frontendUrl.data).map jsTrim).filter (fun u => decide (u ≠ []))
  if origins.length = 0 then ["http://localhost:3000"] else origins.map String.mk

/-! ## Update-meeting query (`routes/meetings.js`) -/

/-- The fields of the request body read by the update route; `none` stands for
`undefined`. -/
structure UpdateBody (α : Type) where
  title : Option α
  description : Option α
  startTime : Option α
  duration : Option α
  maxParticipants : Option α

/-- The three variables of the builder: `updateFields`, `params`, `paramIndex`. -/
structure UpdateBuilder (α : Type) where
  updateFields : List String
  params : List α
  paramIndex : Nat

/-- One block `if (field !== undefined) { push; push; paramIndex++ }`. -/
def UpdateBuilder.addField {α : Type} (b : UpdateBuilder α) (column : String) :
    Option α → UpdateBuilder α
  | none => b
  | some v =>
    { updateFields := b.updateFields ++ [column ++ " = $" ++ toString b.paramIndex]
      params := b.params ++ [v]
      paramIndex := b.paramIndex + 1 }

/-- The statement handed to `query`: its text and its parameter array. -/
structure UpdateQuery (α : Type) where
  text : String
  params : List α

/-- The update builder of the handler of `PUT /:id`, from the first `if` block
to the call of `query`; the error is the message of the 400 response. The
lines of the handler before it are in `updateMeeting`. -/
def buildUpdate {α : Type} (id : α) (body : UpdateBody α) : Except String (UpdateQuery α) :=
  let b0 : UpdateBuilder α := { updateFields := [], params := [], paramIndex := 1 }
  let b1 := b0.addField "title" body.title
  let b2 := b1.addField "description" body.description
  let b3 := b2.addField "start_time" body.startTime
  let b4 := b3.addField "duration" body.duration
  let b5 := b4.addField "max_participants" body.maxParticipants
  if b5.updateFields.length = 0 then Except.error "No fields to update"
  else
    Except.ok
      { text := "UPDATE meetings SET " ++ ", ".intercalate b5.updateFields ++
          ", updated_at = CURRENT_TIMESTAMP WHERE id = $" ++ toString b5.paramIndex ++
          " RETURNING *"
        params := b5.params ++ [id] }

/-- The request as the route `PUT /:id` reads it. `errors` is
`validationResult(req)`: what the five validator chains declared with the
route (functions of `express-validator`, each of them `.optional()`) have
recorded when the handler starts; the entries are values of that library.
`user` is the outcome of the middleware `authenticateToken`
(`middleware/auth.js`): `none` when it ended the request itself, otherwise
`req.user.id`. `id` is `req.params.id`; `body` is `req.body`, `none` when the
request has no body object. -/
structure UpdateRequest (α υ ε : Type) where
  errors : List ε
  user : Option υ
  id : α
  body : Option (UpdateBody α)

/-- The outcome of `query('SELECT host_id FROM meetings WHERE id = $1', [id])`:
the promise is rejected, or it gives the `host_id` of each row found. -/
inductive SelectResult (υ : Type) where
  | failed
  | rows (hostIds : List υ)

/-- What the route does with a request, up to the call of `query` with the
UPDATE statement: `stopped` when `authenticateToken` ended the request and the
handler did not run; `invalid` for `res.status(400).json({ errors:
errors.array() })`; `error status message` for
`res.status(status).json({ error: message })`; `update q` when the statement
`q` is passed to `query`. -/
inductive UpdateResult (α ε : Type) where
  | stopped
  | invalid (errors : List ε)
  | error (status : Nat) (message : String)
  | update (q : UpdateQuery α)

/-- The route `PUT /:id`: the middleware, then the handler from its first line
to the call of `query` with the UPDATE statement. `db` is the answer of the
database to the ownership query for a meeting id. Without a body the
destructuring of `req.body` throws, and a rejected ownership query throws as
well: both end in the `catch` block. -/
def updateMeeting {α υ ε : Type} [DecidableEq υ] (db : α → SelectResult υ)
    (req : UpdateRequest α υ ε) : UpdateResult α ε :=
  match req.user with
  | none => .stopped
  | some userId =>
    if req.errors.length ≠ 0 then .invalid req.errors
    else
      match req.body with
      | none => .error 500 "Failed to update meeting"
      | some body =>
        match db req.id with
        | .failed => .error 500 "Failed to update meeting"
        | .rows [] => .error 404 "Meeting not found"
        | .rows (hostId :: _) =>
          if hostId ≠ userId then .error 403 "Only meeting host can update meeting"
          else
            match buildUpdate req.id body with
            | .error message => .error 400 message
            | .ok q => .update q

/-- The fields defined in the body, in the fixed order, each with its column
name: the reading of the specification. -/
def providedFields {α : Type} (body : UpdateBody α) : List (String × α) :=
  [("title", body.title), ("description", body.description), ("start_time", body.startTime),
   ("duration", body.duration), ("max_participants", body.maxParticipants)].filterMap
    (fun p => p.2.map (fun v => (p.1, v)))

/-- The assignments `column = $k` for the given fields, numbered from 1. -/
def setClauses {α : Type} (fields : List (String × α)) : List String :=
  fields.enum.map (fun p => p.2.1 ++ " = $" ++ toString (p.1 + 1))

/-! ## Client participant list (`frontend/src/pages/Meeting.js`) -/

/-- An entry of the `participants` state of the meeting page. -/
structure Participant where
  id : String
  name : String
  isGuest : Bool
  isCurrentUser : Bool
deriving DecidableEq, Repr

/-- An element of the `users` array of an `existing-users` event: an object with
id, name and guest flag, or any other value, which is taken as the user id. -/
inductive ExistingUser where
  | object (id : String) (name : Option String) (isGuest : Bool)
  | plain (id : String)
deriving DecidableEq, Repr

/-- The updater `prev => prev.some(p => p.id === id) ? prev : [...prev, p]`. -/
def addIfAbsent (prev : List Participant) (p : Participant) : List Participant :=
  if prev.any (fun q => decide (q.id = p.id)) then prev else prev ++ [p]

/-- The entry the `existing-users` handler makes of an element of `users`. -/
def ExistingUser.toParticipant : ExistingUser → Participant
  | .object id name isGuest =>
    { id := id
      name := match name with
        | some n => if n ≠ "" then n else "Participant"
        | none => "Participant"
      isGuest := isGuest
      isCurrentUser := false }
  | .plain id => { id := id, name := "Participant", isGuest := true, isCurrentUser := false }

/-- The updater of the `existing-users` handler. -/
def onExistingUsers (prev : List Participant) (users : List ExistingUser) : List Participant :=
  users.foldl (fun newParticipants existingUser =>
    if !newParticipants.any (fun p => decide (p.id = existingUser.toParticipant.id)) then
      newParticipants ++ [existingUser.toParticipant]
    else newParticipants) prev

/-- The first updater of the `user-joined` handler: update or add. -/
def onUserJoined (prev : List Participant) (userId username : String) (isGuest : Bool) :
    List Participant :=
  if prev.any (fun p => decide (p.id = userId)) then
    prev.map (fun p => if p.id = userId then { p with name := username, isGuest := isGuest } else p)
  else prev ++ [{ id := userId, name := username, isGuest := isGuest, isCurrentUser := false }]

/-- Updates of the participant list: the `existing-users` handler, the first
updater of the `user-joined` handler, the updater that goes with a peer
creation (at the end of the `user-joined` handler and where its queue of
pending peers is processed), and the addition of the current user. -/
inductive ClientUpdate where
  | existingUsers (users : List ExistingUser)
  | userJoined (userId username : String) (isGuest : Bool)
  | peerAdded (userId username : String) (isGuest : Bool)
  | currentUser (userId userName : String) (isGuest : Bool)
deriving DecidableEq, Repr

/-- One update applied to the list. -/
def applyUpdate (prev : List Participant) : ClientUpdate → List Participant
  | .existingUsers users => onExistingUsers prev users
  | .userJoined userId username isGuest => onUserJoined prev userId username isGuest
  | .peerAdded userId username isGuest =>
    addIfAbsent prev { id := userId, name := username, isGuest := isGuest, isCurrentUser := false }
  | .currentUser userId userName isGuest =>
    addIfAbsent prev { id := userId, name := userName, isGuest := isGuest, isCurrentUser := true }

/-- A sequence of updates applied in order. -/
def applyUpdates (prev : List Participant) (us : List ClientUpdate) : List Participant :=
  us.foldl applyUpdate prev

/-! ## Invariants of the state -/

/-- The directory map with every directory replaced by its key list: the shape
of `activeMeetings`. -/
def directoryKeys (mus : List (JsVal × List (String × String))) : List (JsVal × List String) :=
  mus.map (fun p => (p.1, mapKeys p.2))

/-- Invariants kept by every handler: the two maps agree entry by entry, no
room is empty, a participant set has no repeated element, socket ids are
pairwise distinct, and the only socket-id room a socket is in is its own. -/
structure WellFormed (st : State) : Prop where
  sync : directoryKeys st.meetingUserSockets = st.activeMeetings
  nonempty : ∀ p ∈ st.activeMeetings, p.2 ≠ []
  nodup : ∀ p ∈ st.activeMeetings, p.2.Nodup
  ids : (st.sockets.map Socket.id).Nodup
  own : ∀ s ∈ st.sockets, ∀ x, Room.own x ∈ s.rooms ↔ x = s.id

/-- The property of a state that every entry `participantId -> socket id` of a
room's directory refers to a socket that is connected, carries that
participant id, and has that room as its current `meetingId`. -/
def DirectoryLive (st : State) : Prop :=
  ∀ (m : JsVal) (uid sid : String), (uid, sid) ∈ directoryOf st m →
    ∃ c, findSocket st.sockets sid = some c ∧ c.user.id = uid ∧ c.meetingId = m

/-- Form of `DirectoryLive` that is kept by the handlers: it speaks of every
entry of the directory map, and adds that every key is a truthy meeting id. -/
def LiveEntries (st : State) : Prop :=
  (∀ p ∈ st.meetingUserSockets, p.1.truthy = true) ∧
    ∀ p ∈ st.meetingUserSockets, ∀ e ∈ p.2,
      ∃ c, findSocket st.sockets e.2 = some c ∧ c.user.id = e.1 ∧ c.meetingId = p.1

/-- An event of a client that keeps to one meeting at a time: a join names a
truthy meeting id and comes from a socket that is in no meeting or already in
that one, and a leave names the sender's current meeting. -/
def Event.disciplined (st : State) : Event → Bool
  | .joinMeeting sid (some m) =>
    m.truthy &&
      (match findSocket st.sockets sid with
        | some c => !c.meetingId.truthy || decide (c.meetingId = m)
        | none => true)
  | .leaveMeeting sid (some m) =>
    match findSocket st.sockets sid with
    | some c => !c.meetingId.truthy || decide (c.meetingId = m)
    | none => true
  | _ => true

/-- Every event of the sequence is disciplined in the state it is processed in. -/
def disciplinedTrace (st : State) : List Event → Bool
  | [] => true
  | e :: es => e.disciplined st && disciplinedTrace (step st e).1 es

/-- The event does not take the participant id `uid` out of meeting `m`: it is
neither a leave naming `m` nor a disconnect with current meeting `m` that is
processed for a socket carrying `uid`. -/
def Event.keeps (uid : String) (m : JsVal) (st : State) : Event → Bool
  | .leaveMeeting sid (some m1) =>
    match findSocket st.sockets sid with
    | some c => !(c.meetingId.truthy && decide (m1 = m) && decide (c.user.id = uid))
    | none => true
  | .disconnect sid =>
    match findSocket st.sockets sid with
    | some c => !(c.meetingId.truthy && decide (c.meetingId = m) && decide (c.user.id = uid))
    | none => true
  | _ => true

/-- No event of the sequence takes `uid` out of meeting `m`. -/
def keepsParticipant (uid : String) (m : JsVal) (st : State) : List Event → Bool
  | [] => true
  | e :: es => e.keeps uid m st && keepsParticipant uid m (step st e).1 es

/-- Deliveries made by each event of a sequence, one list per event. -/
def runOutputs (st : State) : List Event → List (List Delivery)
  | [] => []
  | e :: es => (step st e).2 :: runOutputs (step st e).1 es

/-- The event is an `existing-users` event. -/
def OutEvent.isExistingUsers : OutEvent → Bool
  | .existingUsers _ => true
  | _ => false

/-- Facts kept for every connected socket: its display name is not empty, and
when its current meeting id is truthy it is in the transport room of that
meeting. -/
def SocketsSound (st : State) : Prop :=
  ∀ s ∈ st.sockets,
    s.user.username ≠ "" ∧ (s.meetingId.truthy = true → roomName s.meetingId ∈ s.rooms)

/-! ## Scenarios -/

/-- Handshake of a registered user with the given id and name. -/
def hello (userId userName : String) : Handshake :=
  { userId := some userId, userName := some userName, isGuest := none }

/-- Ann connects on socket s1 and joins meeting A. -/
def traceAnnInA : List Event :=
  [Event.connect "s1" (hello "u1" "Ann") 0 0, Event.joinMeeting "s1" (some (JsVal.str "A"))]

/-- Ann, in meeting A, joins meeting B on the same socket. -/
def traceAnnMoves : List Event :=
  traceAnnInA ++ [Event.joinMeeting "s1" (some (JsVal.str "B"))]

/-- Ann (socket s1) and Bob (socket s2) are both in meeting A. -/
def traceAnnBobInA : List Event :=
  traceAnnInA ++
    [Event.connect "s2" (hello "u2" "Bob") 0 0, Event.joinMeeting "s2" (some (JsVal.str "A"))]

/-- Ann has the application open on two sockets, s1 and s2, and joins meeting A
on both; Cid is connected on socket s3. -/
def traceTwoTabs : List Event :=
  traceAnnInA ++
    [Event.connect "s2" (hello "u1" "Ann") 0 0, Event.joinMeeting "s2" (some (JsVal.str "A")),
     Event.connect "s3" (hello "u3" "Cid") 0 0]

/-- Ann (socket s1) is in meeting A and Bob (socket s2) is in meeting B. -/
def traceAnnABobB : List Event :=
  traceAnnInA ++
    [Event.connect "s2" (hello "u2" "Bob") 0 0, Event.joinMeeting "s2" (some (JsVal.str "B"))]

/-- Bob (socket s2) is in meeting B; Mal connects on socket s1 with Bob's user
id in the handshake query and joins meeting A. -/
def traceBorrowedId : List Event :=
  [Event.connect "s2" (hello "u2" "Bob") 0 0, Event.joinMeeting "s2" (some (JsVal.str "B")),
   Event.connect "s1" (hello "u2" "Mal") 0 0, Event.joinMeeting "s1" (some (JsVal.str "A"))]

/-- Ann connects on socket s1 and joins the meeting whose id is the empty string. -/
def traceEmptyId : List Event :=
  [Event.connect "s1" (hello "u1" "Ann") 0 0, Event.joinMeeting "s1" (some (JsVal.str ""))]

/-- Ann joins meeting A, then meeting B on the same socket, and disconnects, so
A's directory still maps her id to the closed socket s1; then Bob (socket s2)
joins meeting A. -/
def traceClosedTarget : List Event :=
  traceAnnMoves ++
    [Event.disconnect "s1", Event.connect "s2" (hello "u2" "Bob") 0 0,
     Event.joinMeeting "s2" (some (JsVal.str "A"))]

/-- Ann joins meeting A on sockets s1 and s2, Cid (socket s3) joins A, and Ann's
socket s2 leaves A, which takes her id out of A's participant set and
directory while socket s1 still has A as its current meeting. -/
def traceSecondTabLeft : List Event :=
  traceTwoTabs ++
    [Event.joinMeeting "s3" (some (JsVal.str "A")),
     Event.leaveMeeting "s2" (some (JsVal.str "A"))]

/-- Ann joins meeting A on sockets s1 and s2, Cid connects on socket s3, and
Ann's socket s2 leaves A; her socket s1 stays connected with A as its current
meeting. -/
def traceSecondTabLeftEarly : List Event :=
  traceTwoTabs ++ [Event.leaveMeeting "s2" (some (JsVal.str "A"))]

/-- Ann (socket s1) is in meeting A and Bob (socket s2) is connected. -/
def traceAnnInABobConnected : List Event :=
  traceAnnInA ++ [Event.connect "s2" (hello "u2" "Bob") 0 0]

/-- End-to-end scenario 1: A and B connect, A joins the meeting, B joins it, B
sends A an offer, A disconnects, B leaves. -/
def scenarioOne (a b : String) (qa qb : Handshake) (na ra nb rb : Nat) (name : String)
    (P : JsVal) : List Event :=
  [Event.connect a qa na ra, Event.connect b qb nb rb,
   Event.joinMeeting a (some (JsVal.str name)), Event.joinMeeting b (some (JsVal.str name)),
   Event.offer b (some (JsVal.str (authenticate qa na ra).id, P)),
   Event.disconnect a, Event.leaveMeeting b (some (JsVal.str name))]

/-- Two sockets carry the user id u2: s1 (name Mal), connected first, and s2
(name Bob), which joins meeting A; Cid is connected on socket s3. -/
def traceSameIdTwoNames : List Event :=
  [Event.connect "s1" (hello "u2" "Mal") 0 0, Event.connect "s2" (hello "u2" "Bob") 0 0,
   Event.joinMeeting "s2" (some (JsVal.str "A")), Event.connect "s3" (hello "u3" "Cid") 0 0]

/-- The meetings table holds one meeting, with id 7 and host 1: the answer to
the ownership query of the update route. -/
def meetingSevenOfOne : String → SelectResult Nat :=
  fun id => if id = "7" then SelectResult.rows [1] else SelectResult.rows []

/-- User 2, who is not the host, sends an empty body for meeting 7; no
validator chain has recorded an error. -/
def emptyUpdateByOther : UpdateRequest String Nat String :=
  { errors := [], user := some 2, id := "7",
    body := some { title := none, description := none, startTime := none, duration := none,
                   maxParticipants := none } }

/-- The host sends an empty title and the duration "5" for meeting 7; the
chains of title and duration have each recorded an error, written here as the
name of the field. -/
def invalidUpdateByHost : UpdateRequest String Nat String :=
  { errors := ["title", "duration"], user := some 1, id := "7",
    body := some { title := some "", description := none, startTime := none,
                   duration := some "5", maxParticipants := none } }

/-- The host sends a title and a start time for meeting 7; no validator chain
has recorded an error. -/
def titleAndStartByHost : UpdateRequest String Nat String :=
  { errors := [], user := some 1, id := "7",
    body := some { title := some "Standup", description := none,
                   startTime := some "2026-11-05T10:00:00Z", duration := none,
                   maxParticipants := none } }

/-! ## Containers: basic facts -/

section Containers

variable {κ α : Type} [DecidableEq κ]

theorem mapHas_iff_mem_keys (m : List (κ × α)) (k : κ) :
    mapHas m k = true ↔ k ∈ mapKeys m := by
  simp [mapHas, mapKeys]

theorem mapGet_cons (p : κ × α) (t : List (κ × α)) (k : κ) :
    mapGet (p :: t) k = if p.1 = k then some p.2 else mapGet t k := by
  by_cases h : p.1 = k
  · simp [mapGet, List.find?_cons, h]
  · simp [mapGet, List.find?_cons, h]

theorem mapHas_cons (p : κ × α) (t : List (κ × α)) (k : κ) :
    mapHas (p :: t) k = (decide (p.1 = k) || mapHas t k) := by
  simp [mapHas]

theorem mapGet_eq_none_iff (m : List (κ × α)) (k : κ) :
    mapGet m k = none ↔ k ∉ mapKeys m := by
  induction m with
  | nil => simp [mapGet, mapKeys]
  | cons p t ih =>
    rw [mapGet_cons]
    by_cases h : p.1 = k
    · rw [if_pos h]
      simp [mapKeys, h]
    · rw [if_neg h, ih]
      have h1 : ¬ k = p.1 := fun e => h e.symm
      simp [mapKeys, h1]

theorem mapGet_mem (m : List (κ × α)) (k : κ) (v : α) (h : mapGet m k = some v) :
    (k, v) ∈ m := by
  induction m with
  | nil => simp [mapGet] at h
  | cons p t ih =>
    rw [mapGet_cons] at h
    by_cases hp : p.1 = k
    · rw [if_pos hp] at h
      have hv : p.2 = v := Option.some.inj h
      have : p = (k, v) := Prod.ext hp hv
      rw [this]
      exact List.mem_cons_self _ _
    · rw [if_neg hp] at h
      exact List.mem_cons_of_mem _ (ih h)

theorem mapGet_replace_self (m : List (κ × α)) (k : κ) (v : α) (hh : mapHas m k = true) :
    mapGet (m.map (fun p => if p.1 = k then (k, v) else p)) k = some v := by
  induction m with
  | nil => simp [mapHas] at hh
  | cons p t ih =>
    rw [List.map_cons, mapGet_cons]
    by_cases hp : p.1 = k
    · simp [hp]
    · rw [mapHas_cons] at hh
      have ht : mapHas t k = true := by simpa [hp] using hh
      simp only [if_neg hp]
      exact ih ht

theorem mapGet_replace_ne (m : List (κ × α)) (k k1 : κ) (v : α) (h : k1 ≠ k) :
    mapGet (m.map (fun p => if p.1 = k then (k, v) else p)) k1 = mapGet m k1 := by
  induction m with
  | nil => rfl
  | cons p t ih =>
    rw [List.map_cons, mapGet_cons, mapGet_cons, ih]
    by_cases hp : p.1 = k
    · have hp1 : ¬ p.1 = k1 := fun e => h (e.symm.trans hp)
      have hk : ¬ k = k1 := fun e => h e.symm
      simp [hp, hp1, hk]
    · simp [hp]

theorem mapGet_append_single (m : List (κ × α)) (k k1 : κ) (v : α) :
    mapGet (m ++ [(k, v)]) k1 =
      match mapGet m k1 with
      | some x => some x
      | none => if k = k1 then some v else none := by
  induction m with
  | nil =>
    rw [List.nil_append, mapGet_cons]
    rfl
  | cons p t ih =>
    rw [List.cons_append, mapGet_cons, mapGet_cons, ih]
    by_cases hp : p.1 = k1
    · simp [hp]
    · simp [hp]

theorem mapGet_mapSet_self (m : List (κ × α)) (k : κ) (v : α) :
    mapGet (mapSet m k v) k = some v := by
  unfold mapSet
  by_cases hh : mapHas m k = true
  · rw [if_pos hh]
    exact mapGet_replace_self m k v hh
  · rw [if_neg hh, mapGet_append_single]
    have hn : mapGet m k = none :=
      (mapGet_eq_none_iff m k).2 (fun c => hh ((mapHas_iff_mem_keys m k).2 c))
    rw [hn]
    simp

theorem mapGet_mapSet_ne (m : List (κ × α)) (k k1 : κ) (v : α) (h : k1 ≠ k) :
    mapGet (mapSet m k v) k1 = mapGet m k1 := by
  unfold mapSet
  by_cases hh : mapHas m k = true
  · rw [if_pos hh]
    exact mapGet_replace_ne m k k1 v h
  · rw [if_neg hh, mapGet_append_single]
    have hk : ¬ k = k1 := fun e => h e.symm
    cases hg : mapGet m k1 <;> simp [hk]

theorem mapGet_mapDelete_self (m : List (κ × α)) (k : κ) :
    mapGet (mapDelete m k) k = none := by
  rw [mapGet_eq_none_iff]
  simp [mapKeys, mapDelete]

theorem mapGet_mapDelete_ne (m : List (κ × α)) (k k1 : κ) (h : k1 ≠ k) :
    mapGet (mapDelete m k) k1 = mapGet m k1 := by
  induction m with
  | nil => rfl
  | cons p t ih =>
    by_cases hp : p.1 = k
    · have hp1 : ¬ p.1 = k1 := fun e => h (e.symm.trans hp)
      have hd : mapDelete (p :: t) k = mapDelete t k := by
        simp [mapDelete, List.filter_cons, hp]
      rw [hd, ih, mapGet_cons, if_neg hp1]
    · have hd : mapDelete (p :: t) k = p :: mapDelete t k := by
        simp [mapDelete, List.filter_cons, hp]
      rw [hd, mapGet_cons, mapGet_cons, ih]

theorem mapKeys_mapSet (m : List (κ × α)) (k : κ) (v : α) :
    mapKeys (mapSet m k v) = setAdd (mapKeys m) k := by
  unfold mapSet setAdd
  by_cases hh : mapHas m k = true
  · have hk : k ∈ mapKeys m := (mapHas_iff_mem_keys m k).1 hh
    rw [if_pos hh, if_pos hk]
    simp only [mapKeys, List.map_map]
    apply List.map_congr_left
    intro p _
    by_cases hp : p.1 = k <;> simp [hp]
  · have hk : k ∉ mapKeys m := fun c => hh ((mapHas_iff_mem_keys m k).2 c)
    rw [if_neg hh, if_neg hk]
    simp [mapKeys]

theorem mapKeys_mapDelete (m : List (κ × α)) (k : κ) :
    mapKeys (mapDelete m k) = setDelete (mapKeys m) k := by
  induction m with
  | nil => rfl
  | cons p t ih =>
    by_cases hp : p.1 = k
    · simpa [mapKeys, mapDelete, setDelete, List.filter_cons, hp] using ih
    · simpa [mapKeys, mapDelete, setDelete, List.filter_cons, hp] using ih

theorem mem_setAdd {β : Type} [DecidableEq β] (s : List β) (x y : β) :
    y ∈ setAdd s x ↔ y ∈ s ∨ y = x := by
  unfold setAdd
  split
  · constructor
    · exact Or.inl
    · rintro (h | h)
      · exact h
      · subst h; assumption
  · simp

theorem mem_setDelete {β : Type} [DecidableEq β] (s : List β) (x y : β) :
    y ∈ setDelete s x ↔ y ∈ s ∧ y ≠ x := by
  simp [setDelete]

theorem nodup_setAdd {β : Type} [DecidableEq β] (s : List β) (x : β) (h : s.Nodup) :
    (setAdd s x).Nodup := by
  unfold setAdd
  split
  · exact h
  · rename_i hx
    rw [List.nodup_append]
    refine ⟨h, List.nodup_singleton x, ?_⟩
    intro a ha hb
    have e : a = x := by simpa using hb
    exact hx (e ▸ ha)

theorem nodup_setDelete {β : Type} [DecidableEq β] (s : List β) (x : β) (h : s.Nodup) :
    (setDelete s x).Nodup :=
  h.filter _

end Containers

/-! ## The two maps move together -/

theorem mapHas_directoryKeys (mus : List (JsVal × List (String × String))) (m : JsVal) :
    mapHas (directoryKeys mus) m = mapHas mus m := by
  induction mus with
  | nil => rfl
  | cons p t ih =>
    have hc : directoryKeys (p :: t) = (p.1, mapKeys p.2) :: directoryKeys t := rfl
    rw [hc, mapHas_cons, mapHas_cons, ih]

theorem mapGet_directoryKeys (mus : List (JsVal × List (String × String))) (m : JsVal) :
    mapGet (directoryKeys mus) m = (mapGet mus m).map mapKeys := by
  induction mus with
  | nil => rfl
  | cons p t ih =>
    have hc : directoryKeys (p :: t) = (p.1, mapKeys p.2) :: directoryKeys t := rfl
    rw [hc, mapGet_cons, mapGet_cons, ih]
    by_cases hp : p.1 = m
    · simp [hp]
    · simp [hp]

theorem directoryKeys_mapSet (mus : List (JsVal × List (String × String))) (m : JsVal)
    (d : List (String × String)) :
    directoryKeys (mapSet mus m d) = mapSet (directoryKeys mus) m (mapKeys d) := by
  unfold mapSet
  rw [mapHas_directoryKeys]
  by_cases hh : mapHas mus m = true
  · rw [if_pos hh, if_pos hh]
    simp only [directoryKeys, List.map_map]
    apply List.map_congr_left
    intro p _
    by_cases hp : p.1 = m <;> simp [hp]
  · rw [if_neg hh, if_neg hh]
    simp [directoryKeys]

theorem directoryKeys_mapDelete (mus : List (JsVal × List (String × String))) (m : JsVal) :
    directoryKeys (mapDelete mus m) = mapDelete (directoryKeys mus) m := by
  induction mus with
  | nil => rfl
  | cons p t ih =>
    by_cases hp : p.1 = m
    · simpa [directoryKeys, mapDelete, List.filter_cons, hp] using ih
    · simpa [directoryKeys, mapDelete, List.filter_cons, hp] using ih

theorem directoryKeys_removeUserSocket (mus : List (JsVal × List (String × String)))
    (m : JsVal) (uid : String) :
    directoryKeys (removeUserSocket mus m uid) = removeParticipant (directoryKeys mus) m uid := by
  unfold removeUserSocket removeParticipant
  rw [mapGet_directoryKeys]
  cases hg : mapGet mus m with
  | none => rfl
  | some d =>
    simp only [Option.map_some']
    rw [← mapKeys_mapDelete]
    have hl : (mapKeys (mapDelete d uid)).length = (mapDelete d uid).length := by
      simp [mapKeys]
    rw [hl]
    by_cases h0 : (mapDelete d uid).length = 0
    · rw [if_pos h0, if_pos h0, directoryKeys_mapDelete]
    · rw [if_neg h0, if_neg h0, directoryKeys_mapSet]

theorem mem_mapSet {κ α : Type} [DecidableEq κ] (m : List (κ × α)) (k : κ) (v : α)
    (p : κ × α) (h : p ∈ mapSet m k v) : p ∈ m ∨ p = (k, v) := by
  unfold mapSet at h
  split at h
  · rcases List.mem_map.1 h with ⟨q, hq, e⟩
    by_cases hk : q.1 = k
    · rw [if_pos hk] at e
      exact Or.inr e.symm
    · rw [if_neg hk] at e
      exact Or.inl (e ▸ hq)
  · rcases List.mem_append.1 h with h1 | h1
    · exact Or.inl h1
    · exact Or.inr (by simpa using h1)

theorem mem_mapDelete {κ α : Type} [DecidableEq κ] (m : List (κ × α)) (k : κ)
    (p : κ × α) (h : p ∈ mapDelete m k) : p ∈ m :=
  (List.mem_filter.1 h).1

theorem mem_removeParticipant (am : List (JsVal × List String)) (m : JsVal) (uid : String)
    (p : JsVal × List String) (h : p ∈ removeParticipant am m uid) :
    p ∈ am ∨ (∃ ps, (m, ps) ∈ am ∧ p = (m, setDelete ps uid) ∧ setDelete ps uid ≠ []) := by
  unfold removeParticipant at h
  cases hg : mapGet am m with
  | none =>
    rw [hg] at h
    exact Or.inl h
  | some ps =>
    rw [hg] at h
    simp only at h
    by_cases h0 : (setDelete ps uid).length = 0
    · rw [if_pos h0] at h
      exact Or.inl (mem_mapDelete _ _ _ h)
    · rw [if_neg h0] at h
      rcases mem_mapSet _ _ _ _ h with h1 | h1
      · exact Or.inl h1
      · refine Or.inr ⟨ps, mapGet_mem _ _ _ hg, h1, ?_⟩
        intro e
        exact h0 (by rw [e]; rfl)

/-- Creating the entry first and then writing it is one `set`. -/
theorem mapSet_ensure {κ α : Type} [DecidableEq κ] (m : List (κ × α)) (k : κ) (v0 v : α) :
    mapSet (if mapHas m k then m else mapSet m k v0) k v = mapSet m k v := by
  by_cases hh : mapHas m k = true
  · rw [if_pos hh]
  · rw [if_neg hh]
    have h1 : mapSet m k v0 = m ++ [(k, v0)] := by
      unfold mapSet
      rw [if_neg hh]
    have h2 : mapSet m k v = m ++ [(k, v)] := by
      unfold mapSet
      rw [if_neg hh]
    have h3 : mapHas (m ++ [(k, v0)]) k = true := by
      simp [mapHas]
    rw [h1, h2]
    unfold mapSet
    rw [if_pos h3, List.map_append]
    have h4 : m.map (fun p => if p.1 = k then (k, v) else p) = m := by
      conv_rhs => rw [← List.map_id m]
      apply List.map_congr_left
      intro p hp
      have : ¬ p.1 = k := by
        intro e
        apply hh
        rw [mapHas_iff_mem_keys]
        exact List.mem_map.2 ⟨p, hp, e⟩
      simp [this]
    rw [h4]
    simp

/-- Reading the entry after creating it when absent. -/
theorem mapGet_ensure {κ α : Type} [DecidableEq κ] (m : List (κ × α)) (k : κ) (v0 : α) :
    (mapGet (if mapHas m k then m else mapSet m k v0) k).getD v0 = (mapGet m k).getD v0 := by
  by_cases hh : mapHas m k = true
  · rw [if_pos hh]
  · rw [if_neg hh, mapGet_mapSet_self]
    have hn : mapGet m k = none :=
      (mapGet_eq_none_iff m k).2 (fun c => hh ((mapHas_iff_mem_keys m k).2 c))
    rw [hn]
    rfl

/-! ## Sockets -/

theorem findSocket_some (l : List Socket) (sid : String) (c : Socket)
    (h : findSocket l sid = some c) : c ∈ l ∧ c.id = sid := by
  unfold findSocket at h
  refine ⟨List.mem_of_find?_eq_some h, ?_⟩
  have := List.find?_some h
  simpa using this

theorem findSocket_none (l : List Socket) (sid : String)
    (h : findSocket l sid = none) : sid ∉ l.map Socket.id := by
  unfold findSocket at h
  intro hm
  rcases List.mem_map.1 hm with ⟨s, hs, e⟩
  have := List.find?_eq_none.1 h s hs
  simp [e] at this

theorem map_id_updateSocket (l : List Socket) (sid : String) (s1 : Socket) (h : s1.id = sid) :
    (updateSocket l sid s1).map Socket.id = l.map Socket.id := by
  unfold updateSocket
  rw [List.map_map]
  apply List.map_congr_left
  intro s _
  by_cases hs : s.id = sid
  · simp [hs, h]
  · simp [hs]

theorem mem_updateSocket (l : List Socket) (sid : String) (s1 s : Socket)
    (h : s ∈ updateSocket l sid s1) : (s ∈ l ∧ s.id ≠ sid) ∨ s = s1 := by
  unfold updateSocket at h
  rcases List.mem_map.1 h with ⟨q, hq, e⟩
  by_cases hk : q.id = sid
  · rw [if_pos hk] at e
    exact Or.inr e.symm
  · rw [if_neg hk] at e
    exact Or.inl ⟨e ▸ hq, e ▸ hk⟩

theorem findSocket_updateSocket (l : List Socket) (sid : String) (c s1 : Socket)
    (h : findSocket l sid = some c) (h1 : s1.id = sid) :
    findSocket (updateSocket l sid s1) sid = some s1 := by
  induction l with
  | nil => simp [findSocket] at h
  | cons q t ih =>
    have hu : updateSocket (q :: t) sid s1 =
        (if q.id = sid then s1 else q) :: updateSocket t sid s1 := rfl
    have hf : ∀ (x : Socket) (r : List Socket),
        findSocket (x :: r) sid = if x.id = sid then some x else findSocket r sid := by
      intro x r
      by_cases hx : x.id = sid <;> simp [findSocket, List.find?_cons, hx]
    rw [hu, hf]
    by_cases hq : q.id = sid
    · simp [hq, h1]
    · rw [hf, if_neg hq] at h
      rw [if_neg hq, if_neg hq]
      exact ih h


/-! ## What each handler does -/

/-- The socket object as the join handler leaves it. -/
theorem handleJoinMeeting_eq (st : State) (sid : String) (c : Socket) (m : JsVal)
    (h : findSocket st.sockets sid = some c) :
    handleJoinMeeting st sid (some m) =
      ({ activeMeetings := mapSet st.activeMeetings m (setAdd (participantsOf st m) c.user.id)
         meetingUserSockets :=
           mapSet st.meetingUserSockets m (mapSet (directoryOf st m) c.user.id sid)
         sockets := updateSocket st.sockets sid
           { c with rooms := setAdd c.rooms (roomName m), meetingId := m } },
       (sid, OutEvent.existingUsers
          (((participantsOf st m).filter (fun uid => decide (uid ≠ c.user.id))).map
            (describeUser (updateSocket st.sockets sid
              { c with rooms := setAdd c.rooms (roomName m), meetingId := m })))) ::
         emitToRoomExcept
           (updateSocket st.sockets sid
             { c with rooms := setAdd c.rooms (roomName m), meetingId := m })
           (roomName m) sid
           (OutEvent.userJoined c.user.id c.user.username c.user.isGuest)) := by
  unfold handleJoinMeeting participantsOf directoryOf
  rw [h]
  simp only []
  rw [mapGet_ensure, mapGet_ensure, mapSet_ensure, mapSet_ensure]

theorem handleLeaveMeeting_eq (st : State) (sid : String) (c : Socket) (m : JsVal)
    (h : findSocket st.sockets sid = some c) (ht : c.meetingId.truthy = true) :
    handleLeaveMeeting st sid (some m) =
      ({ activeMeetings := removeParticipant st.activeMeetings m c.user.id
         meetingUserSockets := removeUserSocket st.meetingUserSockets m c.user.id
         sockets := updateSocket st.sockets sid
           { c with rooms := setDelete c.rooms (roomName m), meetingId := .null } },
       emitToRoomExcept st.sockets (roomName m) sid
         (OutEvent.userLeft c.user.id c.user.username c.user.isGuest)) := by
  unfold handleLeaveMeeting
  rw [h]
  simp only [ht, if_true]

theorem handleLeaveMeeting_falsy (st : State) (sid : String) (c : Socket) (data : Option JsVal)
    (h : findSocket st.sockets sid = some c) (ht : c.meetingId.truthy = false) :
    handleLeaveMeeting st sid data = (st, []) := by
  unfold handleLeaveMeeting
  rw [h]
  cases data <;> simp [ht]

theorem handleDisconnect_eq (st : State) (sid : String) (c : Socket)
    (h : findSocket st.sockets sid = some c) (ht : c.meetingId.truthy = true) :
    handleDisconnect st sid =
      ({ activeMeetings := removeParticipant st.activeMeetings c.meetingId c.user.id
         meetingUserSockets := removeUserSocket st.meetingUserSockets c.meetingId c.user.id
         sockets := st.sockets.filter (fun s => decide (s.id ≠ sid)) },
       emitToRoomExcept (st.sockets.filter (fun s => decide (s.id ≠ sid)))
         (roomName c.meetingId) sid
         (OutEvent.userLeft c.user.id c.user.username c.user.isGuest)) := by
  unfold handleDisconnect
  rw [h]
  simp only [ht, if_true]

theorem handleDisconnect_falsy (st : State) (sid : String) (c : Socket)
    (h : findSocket st.sockets sid = some c) (ht : c.meetingId.truthy = false) :
    handleDisconnect st sid =
      ({ st with sockets := st.sockets.filter (fun s => decide (s.id ≠ sid)) }, []) := by
  unfold handleDisconnect
  rw [h]
  simp [ht]

theorem relaySignal_fst (mk : String → JsVal → OutEvent) (st : State) (sid : String)
    (data : Option (JsVal × JsVal)) : (relaySignal mk st sid data).1 = st := by
  unfold relaySignal
  repeat' first | rfl | split | dsimp only

theorem handleChatMessage_fst (st : State) (sid : String) (data : Option (JsVal × JsVal))
    (now : Nat) : (handleChatMessage st sid data now).1 = st := by
  unfold handleChatMessage
  repeat' split
  all_goals rfl

/-! ## The invariants hold in every reachable state -/

theorem participantsOf_eq_keys (st : State)
    (h : directoryKeys st.meetingUserSockets = st.activeMeetings) (m : JsVal) :
    participantsOf st m = mapKeys (directoryOf st m) := by
  unfold participantsOf directoryOf
  rw [← h, mapGet_directoryKeys]
  cases mapGet st.meetingUserSockets m <;> rfl

theorem participantsOf_nodup (st : State) (h : ∀ p ∈ st.activeMeetings, p.2.Nodup) (m : JsVal) :
    (participantsOf st m).Nodup := by
  unfold participantsOf
  cases hg : mapGet st.activeMeetings m with
  | none => exact List.nodup_nil
  | some ps => exact h _ (mapGet_mem _ _ _ hg)

theorem wellFormed_init : WellFormed State.init where
  sync := rfl
  nonempty := by intro p hp; cases hp
  nodup := by intro p hp; cases hp
  ids := List.nodup_nil
  own := by intro s hs; cases hs

theorem wellFormed_connect (st : State) (h : WellFormed st) (sid : String) (q : Handshake)
    (now rnd : Nat) : WellFormed (handleConnect st sid q now rnd).1 := by
  unfold handleConnect
  split
  · exact h
  · rename_i hc
    have hfresh : sid ∉ st.sockets.map Socket.id := by
      apply findSocket_none
      cases hf : findSocket st.sockets sid with
      | none => rfl
      | some c => exact absurd (Or.inr (by rw [hf]; rfl)) hc
    refine ⟨h.sync, h.nonempty, h.nodup, ?_, ?_⟩
    · show ((st.sockets ++ [_]).map Socket.id).Nodup
      rw [List.map_append, List.nodup_append]
      refine ⟨h.ids, List.nodup_singleton _, ?_⟩
      intro a ha hb
      have e : a = sid := by simpa using hb
      exact hfresh (e ▸ ha)
    · intro s hs x
      have hs1 : s ∈ st.sockets ++ [_] := hs
      rcases List.mem_append.1 hs1 with h1 | h1
      · exact h.own s h1 x
      · rw [List.mem_singleton] at h1
        subst h1
        simp

theorem wellFormed_join (st : State) (h : WellFormed st) (sid : String) (data : Option JsVal) :
    WellFormed (handleJoinMeeting st sid data).1 := by
  cases hf : findSocket st.sockets sid with
  | none =>
    unfold handleJoinMeeting
    rw [hf]
    exact h
  | some c =>
    cases data with
    | none =>
      unfold handleJoinMeeting
      rw [hf]
      exact h
    | some m =>
      rw [handleJoinMeeting_eq st sid c m hf]
      obtain ⟨hc, hid⟩ := findSocket_some _ _ _ hf
      refine ⟨?_, ?_, ?_, ?_, ?_⟩
      · show directoryKeys (mapSet _ _ _) = mapSet _ _ _
        rw [directoryKeys_mapSet, mapKeys_mapSet, h.sync, participantsOf_eq_keys st h.sync]
      · intro p hp
        rcases mem_mapSet _ _ _ _ hp with h1 | h1
        · exact h.nonempty p h1
        · rw [h1]
          intro e
          have : c.user.id ∈ setAdd (participantsOf st m) c.user.id :=
            (mem_setAdd _ _ _).2 (Or.inr rfl)
          simp only at e
          rw [e] at this
          cases this
      · intro p hp
        rcases mem_mapSet _ _ _ _ hp with h1 | h1
        · exact h.nodup p h1
        · rw [h1]
          exact nodup_setAdd _ _ (participantsOf_nodup st h.nodup m)
      · show ((updateSocket _ _ _).map Socket.id).Nodup
        rw [map_id_updateSocket]
        · exact h.ids
        · exact hid
      · intro s hs x
        rcases mem_updateSocket _ _ _ _ hs with h1 | h1
        · exact h.own s h1.1 x
        · subst h1
          show Room.own x ∈ setAdd c.rooms (roomName m) ↔ x = c.id
          rw [mem_setAdd, ← h.own c hc x]
          simp [roomName]

theorem wellFormed_remove (am : List (JsVal × List String))
    (mus : List (JsVal × List (String × String))) (m : JsVal) (uid : String)
    (hs : directoryKeys mus = am) (hn : ∀ p ∈ am, p.2 ≠ []) (hd : ∀ p ∈ am, p.2.Nodup) :
    directoryKeys (removeUserSocket mus m uid) = removeParticipant am m uid ∧
      (∀ p ∈ removeParticipant am m uid, p.2 ≠ []) ∧
      (∀ p ∈ removeParticipant am m uid, p.2.Nodup) := by
  refine ⟨?_, ?_, ?_⟩
  · rw [directoryKeys_removeUserSocket, hs]
  · intro p hp
    rcases mem_removeParticipant _ _ _ _ hp with h1 | ⟨ps, _, e, hne⟩
    · exact hn p h1
    · rw [e]
      exact hne
  · intro p hp
    rcases mem_removeParticipant _ _ _ _ hp with h1 | ⟨ps, hps, e, _⟩
    · exact hd p h1
    · rw [e]
      exact nodup_setDelete _ _ (hd _ hps)

theorem wellFormed_leave (st : State) (h : WellFormed st) (sid : String) (data : Option JsVal) :
    WellFormed (handleLeaveMeeting st sid data).1 := by
  cases hf : findSocket st.sockets sid with
  | none =>
    unfold handleLeaveMeeting
    rw [hf]
    exact h
  | some c =>
    cases ht : c.meetingId.truthy with
    | false =>
      rw [handleLeaveMeeting_falsy st sid c data hf ht]
      exact h
    | true =>
      cases data with
      | none =>
        unfold handleLeaveMeeting
        rw [hf]
        exact h
      | some m =>
        rw [handleLeaveMeeting_eq st sid c m hf ht]
        obtain ⟨hc, hid⟩ := findSocket_some _ _ _ hf
        obtain ⟨h1, h2, h3⟩ := wellFormed_remove st.activeMeetings st.meetingUserSockets m
          c.user.id h.sync h.nonempty h.nodup
        refine ⟨h1, h2, h3, ?_, ?_⟩
        · show ((updateSocket _ _ _).map Socket.id).Nodup
          rw [map_id_updateSocket]
          · exact h.ids
          · exact hid
        · intro s hs x
          rcases mem_updateSocket _ _ _ _ hs with h4 | h4
          · exact h.own s h4.1 x
          · subst h4
            show Room.own x ∈ setDelete c.rooms (roomName m) ↔ x = c.id
            rw [mem_setDelete, ← h.own c hc x]
            simp [roomName]

theorem wellFormed_disconnect (st : State) (h : WellFormed st) (sid : String) :
    WellFormed (handleDisconnect st sid).1 := by
  have hids : ((st.sockets.filter (fun s => decide (s.id ≠ sid))).map Socket.id).Nodup :=
    h.ids.sublist (List.Sublist.map _ (List.filter_sublist _))
  have hown : ∀ s ∈ st.sockets.filter (fun s => decide (s.id ≠ sid)),
      ∀ x, Room.own x ∈ s.rooms ↔ x = s.id :=
    fun s hs x => h.own s (List.mem_filter.1 hs).1 x
  cases hf : findSocket st.sockets sid with
  | none =>
    unfold handleDisconnect
    rw [hf]
    exact h
  | some c =>
    cases ht : c.meetingId.truthy with
    | false =>
      rw [handleDisconnect_falsy st sid c hf ht]
      exact ⟨h.sync, h.nonempty, h.nodup, hids, hown⟩
    | true =>
      rw [handleDisconnect_eq st sid c hf ht]
      obtain ⟨h1, h2, h3⟩ := wellFormed_remove st.activeMeetings st.meetingUserSockets
        c.meetingId c.user.id h.sync h.nonempty h.nodup
      exact ⟨h1, h2, h3, hids, hown⟩

theorem wellFormed_step (st : State) (h : WellFormed st) (e : Event) :
    WellFormed (step st e).1 := by
  cases e with
  | connect sid q now rnd => exact wellFormed_connect st h sid q now rnd
  | joinMeeting sid data => exact wellFormed_join st h sid data
  | offer sid data =>
    show WellFormed (relaySignal _ st sid data).1
    rw [relaySignal_fst]
    exact h
  | answer sid data =>
    show WellFormed (relaySignal _ st sid data).1
    rw [relaySignal_fst]
    exact h
  | iceCandidate sid data =>
    show WellFormed (relaySignal _ st sid data).1
    rw [relaySignal_fst]
    exact h
  | leaveMeeting sid data => exact wellFormed_leave st h sid data
  | chatMessage sid data now =>
    show WellFormed (handleChatMessage st sid data now).1
    rw [handleChatMessage_fst]
    exact h
  | debugMeetings sid => exact h
  | disconnect sid => exact wellFormed_disconnect st h sid

theorem wellFormed_run_from (evs : List Event) :
    ∀ st : State, WellFormed st → WellFormed (run st evs) := by
  induction evs with
  | nil => intro st h; exact h
  | cons e es ih => intro st h; exact ih _ (wellFormed_step st h e)

theorem wellFormed_run (evs : List Event) : WellFormed (run State.init evs) :=
  wellFormed_run_from evs _ wellFormed_init

/-! ## Removal from the two maps -/

theorem mapGet_removeParticipant_self (am : List (JsVal × List String)) (m : JsVal)
    (uid : String) :
    (mapGet (removeParticipant am m uid) m).getD [] = setDelete ((mapGet am m).getD []) uid := by
  unfold removeParticipant
  cases hg : mapGet am m with
  | none =>
    simp only [hg]
    rfl
  | some ps =>
    simp only [Option.getD_some]
    by_cases h0 : (setDelete ps uid).length = 0
    · rw [if_pos h0, mapGet_mapDelete_self]
      exact (List.length_eq_zero.1 h0).symm
    · rw [if_neg h0, mapGet_mapSet_self]
      rfl

theorem mapGet_removeParticipant_ne (am : List (JsVal × List String)) (m m1 : JsVal)
    (uid : String) (h : m1 ≠ m) :
    mapGet (removeParticipant am m uid) m1 = mapGet am m1 := by
  unfold removeParticipant
  cases hg : mapGet am m with
  | none => rfl
  | some ps =>
    simp only
    by_cases h0 : (setDelete ps uid).length = 0
    · rw [if_pos h0, mapGet_mapDelete_ne _ _ _ h]
    · rw [if_neg h0, mapGet_mapSet_ne _ _ _ _ h]

theorem mem_keys_removeParticipant (am : List (JsVal × List String)) (m : JsVal)
    (uid : String) :
    m ∈ mapKeys (removeParticipant am m uid) ↔ setDelete ((mapGet am m).getD []) uid ≠ [] := by
  unfold removeParticipant
  cases hg : mapGet am m with
  | none =>
    simp only [Option.getD_none]
    have : m ∉ mapKeys am := (mapGet_eq_none_iff am m).1 hg
    simp [this, setDelete]
  | some ps =>
    simp only [Option.getD_some]
    by_cases h0 : (setDelete ps uid).length = 0
    · rw [if_pos h0]
      have h1 : m ∉ mapKeys (mapDelete am m) :=
        (mapGet_eq_none_iff _ _).1 (mapGet_mapDelete_self am m)
      have h2 : setDelete ps uid = [] := List.length_eq_zero.1 h0
      simp [h1, h2]
    · rw [if_neg h0, mapKeys_mapSet, mem_setAdd]
      have h2 : setDelete ps uid ≠ [] := fun e => h0 (by rw [e]; rfl)
      simp [h2]

theorem mapGet_removeUserSocket_self (mus : List (JsVal × List (String × String))) (m : JsVal)
    (uid : String) :
    (mapGet (removeUserSocket mus m uid) m).getD [] =
      mapDelete ((mapGet mus m).getD []) uid := by
  unfold removeUserSocket
  cases hg : mapGet mus m with
  | none =>
    simp only [hg]
    rfl
  | some d =>
    simp only [Option.getD_some]
    by_cases h0 : (mapDelete d uid).length = 0
    · rw [if_pos h0, mapGet_mapDelete_self]
      exact (List.length_eq_zero.1 h0).symm
    · rw [if_neg h0, mapGet_mapSet_self]
      rfl

theorem mapGet_removeUserSocket_ne (mus : List (JsVal × List (String × String)))
    (m m1 : JsVal) (uid : String) (h : m1 ≠ m) :
    mapGet (removeUserSocket mus m uid) m1 = mapGet mus m1 := by
  unfold removeUserSocket
  cases hg : mapGet mus m with
  | none => rfl
  | some d =>
    simp only
    by_cases h0 : (mapDelete d uid).length = 0
    · rw [if_pos h0, mapGet_mapDelete_ne _ _ _ h]
    · rw [if_neg h0, mapGet_mapSet_ne _ _ _ _ h]

theorem mem_keys_removeUserSocket (mus : List (JsVal × List (String × String))) (m : JsVal)
    (uid : String) :
    m ∈ mapKeys (removeUserSocket mus m uid) ↔ mapDelete ((mapGet mus m).getD []) uid ≠ [] := by
  unfold removeUserSocket
  cases hg : mapGet mus m with
  | none =>
    simp only [Option.getD_none]
    have : m ∉ mapKeys mus := (mapGet_eq_none_iff mus m).1 hg
    simp [this, mapDelete]
  | some d =>
    simp only [Option.getD_some]
    by_cases h0 : (mapDelete d uid).length = 0
    · rw [if_pos h0]
      have h1 : m ∉ mapKeys (mapDelete mus m) :=
        (mapGet_eq_none_iff _ _).1 (mapGet_mapDelete_self mus m)
      have h2 : mapDelete d uid = [] := List.length_eq_zero.1 h0
      simp [h1, h2]
    · rw [if_neg h0, mapKeys_mapSet, mem_setAdd]
      have h2 : mapDelete d uid ≠ [] := fun e => h0 (by rw [e]; rfl)
      simp [h2]

theorem mapKeys_directoryKeys (mus : List (JsVal × List (String × String))) :
    mapKeys (directoryKeys mus) = mapKeys mus := by
  simp [mapKeys, directoryKeys]

/-- In a well-formed state a meeting id is a key exactly when its participant
set is non-empty, and likewise for its directory. -/
theorem wellFormed_keys (st : State) (h : WellFormed st) (m : JsVal) :
    (m ∈ mapKeys st.activeMeetings ↔ participantsOf st m ≠ []) ∧
      (m ∈ mapKeys st.meetingUserSockets ↔ directoryOf st m ≠ []) := by
  have h1 : m ∈ mapKeys st.activeMeetings ↔ participantsOf st m ≠ [] := by
    unfold participantsOf
    cases hg : mapGet st.activeMeetings m with
    | none =>
      have : m ∉ mapKeys st.activeMeetings := (mapGet_eq_none_iff _ _).1 hg
      simp [this]
    | some ps =>
      have hm : m ∈ mapKeys st.activeMeetings := by
        by_contra c
        rw [(mapGet_eq_none_iff _ _).2 c] at hg
        cases hg
      have := h.nonempty _ (mapGet_mem _ _ _ hg)
      simp [hm, this]
  refine ⟨h1, ?_⟩
  rw [← mapKeys_directoryKeys, h.sync, h1, participantsOf_eq_keys st h.sync]
  cases directoryOf st m <;> simp [mapKeys]

/-! ## Directory entries under disciplined clients -/

theorem mem_mapSet_ne {κ α : Type} [DecidableEq κ] (m : List (κ × α)) (k : κ) (v : α)
    (p : κ × α) (h : p ∈ mapSet m k v) : (p ∈ m ∧ p.1 ≠ k) ∨ p = (k, v) := by
  unfold mapSet at h
  split at h
  · rcases List.mem_map.1 h with ⟨q, hq, e⟩
    by_cases hk : q.1 = k
    · rw [if_pos hk] at e
      exact Or.inr e.symm
    · rw [if_neg hk] at e
      exact Or.inl ⟨e ▸ hq, e ▸ hk⟩
  · rename_i hh
    rcases List.mem_append.1 h with h1 | h1
    · refine Or.inl ⟨h1, ?_⟩
      intro e
      apply hh
      rw [mapHas_iff_mem_keys]
      exact List.mem_map.2 ⟨p, h1, e⟩
    · exact Or.inr (by simpa using h1)

theorem mem_mapDelete_ne {κ α : Type} [DecidableEq κ] (m : List (κ × α)) (k : κ)
    (p : κ × α) (h : p ∈ mapDelete m k) : p ∈ m ∧ p.1 ≠ k := by
  have := List.mem_filter.1 h
  exact ⟨this.1, by simpa using this.2⟩

theorem mem_removeUserSocket (mus : List (JsVal × List (String × String))) (m : JsVal)
    (uid : String) (p : JsVal × List (String × String))
    (h : p ∈ removeUserSocket mus m uid) :
    (p ∈ mus ∧ p.1 ≠ m) ∨ (∃ d, (m, d) ∈ mus ∧ p = (m, mapDelete d uid)) := by
  unfold removeUserSocket at h
  cases hg : mapGet mus m with
  | none =>
    rw [hg] at h
    refine Or.inl ⟨h, ?_⟩
    intro e
    exact (mapGet_eq_none_iff mus m).1 hg (List.mem_map.2 ⟨p, h, e⟩)
  | some d =>
    rw [hg] at h
    simp only at h
    by_cases h0 : (mapDelete d uid).length = 0
    · rw [if_pos h0] at h
      exact Or.inl (mem_mapDelete_ne _ _ _ h)
    · rw [if_neg h0] at h
      rcases mem_mapSet_ne _ _ _ _ h with h1 | h1
      · exact Or.inl h1
      · exact Or.inr ⟨d, mapGet_mem _ _ _ hg, h1⟩

theorem findSocket_cons (x : Socket) (r : List Socket) (sid : String) :
    findSocket (x :: r) sid = if x.id = sid then some x else findSocket r sid := by
  by_cases hx : x.id = sid <;> simp [findSocket, List.find?_cons, hx]

theorem findSocket_append (l r : List Socket) (sid : String) (c : Socket)
    (h : findSocket l sid = some c) : findSocket (l ++ r) sid = some c := by
  induction l with
  | nil => simp [findSocket] at h
  | cons q t ih =>
    rw [List.cons_append, findSocket_cons]
    rw [findSocket_cons] at h
    by_cases hq : q.id = sid
    · rw [if_pos hq] at h
      rw [if_pos hq, h]
    · rw [if_neg hq] at h
      rw [if_neg hq]
      exact ih h

theorem findSocket_updateSocket_ne (l : List Socket) (sid x : String) (s1 : Socket)
    (h1 : s1.id = sid) (hx : x ≠ sid) :
    findSocket (updateSocket l sid s1) x = findSocket l x := by
  induction l with
  | nil => rfl
  | cons q t ih =>
    have hu : updateSocket (q :: t) sid s1 =
        (if q.id = sid then s1 else q) :: updateSocket t sid s1 := rfl
    rw [hu, findSocket_cons, findSocket_cons, ih]
    by_cases hq : q.id = sid
    · have e1 : ¬ s1.id = x := fun e => hx (e.symm.trans h1)
      have e2 : ¬ q.id = x := fun e => hx (e.symm.trans hq)
      rw [if_pos hq, if_neg e1, if_neg e2]
    · rw [if_neg hq]

theorem findSocket_filter_ne (l : List Socket) (sid x : String) (hx : x ≠ sid) :
    findSocket (l.filter (fun s => decide (s.id ≠ sid))) x = findSocket l x := by
  induction l with
  | nil => rfl
  | cons q t ih =>
    by_cases hq : q.id = sid
    · have e2 : ¬ q.id = x := fun e => hx (e.symm.trans hq)
      have hfl : (q :: t).filter (fun s => decide (s.id ≠ sid)) =
          t.filter (fun s => decide (s.id ≠ sid)) := by
        simp [List.filter_cons, hq]
      rw [hfl, ih, findSocket_cons, if_neg e2]
    · have hfl : (q :: t).filter (fun s => decide (s.id ≠ sid)) =
          q :: t.filter (fun s => decide (s.id ≠ sid)) := by
        simp [List.filter_cons, hq]
      rw [hfl, findSocket_cons, findSocket_cons, ih]

theorem liveEntries_init : LiveEntries State.init := by
  constructor
  · intro p hp
    cases hp
  · intro p hp
    cases hp

theorem liveEntries_connect (st : State) (h : LiveEntries st) (sid : String) (q : Handshake)
    (now rnd : Nat) : LiveEntries (handleConnect st sid q now rnd).1 := by
  unfold handleConnect
  split
  · exact h
  · refine ⟨h.1, ?_⟩
    intro p hp e he
    obtain ⟨c, hc, hu, hm⟩ := h.2 p hp e he
    exact ⟨c, findSocket_append _ _ _ _ hc, hu, hm⟩

theorem liveEntries_join (st : State) (h : LiveEntries st) (sid : String) (data : Option JsVal)
    (hd : (Event.joinMeeting sid data).disciplined st = true) :
    LiveEntries (handleJoinMeeting st sid data).1 := by
  cases hf : findSocket st.sockets sid with
  | none =>
    unfold handleJoinMeeting
    rw [hf]
    exact h
  | some c =>
    cases data with
    | none =>
      unfold handleJoinMeeting
      rw [hf]
      exact h
    | some m =>
      rw [handleJoinMeeting_eq st sid c m hf]
      obtain ⟨_, hid⟩ := findSocket_some _ _ _ hf
      simp only [Event.disciplined, hf, Bool.and_eq_true, Bool.or_eq_true, Bool.not_eq_true',
        decide_eq_true_eq] at hd
      obtain ⟨hmt, hcm⟩ := hd
      have hfs : findSocket (updateSocket st.sockets sid
          { c with rooms := setAdd c.rooms (roomName m), meetingId := m }) sid =
          some { c with rooms := setAdd c.rooms (roomName m), meetingId := m } :=
        findSocket_updateSocket _ _ _ _ hf hid
      have hold : ∀ p ∈ st.meetingUserSockets, ∀ e ∈ p.2,
          ∃ c1, findSocket (updateSocket st.sockets sid
              { c with rooms := setAdd c.rooms (roomName m), meetingId := m }) e.2 = some c1 ∧
            c1.user.id = e.1 ∧ c1.meetingId = p.1 := by
        intro p hp e he
        obtain ⟨c1, hc1, hu, hm⟩ := h.2 p hp e he
        by_cases hes : e.2 = sid
        · rw [hes, hf] at hc1
          have e1 : c = c1 := Option.some.inj hc1
          subst e1
          have hpt := h.1 p hp
          rw [← hm] at hpt
          have hcm1 : c.meetingId = m := by
            rcases hcm with hcm | hcm
            · rw [hcm] at hpt
              cases hpt
            · exact hcm
          refine ⟨{ c with rooms := setAdd c.rooms (roomName m), meetingId := m }, ?_, hu, ?_⟩
          · rw [hes]
            exact hfs
          · show m = p.1
            rw [← hm, hcm1]
        · refine ⟨c1, ?_, hu, hm⟩
          rw [findSocket_updateSocket_ne]
          · exact hc1
          · exact hid
          · exact hes
      refine ⟨?_, ?_⟩
      · intro p hp
        rcases mem_mapSet _ _ _ _ hp with h1 | h1
        · exact h.1 p h1
        · rw [h1]
          exact hmt
      · intro p hp e he
        rcases mem_mapSet _ _ _ _ hp with h1 | h1
        · exact hold p h1 e he
        · subst h1
          rcases mem_mapSet _ _ _ _ he with h2 | h2
          · have hdm : (m, directoryOf st m) ∈ st.meetingUserSockets := by
              unfold directoryOf at h2 ⊢
              cases hg : mapGet st.meetingUserSockets m with
              | none =>
                rw [hg] at h2
                cases h2
              | some d => exact mapGet_mem _ _ _ hg
            exact hold _ hdm e h2
          · subst h2
            exact ⟨_, hfs, rfl, rfl⟩

/-- After the removal of `uid` from room `m` by the socket `sid` whose current
meeting is `m`, no directory entry refers to `sid`. -/
theorem liveEntries_removed (st : State) (h : LiveEntries st) (sid : String) (c : Socket)
    (hf : findSocket st.sockets sid = some c) (m : JsVal) (hcm : c.meetingId = m)
    (p : JsVal × List (String × String))
    (hp : p ∈ removeUserSocket st.meetingUserSockets m c.user.id) (e : String × String)
    (he : e ∈ p.2) :
    p.1.truthy = true ∧ e.2 ≠ sid ∧
      ∃ c1, findSocket st.sockets e.2 = some c1 ∧ c1.user.id = e.1 ∧ c1.meetingId = p.1 := by
  rcases mem_removeUserSocket _ _ _ _ hp with ⟨h1, hne⟩ | ⟨d, hd, hpe⟩
  · obtain ⟨c1, hc1, hu, hm⟩ := h.2 p h1 e he
    refine ⟨h.1 p h1, ?_, c1, hc1, hu, hm⟩
    intro hes
    rw [hes, hf] at hc1
    have e1 : c = c1 := Option.some.inj hc1
    subst e1
    exact hne (hm.symm.trans hcm)
  · subst hpe
    have he1 := mem_mapDelete_ne _ _ _ he
    obtain ⟨c1, hc1, hu, hm⟩ := h.2 _ hd e he1.1
    refine ⟨h.1 (m, d) hd, ?_, c1, hc1, hu, hm⟩
    intro hes
    rw [hes, hf] at hc1
    have e1 : c = c1 := Option.some.inj hc1
    subst e1
    exact he1.2 hu.symm

theorem liveEntries_leave (st : State) (h : LiveEntries st) (sid : String)
    (data : Option JsVal) (hd : (Event.leaveMeeting sid data).disciplined st = true) :
    LiveEntries (handleLeaveMeeting st sid data).1 := by
  cases hf : findSocket st.sockets sid with
  | none =>
    unfold handleLeaveMeeting
    rw [hf]
    exact h
  | some c =>
    cases ht : c.meetingId.truthy with
    | false =>
      rw [handleLeaveMeeting_falsy st sid c data hf ht]
      exact h
    | true =>
      cases data with
      | none =>
        unfold handleLeaveMeeting
        rw [hf]
        exact h
      | some m =>
        rw [handleLeaveMeeting_eq st sid c m hf ht]
        obtain ⟨_, hid⟩ := findSocket_some _ _ _ hf
        simp only [Event.disciplined, hf, ht, Bool.not_true, Bool.false_or,
          decide_eq_true_eq] at hd
        refine ⟨?_, ?_⟩
        · intro p hp
          rcases mem_removeUserSocket _ _ _ _ hp with ⟨h1, _⟩ | ⟨d, hd1, hpe⟩
          · exact h.1 p h1
          · rw [hpe]
            exact h.1 (m, d) hd1
        · intro p hp e he
          obtain ⟨_, hes, c1, hc1, hu, hm⟩ := liveEntries_removed st h sid c hf m hd p hp e he
          refine ⟨c1, ?_, hu, hm⟩
          rw [findSocket_updateSocket_ne]
          · exact hc1
          · exact hid
          · exact hes

theorem liveEntries_disconnect (st : State) (h : LiveEntries st) (sid : String) :
    LiveEntries (handleDisconnect st sid).1 := by
  cases hf : findSocket st.sockets sid with
  | none =>
    unfold handleDisconnect
    rw [hf]
    exact h
  | some c =>
    cases ht : c.meetingId.truthy with
    | false =>
      rw [handleDisconnect_falsy st sid c hf ht]
      refine ⟨h.1, ?_⟩
      intro p hp e he
      obtain ⟨c1, hc1, hu, hm⟩ := h.2 p hp e he
      have hes : e.2 ≠ sid := by
        intro hes
        rw [hes, hf] at hc1
        have e1 : c = c1 := Option.some.inj hc1
        subst e1
        have := h.1 p hp
        rw [← hm, ht] at this
        cases this
      refine ⟨c1, ?_, hu, hm⟩
      show findSocket (st.sockets.filter _) e.2 = some c1
      rw [findSocket_filter_ne _ _ _ hes]
      exact hc1
    | true =>
      rw [handleDisconnect_eq st sid c hf ht]
      refine ⟨?_, ?_⟩
      · intro p hp
        rcases mem_removeUserSocket _ _ _ _ hp with ⟨h1, _⟩ | ⟨d, hd1, hpe⟩
        · exact h.1 p h1
        · rw [hpe]
          exact h.1 (c.meetingId, d) hd1
      · intro p hp e he
        obtain ⟨_, hes, c1, hc1, hu, hm⟩ :=
          liveEntries_removed st h sid c hf c.meetingId rfl p hp e he
        refine ⟨c1, ?_, hu, hm⟩
        show findSocket (st.sockets.filter _) e.2 = some c1
        rw [findSocket_filter_ne _ _ _ hes]
        exact hc1

theorem liveEntries_step (st : State) (h : LiveEntries st) (e : Event)
    (hd : e.disciplined st = true) : LiveEntries (step st e).1 := by
  cases e with
  | connect sid q now rnd => exact liveEntries_connect st h sid q now rnd
  | joinMeeting sid data => exact liveEntries_join st h sid data hd
  | offer sid data =>
    show LiveEntries (relaySignal _ st sid data).1
    rw [relaySignal_fst]
    exact h
  | answer sid data =>
    show LiveEntries (relaySignal _ st sid data).1
    rw [relaySignal_fst]
    exact h
  | iceCandidate sid data =>
    show LiveEntries (relaySignal _ st sid data).1
    rw [relaySignal_fst]
    exact h
  | leaveMeeting sid data => exact liveEntries_leave st h sid data hd
  | chatMessage sid data now =>
    show LiveEntries (handleChatMessage st sid data now).1
    rw [handleChatMessage_fst]
    exact h
  | debugMeetings sid => exact h
  | disconnect sid => exact liveEntries_disconnect st h sid

theorem liveEntries_run (evs : List Event) :
    ∀ st : State, LiveEntries st → disciplinedTrace st evs = true →
      LiveEntries (run st evs) := by
  induction evs with
  | nil => intro st h _; exact h
  | cons e es ih =>
    intro st h hd
    simp only [disciplinedTrace, Bool.and_eq_true] at hd
    exact ih _ (liveEntries_step st h e hd.1) hd.2

theorem directoryLive_of_liveEntries (st : State) (h : LiveEntries st) : DirectoryLive st := by
  intro m uid sid hmem
  unfold directoryOf at hmem
  cases hg : mapGet st.meetingUserSockets m with
  | none =>
    rw [hg] at hmem
    cases hmem
  | some d =>
    rw [hg] at hmem
    exact h.2 _ (mapGet_mem _ _ _ hg) (uid, sid) hmem

/-! ## Deliveries -/

/-- In a well-formed state the exception of `socket.to(...)` removes exactly the
sender. -/
theorem emitToRoomExcept_filter_sender (l : List Socket)
    (hown : ∀ s ∈ l, ∀ x, Room.own x ∈ s.rooms ↔ x = s.id) (room : Room) (sid : String)
    (ev : OutEvent) :
    emitToRoomExcept (l.filter (fun s => decide (s.id ≠ sid))) room sid ev =
      emitToRoomExcept l room sid ev := by
  unfold emitToRoomExcept
  rw [List.filter_filter]
  congr 1
  apply List.filter_congr
  intro s hs
  have h1 : Room.own sid ∈ s.rooms ↔ sid = s.id := hown s hs sid
  by_cases hsid : s.id = sid
  · have : Room.own sid ∈ s.rooms := h1.2 hsid.symm
    simp [this]
  · simp [hsid]

theorem describeUser_id (l : List Socket) (uid : String) : (describeUser l uid).id = uid := by
  unfold describeUser
  split <;> rfl

/-- With pairwise distinct socket ids, a room emission delivers its event once
to each socket selected and to nobody else. -/
theorem count_deliveries (l : List Socket) (hn : (l.map Socket.id).Nodup)
    (P : Socket → Bool) (ev : OutEvent) (r : String) :
    ((∃ s ∈ l, s.id = r ∧ P s = true) →
        List.count (r, ev) ((l.filter P).map (fun s => (s.id, ev))) = 1) ∧
      ((¬ ∃ s ∈ l, s.id = r ∧ P s = true) →
        List.count (r, ev) ((l.filter P).map (fun s => (s.id, ev))) = 0) := by
  induction l with
  | nil =>
    constructor
    · rintro ⟨s, hs, _⟩
      cases hs
    · intro _
      rfl
  | cons q t ih =>
    rw [List.map_cons, List.nodup_cons] at hn
    obtain ⟨hq, ht⟩ := hn
    obtain ⟨ih1, ih0⟩ := ih ht
    by_cases hP : P q = true
    · have hfl : ((q :: t).filter P).map (fun s => (s.id, ev)) =
          (q.id, ev) :: (t.filter P).map (fun s => (s.id, ev)) := by
        rw [List.filter_cons_of_pos hP, List.map_cons]
      rw [hfl]
      by_cases hr : q.id = r
      · have hnone : ¬ ∃ s ∈ t, s.id = r ∧ P s = true := by
          rintro ⟨s, hs, e, _⟩
          exact hq (List.mem_map.2 ⟨s, hs, e.trans hr.symm⟩)
        constructor
        · intro _
          rw [hr, List.count_cons_self, ih0 hnone]
        · intro hne
          exact absurd ⟨q, List.mem_cons_self _ _, hr, hP⟩ hne
      · have hne : ((q.id, ev) : Delivery) ≠ (r, ev) := by
          intro e
          exact hr (congrArg Prod.fst e)
        rw [List.count_cons_of_ne (Ne.symm hne)]
        constructor
        · rintro ⟨s, hs, e, hPs⟩
          rcases List.mem_cons.1 hs with h1 | h1
          · exact absurd (h1 ▸ e) hr
          · exact ih1 ⟨s, h1, e, hPs⟩
        · intro hno
          exact ih0 (fun ⟨s, hs, e, hPs⟩ => hno ⟨s, List.mem_cons_of_mem _ hs, e, hPs⟩)
    · have hfl : ((q :: t).filter P).map (fun s => (s.id, ev)) =
          (t.filter P).map (fun s => (s.id, ev)) := by
        rw [List.filter_cons_of_neg hP]
      rw [hfl]
      constructor
      · rintro ⟨s, hs, e, hPs⟩
        rcases List.mem_cons.1 hs with h1 | h1
        · exact absurd (h1 ▸ hPs) hP
        · exact ih1 ⟨s, h1, e, hPs⟩
      · intro hno
        exact ih0 (fun ⟨s, hs, e, hPs⟩ => hno ⟨s, List.mem_cons_of_mem _ hs, e, hPs⟩)

/-- Recipients of `socket.to(room).emit` in a well-formed state: each connected
socket in the room other than the sender gets the event once, nobody else gets
it, and no other event is delivered. -/
theorem emitToRoomExcept_spec (l : List Socket) (hn : (l.map Socket.id).Nodup)
    (hown : ∀ s ∈ l, ∀ x, Room.own x ∈ s.rooms ↔ x = s.id) (room : Room) (sid : String)
    (ev : OutEvent) :
    (∀ r, (r ≠ sid ∧ ∃ s ∈ l, s.id = r ∧ room ∈ s.rooms) →
        List.count (r, ev) (emitToRoomExcept l room sid ev) = 1) ∧
      (∀ r, ¬ (r ≠ sid ∧ ∃ s ∈ l, s.id = r ∧ room ∈ s.rooms) →
        List.count (r, ev) (emitToRoomExcept l room sid ev) = 0) ∧
      (∀ d ∈ emitToRoomExcept l room sid ev, d.2 = ev) := by
  have hiff : ∀ r, (∃ s ∈ l, s.id = r ∧
      (decide (room ∈ s.rooms) && decide (Room.own sid ∉ s.rooms)) = true) ↔
      (r ≠ sid ∧ ∃ s ∈ l, s.id = r ∧ room ∈ s.rooms) := by
    intro r
    constructor
    · rintro ⟨s, hs, e, hP⟩
      simp only [Bool.and_eq_true, decide_eq_true_eq] at hP
      refine ⟨?_, s, hs, e, hP.1⟩
      intro hr
      exact hP.2 ((hown s hs sid).2 (hr.symm.trans e.symm))
    · rintro ⟨hr, s, hs, e, hroom⟩
      refine ⟨s, hs, e, ?_⟩
      simp only [Bool.and_eq_true, decide_eq_true_eq]
      refine ⟨hroom, ?_⟩
      intro ho
      exact hr (e.symm.trans ((hown s hs sid).1 ho).symm)
  refine ⟨?_, ?_, ?_⟩
  · intro r hr
    exact (count_deliveries l hn _ ev r).1 ((hiff r).2 hr)
  · intro r hr
    exact (count_deliveries l hn _ ev r).2 (fun h => hr ((hiff r).1 h))
  · intro d hd
    unfold emitToRoomExcept at hd
    rcases List.mem_map.1 hd with ⟨s, _, e⟩
    rw [← e]

/-- The sockets in a meeting room other than the sender are the same before and
after the sender's own socket object is written back. -/
theorem room_members_updateSocket (l : List Socket) (sid : String) (s1 : Socket)
    (h1 : s1.id = sid) (room : Room) (r : String) :
    (r ≠ sid ∧ ∃ s ∈ updateSocket l sid s1, s.id = r ∧ room ∈ s.rooms) ↔
      (r ≠ sid ∧ ∃ s ∈ l, s.id = r ∧ room ∈ s.rooms) := by
  constructor
  · rintro ⟨hr, s, hs, e, hroom⟩
    refine ⟨hr, ?_⟩
    rcases mem_updateSocket _ _ _ _ hs with h2 | h2
    · exact ⟨s, h2.1, e, hroom⟩
    · exact absurd (e.symm.trans (h2 ▸ h1)) hr
  · rintro ⟨hr, s, hs, e, hroom⟩
    refine ⟨hr, s, ?_, e, hroom⟩
    unfold updateSocket
    refine List.mem_map.2 ⟨s, hs, ?_⟩
    have : ¬ s.id = sid := fun h => hr (e.symm.trans h)
    rw [if_neg this]

/-- The sockets in a meeting room other than the sender are the same before and
after the sender is taken out of the namespace. -/
theorem room_members_filter (l : List Socket) (sid : String) (room : Room) (r : String) :
    (r ≠ sid ∧ ∃ s ∈ l.filter (fun s => decide (s.id ≠ sid)), s.id = r ∧ room ∈ s.rooms) ↔
      (r ≠ sid ∧ ∃ s ∈ l, s.id = r ∧ room ∈ s.rooms) := by
  constructor
  · rintro ⟨hr, s, hs, e, hroom⟩
    exact ⟨hr, s, (List.mem_filter.1 hs).1, e, hroom⟩
  · rintro ⟨hr, s, hs, e, hroom⟩
    refine ⟨hr, s, List.mem_filter.2 ⟨hs, ?_⟩, e, hroom⟩
    have : ¬ s.id = sid := fun h => hr (e.symm.trans h)
    simpa using this

/-! ## Relay -/

theorem socket_ids_nonempty_step (st : State) (h : ∀ s ∈ st.sockets, s.id ≠ "") (e : Event) :
    ∀ s ∈ (step st e).1.sockets, s.id ≠ "" := by
  have hupd : ∀ (sid : String) (c s1 : Socket), findSocket st.sockets sid = some c →
      s1.id = c.id → ∀ s ∈ updateSocket st.sockets sid s1, s.id ≠ "" := by
    intro sid c s1 hf h1 s hs
    rcases mem_updateSocket _ _ _ _ hs with h2 | h2
    · exact h s h2.1
    · rw [h2, h1]
      exact h c (findSocket_some _ _ _ hf).1
  have hfil : ∀ sid : String, ∀ s ∈ st.sockets.filter (fun s => decide (s.id ≠ sid)),
      s.id ≠ "" := fun sid s hs => h s (List.mem_filter.1 hs).1
  cases e with
  | connect sid q now rnd =>
    show ∀ s ∈ (handleConnect st sid q now rnd).1.sockets, s.id ≠ ""
    unfold handleConnect
    split
    · exact h
    · rename_i hc
      intro s hs
      have hs1 : s ∈ st.sockets ++ [_] := hs
      rcases List.mem_append.1 hs1 with h1 | h1
      · exact h s h1
      · rw [List.mem_singleton] at h1
        rw [h1]
        exact fun e => hc (Or.inl e)
  | joinMeeting sid data =>
    show ∀ s ∈ (handleJoinMeeting st sid data).1.sockets, s.id ≠ ""
    cases hf : findSocket st.sockets sid with
    | none =>
      unfold handleJoinMeeting
      rw [hf]
      exact h
    | some c =>
      cases data with
      | none =>
        unfold handleJoinMeeting
        rw [hf]
        exact h
      | some m =>
        rw [handleJoinMeeting_eq st sid c m hf]
        exact hupd sid c _ hf rfl
  | offer sid data =>
    show ∀ s ∈ (relaySignal _ st sid data).1.sockets, s.id ≠ ""
    rw [relaySignal_fst]
    exact h
  | answer sid data =>
    show ∀ s ∈ (relaySignal _ st sid data).1.sockets, s.id ≠ ""
    rw [relaySignal_fst]
    exact h
  | iceCandidate sid data =>
    show ∀ s ∈ (relaySignal _ st sid data).1.sockets, s.id ≠ ""
    rw [relaySignal_fst]
    exact h
  | leaveMeeting sid data =>
    show ∀ s ∈ (handleLeaveMeeting st sid data).1.sockets, s.id ≠ ""
    cases hf : findSocket st.sockets sid with
    | none =>
      unfold handleLeaveMeeting
      rw [hf]
      exact h
    | some c =>
      cases ht : c.meetingId.truthy with
      | false =>
        rw [handleLeaveMeeting_falsy st sid c data hf ht]
        exact h
      | true =>
        cases data with
        | none =>
          unfold handleLeaveMeeting
          rw [hf]
          exact h
        | some m =>
          rw [handleLeaveMeeting_eq st sid c m hf ht]
          exact hupd sid c _ hf rfl
  | chatMessage sid data now =>
    show ∀ s ∈ (handleChatMessage st sid data now).1.sockets, s.id ≠ ""
    rw [handleChatMessage_fst]
    exact h
  | debugMeetings sid => exact h
  | disconnect sid =>
    show ∀ s ∈ (handleDisconnect st sid).1.sockets, s.id ≠ ""
    cases hf : findSocket st.sockets sid with
    | none =>
      unfold handleDisconnect
      rw [hf]
      exact h
    | some c =>
      cases ht : c.meetingId.truthy with
      | false =>
        rw [handleDisconnect_falsy st sid c hf ht]
        exact hfil sid
      | true =>
        rw [handleDisconnect_eq st sid c hf ht]
        exact hfil sid

theorem socket_ids_nonempty_run_from (evs : List Event) :
    ∀ st : State, (∀ s ∈ st.sockets, s.id ≠ "") → ∀ s ∈ (run st evs).sockets, s.id ≠ "" := by
  induction evs with
  | nil => intro st h; exact h
  | cons e es ih => intro st h; exact ih _ (socket_ids_nonempty_step st h e)

theorem socket_ids_nonempty_run (evs : List Event) :
    ∀ s ∈ (run State.init evs).sockets, s.id ≠ "" :=
  socket_ids_nonempty_run_from evs _ (by intro s hs; cases hs)

theorem emitToRoom_own_none (l : List Socket)
    (hown : ∀ s ∈ l, ∀ x, Room.own x ∈ s.rooms ↔ x = s.id) (t : String) (ev : OutEvent)
    (hno : ∀ s ∈ l, s.id ≠ t) : emitToRoom l (Room.own t) ev = [] := by
  unfold emitToRoom
  rw [List.map_eq_nil_iff, List.filter_eq_nil_iff]
  intro s hs
  have : ¬ Room.own t ∈ s.rooms := fun hm => hno s hs ((hown s hs t).1 hm).symm
  simpa using this

/-- `io.to(socketId)` reaches the connected socket with that id and nobody else. -/
theorem emitToRoom_own (l : List Socket) (hn : (l.map Socket.id).Nodup)
    (hown : ∀ s ∈ l, ∀ x, Room.own x ∈ s.rooms ↔ x = s.id) (t : String) (ev : OutEvent)
    (hex : ∃ s ∈ l, s.id = t) : emitToRoom l (Room.own t) ev = [(t, ev)] := by
  induction l with
  | nil =>
    obtain ⟨s, hs, _⟩ := hex
    cases hs
  | cons q r ih =>
    rw [List.map_cons, List.nodup_cons] at hn
    obtain ⟨hq, hr⟩ := hn
    have hownr : ∀ s ∈ r, ∀ x, Room.own x ∈ s.rooms ↔ x = s.id :=
      fun s hs => hown s (List.mem_cons_of_mem _ hs)
    have hcons : emitToRoom (q :: r) (Room.own t) ev =
        if Room.own t ∈ q.rooms then (q.id, ev) :: emitToRoom r (Room.own t) ev
        else emitToRoom r (Room.own t) ev := by
      unfold emitToRoom
      by_cases hm : Room.own t ∈ q.rooms
      · rw [if_pos hm, List.filter_cons_of_pos (by simpa using hm), List.map_cons]
      · rw [if_neg hm, List.filter_cons_of_neg (by simpa using hm)]
    rw [hcons]
    by_cases hqt : q.id = t
    · have hm : Room.own t ∈ q.rooms := (hown q (List.mem_cons_self _ _) t).2 hqt.symm
      rw [if_pos hm, hqt]
      have hno : ∀ s ∈ r, s.id ≠ t := by
        intro s hs e
        exact hq (List.mem_map.2 ⟨s, hs, e.trans hqt.symm⟩)
      rw [emitToRoom_own_none r hownr t ev hno]
    · have hm : ¬ Room.own t ∈ q.rooms :=
        fun hm => hqt ((hown q (List.mem_cons_self _ _) t).1 hm).symm
      rw [if_neg hm]
      apply ih hr hownr
      obtain ⟨s, hs, e⟩ := hex
      rcases List.mem_cons.1 hs with h1 | h1
      · exact absurd (h1 ▸ e) hqt
      · exact ⟨s, h1, e⟩

/-- The relay when the sender has a current meeting whose directory holds the
recipient. -/
theorem relaySignal_found (mk : String → JsVal → OutEvent) (st : State) (sid : String)
    (c : Socket) (uid tsid : String) (payload : JsVal)
    (hf : findSocket st.sockets sid = some c) (ht : c.meetingId.truthy = true)
    (hdir : mapGet (directoryOf st c.meetingId) uid = some tsid) (hne : tsid ≠ "") :
    relaySignal mk st sid (some (JsVal.str uid, payload)) =
      (st, emitToRoom st.sockets (Room.own tsid) (mk c.user.id payload)) := by
  unfold relaySignal
  rw [hf]
  simp only [ht, Bool.not_true, Bool.false_eq_true, if_false]
  unfold directoryOf at hdir
  cases hg : mapGet st.meetingUserSockets c.meetingId with
  | none =>
    rw [hg] at hdir
    cases hdir
  | some d =>
    rw [hg] at hdir
    simp only [Option.getD_some] at hdir
    simp only [hdir, hne, ne_eq, not_false_eq_true, if_true]

/-- Every delivery of a relay is addressed through the directory of the
sender's current meeting, which is truthy. -/
theorem relaySignal_delivery (mk : String → JsVal → OutEvent) (st : State) (sid : String)
    (data : Option (JsVal × JsVal)) (d : Delivery) (hd : d ∈ (relaySignal mk st sid data).2) :
    ∃ c uid payload tsid,
      findSocket st.sockets sid = some c ∧ c.meetingId.truthy = true ∧
      data = some (JsVal.str uid, payload) ∧
      mapGet (directoryOf st c.meetingId) uid = some tsid ∧
      d.2 = mk c.user.id payload ∧
      ∃ s ∈ st.sockets, s.id = d.1 ∧ Room.own tsid ∈ s.rooms := by
  unfold relaySignal at hd
  cases hf : findSocket st.sockets sid with
  | none =>
    rw [hf] at hd
    cases hd
  | some c =>
    rw [hf] at hd
    cases data with
    | none => cases hd
    | some dp =>
      obtain ⟨t, payload⟩ := dp
      simp only at hd
      cases ht : c.meetingId.truthy with
      | false =>
        rw [ht] at hd
        cases hd
      | true =>
        rw [ht] at hd
        simp only [Bool.not_true, Bool.false_eq_true, if_false] at hd
        cases hg : mapGet st.meetingUserSockets c.meetingId with
        | none =>
          rw [hg] at hd
          cases hd
        | some dir =>
          rw [hg] at hd
          cases t with
          | undefined => cases hd
          | null => cases hd
          | str uid =>
            simp only at hd
            cases hu : mapGet dir uid with
            | none =>
              rw [hu] at hd
              cases hd
            | some tsid =>
              rw [hu] at hd
              simp only at hd
              by_cases hne : tsid = ""
              · simp only [hne, ne_eq, not_true_eq_false, if_false] at hd
                cases hd
              · simp only [ne_eq, hne, not_false_eq_true, if_true] at hd
                unfold emitToRoom at hd
                rcases List.mem_map.1 hd with ⟨s, hs, e⟩
                have hs2 := List.mem_filter.1 hs
                refine ⟨c, uid, payload, tsid, rfl, ht, rfl, ?_, ?_, s, hs2.1, ?_, ?_⟩
                · unfold directoryOf
                  rw [hg]
                  exact hu
                · rw [← e]
                · rw [← e]
                · simpa using hs2.2

theorem relaySignal_falsy (mk : String → JsVal → OutEvent) (st : State) (sid : String)
    (data : Option (JsVal × JsVal)) (c : Socket) (hf : findSocket st.sockets sid = some c)
    (ht : c.meetingId.truthy = false) : relaySignal mk st sid data = (st, []) := by
  unfold relaySignal
  rw [hf]
  cases data with
  | none => rfl
  | some dp => simp [ht]

/-! ## Snapshots -/

theorem describeUser_ids (l : List Socket) (ps : List String) :
    (ps.map (describeUser l)).map UserInfo.id = ps := by
  rw [List.map_map]
  conv_rhs => rw [← List.map_id ps]
  apply List.map_congr_left
  intro u _
  exact describeUser_id l u

theorem handleConnect_maps (st : State) (sid : String) (q : Handshake) (now rnd : Nat) :
    (handleConnect st sid q now rnd).1.activeMeetings = st.activeMeetings ∧
      (handleConnect st sid q now rnd).1.meetingUserSockets = st.meetingUserSockets := by
  unfold handleConnect
  split <;> exact ⟨rfl, rfl⟩

theorem participantsOf_congr (st st1 : State) (h : st1.activeMeetings = st.activeMeetings)
    (m : JsVal) : participantsOf st1 m = participantsOf st m := by
  unfold participantsOf
  rw [h]

/-- A step that is not a removal of `uid` from `m` keeps `uid` in `m`. -/
theorem keeps_step (st : State) (uid : String) (m : JsVal) (e : Event)
    (hk : e.keeps uid m st = true) (hin : uid ∈ participantsOf st m) :
    uid ∈ participantsOf (step st e).1 m := by
  have hrem : ∀ (m1 : JsVal) (u1 : String), ¬ (m1 = m ∧ u1 = uid) →
      uid ∈ (mapGet (removeParticipant st.activeMeetings m1 u1) m).getD [] := by
    intro m1 u1 hno
    by_cases hm : m1 = m
    · subst hm
      rw [mapGet_removeParticipant_self, mem_setDelete]
      exact ⟨hin, fun e => hno ⟨rfl, e.symm⟩⟩
    · rw [mapGet_removeParticipant_ne _ _ _ _ (Ne.symm hm)]
      exact hin
  cases e with
  | connect sid q now rnd =>
    show uid ∈ participantsOf (handleConnect st sid q now rnd).1 m
    rw [participantsOf_congr st _ (handleConnect_maps st sid q now rnd).1]
    exact hin
  | joinMeeting sid data =>
    show uid ∈ participantsOf (handleJoinMeeting st sid data).1 m
    cases hf : findSocket st.sockets sid with
    | none =>
      unfold handleJoinMeeting
      rw [hf]
      exact hin
    | some c =>
      cases data with
      | none =>
        unfold handleJoinMeeting
        rw [hf]
        exact hin
      | some m1 =>
        rw [handleJoinMeeting_eq st sid c m1 hf]
        show uid ∈ (mapGet (mapSet _ _ _) m).getD []
        by_cases hm : m1 = m
        · subst hm
          rw [mapGet_mapSet_self]
          exact (mem_setAdd _ _ _).2 (Or.inl hin)
        · rw [mapGet_mapSet_ne _ _ _ _ (Ne.symm hm)]
          exact hin
  | offer sid data =>
    show uid ∈ participantsOf (relaySignal _ st sid data).1 m
    rw [relaySignal_fst]
    exact hin
  | answer sid data =>
    show uid ∈ participantsOf (relaySignal _ st sid data).1 m
    rw [relaySignal_fst]
    exact hin
  | iceCandidate sid data =>
    show uid ∈ participantsOf (relaySignal _ st sid data).1 m
    rw [relaySignal_fst]
    exact hin
  | leaveMeeting sid data =>
    show uid ∈ participantsOf (handleLeaveMeeting st sid data).1 m
    cases hf : findSocket st.sockets sid with
    | none =>
      unfold handleLeaveMeeting
      rw [hf]
      exact hin
    | some c =>
      cases ht : c.meetingId.truthy with
      | false =>
        rw [handleLeaveMeeting_falsy st sid c data hf ht]
        exact hin
      | true =>
        cases data with
        | none =>
          unfold handleLeaveMeeting
          rw [hf]
          exact hin
        | some m1 =>
          rw [handleLeaveMeeting_eq st sid c m1 hf ht]
          apply hrem
          simp only [Event.keeps, hf, ht, Bool.true_and, Bool.not_eq_true',
            Bool.and_eq_false_iff, decide_eq_false_iff_not] at hk
          rintro ⟨h1, h2⟩
          rcases hk with hk | hk
          · exact hk h1
          · exact hk h2
  | chatMessage sid data now =>
    show uid ∈ participantsOf (handleChatMessage st sid data now).1 m
    rw [handleChatMessage_fst]
    exact hin
  | debugMeetings sid => exact hin
  | disconnect sid =>
    show uid ∈ participantsOf (handleDisconnect st sid).1 m
    cases hf : findSocket st.sockets sid with
    | none =>
      unfold handleDisconnect
      rw [hf]
      exact hin
    | some c =>
      cases ht : c.meetingId.truthy with
      | false =>
        rw [handleDisconnect_falsy st sid c hf ht]
        exact hin
      | true =>
        rw [handleDisconnect_eq st sid c hf ht]
        apply hrem
        simp only [Event.keeps, hf, ht, Bool.true_and, Bool.not_eq_true',
          Bool.and_eq_false_iff, decide_eq_false_iff_not] at hk
        rintro ⟨h1, h2⟩
        rcases hk with hk | hk
        · exact hk h1
        · exact hk h2

theorem keeps_run (evs : List Event) :
    ∀ (st : State) (uid : String) (m : JsVal), keepsParticipant uid m st evs = true →
      uid ∈ participantsOf st m → uid ∈ participantsOf (run st evs) m := by
  induction evs with
  | nil => intro st uid m _ hin; exact hin
  | cons e es ih =>
    intro st uid m hk hin
    simp only [keepsParticipant, Bool.and_eq_true] at hk
    exact ih _ uid m hk.2 (keeps_step st uid m e hk.1 hin)

/-! ## End-to-end scenario, step by step -/

theorem default_name_ne_empty (x : String) : "User " ++ x ≠ "" := by
  intro h
  have := congrArg String.length h
  simp only [String.length_append] at this
  have h5 : "User ".length = 5 := by decide
  have h0 : "".length = 0 := by decide
  rw [h5, h0] at this
  omega

theorem authenticate_username_ne (q : Handshake) (now rnd : Nat) :
    (authenticate q now rnd).username ≠ "" := by
  unfold authenticate
  simp only
  split
  · split
    · assumption
    · exact default_name_ne_empty _
  · exact default_name_ne_empty _

section Scenario

variable (a b : String) (ua ub : User) (name : String) (P : JsVal)

theorem scenario_join_first (hab : a ≠ b) :
    handleJoinMeeting
      { activeMeetings := [], meetingUserSockets := [],
        sockets :=
          [{ id := a, user := ua, meetingId := JsVal.undefined, rooms := [Room.own a] },
           { id := b, user := ub, meetingId := JsVal.undefined, rooms := [Room.own b] }] }
      a (some (JsVal.str name)) =
    ({ activeMeetings := [(JsVal.str name, [ua.id])],
       meetingUserSockets := [(JsVal.str name, [(ua.id, a)])],
       sockets :=
         [{ id := a, user := ua, meetingId := JsVal.str name,
            rooms := [Room.own a, Room.meeting name] },
          { id := b, user := ub, meetingId := JsVal.undefined, rooms := [Room.own b] }] },
     [(a, OutEvent.existingUsers [])]) := by
  have hba : ¬ b = a := fun e => hab e.symm
  simp [handleJoinMeeting, findSocket, updateSocket, emitToRoomExcept, mapHas, mapGet, mapSet,
    setAdd, roomName, JsVal.render, hba]

theorem scenario_join_second (hab : a ≠ b) (hu : ua.id ≠ ub.id) (hna : ua.username ≠ "") :
    handleJoinMeeting
      { activeMeetings := [(JsVal.str name, [ua.id])],
        meetingUserSockets := [(JsVal.str name, [(ua.id, a)])],
        sockets :=
          [{ id := a, user := ua, meetingId := JsVal.str name,
             rooms := [Room.own a, Room.meeting name] },
           { id := b, user := ub, meetingId := JsVal.undefined, rooms := [Room.own b] }] }
      b (some (JsVal.str name)) =
    ({ activeMeetings := [(JsVal.str name, [ua.id, ub.id])],
       meetingUserSockets := [(JsVal.str name, [(ua.id, a), (ub.id, b)])],
       sockets :=
         [{ id := a, user := ua, meetingId := JsVal.str name,
            rooms := [Room.own a, Room.meeting name] },
          { id := b, user := ub, meetingId := JsVal.str name,
            rooms := [Room.own b, Room.meeting name] }] },
     [(b, OutEvent.existingUsers [UserInfo.mk ua.id ua.username ua.isGuest]),
      (a, OutEvent.userJoined ub.id ub.username ub.isGuest)]) := by
  have hba : ¬ b = a := fun e => hab e.symm
  have hu2 : ¬ ub.id = ua.id := fun e => hu e.symm
  simp [handleJoinMeeting, findSocket, updateSocket, emitToRoomExcept, mapHas, mapGet, mapSet,
    setAdd, roomName, JsVal.render, describeUser, hab, hba, hu, hu2, hna]

theorem scenario_offer (ha : a ≠ "") (hab : a ≠ b) (hm : name ≠ "") :
    handleOffer
      { activeMeetings := [(JsVal.str name, [ua.id, ub.id])],
        meetingUserSockets := [(JsVal.str name, [(ua.id, a), (ub.id, b)])],
        sockets :=
          [{ id := a, user := ua, meetingId := JsVal.str name,
             rooms := [Room.own a, Room.meeting name] },
           { id := b, user := ub, meetingId := JsVal.str name,
             rooms := [Room.own b, Room.meeting name] }] }
      b (some (JsVal.str ua.id, P)) =
    ({ activeMeetings := [(JsVal.str name, [ua.id, ub.id])],
       meetingUserSockets := [(JsVal.str name, [(ua.id, a), (ub.id, b)])],
       sockets :=
         [{ id := a, user := ua, meetingId := JsVal.str name,
            rooms := [Room.own a, Room.meeting name] },
          { id := b, user := ub, meetingId := JsVal.str name,
            rooms := [Room.own b, Room.meeting name] }] },
     [(a, OutEvent.offer ub.id P)]) := by
  have hba : ¬ b = a := fun e => hab e.symm
  simp [handleOffer, relaySignal, findSocket, emitToRoom, mapGet, JsVal.truthy, hab, hba, ha,
    hm]

theorem scenario_disconnect (hab : a ≠ b) (hu : ua.id ≠ ub.id) (hm : name ≠ "") :
    handleDisconnect
      { activeMeetings := [(JsVal.str name, [ua.id, ub.id])],
        meetingUserSockets := [(JsVal.str name, [(ua.id, a), (ub.id, b)])],
        sockets :=
          [{ id := a, user := ua, meetingId := JsVal.str name,
             rooms := [Room.own a, Room.meeting name] },
           { id := b, user := ub, meetingId := JsVal.str name,
             rooms := [Room.own b, Room.meeting name] }] }
      a =
    ({ activeMeetings := [(JsVal.str name, [ub.id])],
       meetingUserSockets := [(JsVal.str name, [(ub.id, b)])],
       sockets :=
         [{ id := b, user := ub, meetingId := JsVal.str name,
            rooms := [Room.own b, Room.meeting name] }] },
     [(b, OutEvent.userLeft ua.id ua.username ua.isGuest)]) := by
  have hba : ¬ b = a := fun e => hab e.symm
  have hu2 : ¬ ub.id = ua.id := fun e => hu e.symm
  simp [handleDisconnect, findSocket, emitToRoomExcept, removeParticipant, removeUserSocket,
    mapHas, mapGet, mapSet, mapDelete, setDelete, roomName, JsVal.render, JsVal.truthy, hab,
    hba, hu, hu2, hm]

theorem scenario_leave (hm : name ≠ "") :
    handleLeaveMeeting
      { activeMeetings := [(JsVal.str name, [ub.id])],
        meetingUserSockets := [(JsVal.str name, [(ub.id, b)])],
        sockets :=
          [{ id := b, user := ub, meetingId := JsVal.str name,
             rooms := [Room.own b, Room.meeting name] }] }
      b (some (JsVal.str name)) =
    ({ activeMeetings := [],
       meetingUserSockets := [],
       sockets := [{ id := b, user := ub, meetingId := JsVal.null, rooms := [Room.own b] }] },
     []) := by
  simp [handleLeaveMeeting, findSocket, updateSocket, emitToRoomExcept, removeParticipant,
    removeUserSocket, mapGet, mapDelete, setDelete, roomName, JsVal.render, JsVal.truthy, hm]

end Scenario

/-! ## Events emitted, idempotence of join -/

theorem mem_emitToRoomExcept_snd (l : List Socket) (room : Room) (sid : String) (ev : OutEvent)
    (d : Delivery) (h : d ∈ emitToRoomExcept l room sid ev) : d.2 = ev := by
  unfold emitToRoomExcept at h
  rcases List.mem_map.1 h with ⟨s, _, e⟩
  rw [← e]

theorem mem_emitToRoom_snd (l : List Socket) (room : Room) (ev : OutEvent)
    (d : Delivery) (h : d ∈ emitToRoom l room ev) : d.2 = ev := by
  unfold emitToRoom at h
  rcases List.mem_map.1 h with ⟨s, _, e⟩
  rw [← e]

theorem handleConnect_snd (st : State) (sid : String) (q : Handshake) (now rnd : Nat) :
    (handleConnect st sid q now rnd).2 = [] := by
  unfold handleConnect
  split <;> rfl

theorem handleLeaveMeeting_snd (st : State) (sid : String) (data : Option JsVal) (d : Delivery)
    (h : d ∈ (handleLeaveMeeting st sid data).2) :
    ∃ uid name g, d.2 = OutEvent.userLeft uid name g := by
  cases hf : findSocket st.sockets sid with
  | none =>
    unfold handleLeaveMeeting at h
    rw [hf] at h
    cases h
  | some c =>
    cases ht : c.meetingId.truthy with
    | false =>
      rw [handleLeaveMeeting_falsy st sid c data hf ht] at h
      cases h
    | true =>
      cases data with
      | none =>
        unfold handleLeaveMeeting at h
        rw [hf] at h
        cases h
      | some m =>
        rw [handleLeaveMeeting_eq st sid c m hf ht] at h
        exact ⟨_, _, _, mem_emitToRoomExcept_snd _ _ _ _ d h⟩

theorem handleDisconnect_snd (st : State) (sid : String) (d : Delivery)
    (h : d ∈ (handleDisconnect st sid).2) :
    ∃ uid name g, d.2 = OutEvent.userLeft uid name g := by
  cases hf : findSocket st.sockets sid with
  | none =>
    unfold handleDisconnect at h
    rw [hf] at h
    cases h
  | some c =>
    cases ht : c.meetingId.truthy with
    | false =>
      rw [handleDisconnect_falsy st sid c hf ht] at h
      cases h
    | true =>
      rw [handleDisconnect_eq st sid c hf ht] at h
      exact ⟨_, _, _, mem_emitToRoomExcept_snd _ _ _ _ d h⟩

theorem handleChatMessage_snd (st : State) (sid : String) (data : Option (JsVal × JsVal))
    (now : Nat) (d : Delivery) (h : d ∈ (handleChatMessage st sid data now).2) :
    (∃ uid name msg mt ts, d.2 = OutEvent.chatMessage uid name msg mt ts) ∨
      (∃ msg, d.2 = OutEvent.error msg) := by
  unfold handleChatMessage at h
  cases hf : findSocket st.sockets sid with
  | none =>
    rw [hf] at h
    cases h
  | some c =>
    rw [hf] at h
    cases data with
    | none =>
      simp only [List.mem_singleton] at h
      exact Or.inr ⟨_, by rw [h]⟩
    | some dp =>
      obtain ⟨msg, mt⟩ := dp
      simp only at h
      cases ht : c.meetingId.truthy with
      | false =>
        rw [ht] at h
        cases h
      | true =>
        rw [ht] at h
        simp only [Bool.not_true, Bool.false_eq_true, if_false] at h
        exact Or.inl ⟨_, _, _, _, _, mem_emitToRoom_snd _ _ _ d h⟩

theorem setAdd_of_mem {β : Type} [DecidableEq β] (s : List β) (x : β) (h : x ∈ s) :
    setAdd s x = s := by
  unfold setAdd
  rw [if_pos h]

theorem setAdd_idem {β : Type} [DecidableEq β] (s : List β) (x : β) :
    setAdd (setAdd s x) x = setAdd s x :=
  setAdd_of_mem _ _ ((mem_setAdd s x x).2 (Or.inr rfl))

theorem mapSet_idem {κ α : Type} [DecidableEq κ] (m : List (κ × α)) (k : κ) (v : α) :
    mapSet (mapSet m k v) k v = mapSet m k v := by
  have hh : mapHas (mapSet m k v) k = true := by
    rw [mapHas_iff_mem_keys, mapKeys_mapSet]
    exact (mem_setAdd _ _ _).2 (Or.inr rfl)
  have hmap : ∀ l : List (κ × α), mapHas l k = true →
      mapSet l k v = l.map (fun p => if p.1 = k then (k, v) else p) := by
    intro l hl
    unfold mapSet
    rw [if_pos hl]
  rw [hmap _ hh]
  conv_rhs => rw [← List.map_id (mapSet m k v)]
  apply List.map_congr_left
  intro p hp
  rcases mem_mapSet_ne _ _ _ _ hp with h1 | h1
  · rw [if_neg h1.2]
    rfl
  · rw [h1]
    simp

theorem updateSocket_idem (l : List Socket) (sid : String) (s1 : Socket) (h1 : s1.id = sid) :
    updateSocket (updateSocket l sid s1) sid s1 = updateSocket l sid s1 := by
  unfold updateSocket
  rw [List.map_map]
  apply List.map_congr_left
  intro s _
  by_cases hs : s.id = sid
  · simp [hs, h1]
  · simp [hs]

/-! ## Names in the snapshot, chat -/

theorem socketsSound_step (st : State) (h : SocketsSound st) (e : Event) :
    SocketsSound (step st e).1 := by
  have hupd : ∀ (sid : String) (s1 : Socket),
      (s1.user.username ≠ "" ∧ (s1.meetingId.truthy = true → roomName s1.meetingId ∈ s1.rooms)) →
      ∀ s ∈ updateSocket st.sockets sid s1,
        s.user.username ≠ "" ∧ (s.meetingId.truthy = true → roomName s.meetingId ∈ s.rooms) := by
    intro sid s1 h1 s hs
    rcases mem_updateSocket _ _ _ _ hs with h2 | h2
    · exact h s h2.1
    · rw [h2]
      exact h1
  have hfil : ∀ sid : String, ∀ s ∈ st.sockets.filter (fun s => decide (s.id ≠ sid)),
      s.user.username ≠ "" ∧ (s.meetingId.truthy = true → roomName s.meetingId ∈ s.rooms) :=
    fun sid s hs => h s (List.mem_filter.1 hs).1
  cases e with
  | connect sid q now rnd =>
    show SocketsSound (handleConnect st sid q now rnd).1
    unfold handleConnect
    split
    · exact h
    · intro s hs
      have hs1 : s ∈ st.sockets ++ [_] := hs
      rcases List.mem_append.1 hs1 with h1 | h1
      · exact h s h1
      · rw [List.mem_singleton] at h1
        rw [h1]
        exact ⟨authenticate_username_ne q now rnd, fun ht => by cases ht⟩
  | joinMeeting sid data =>
    show SocketsSound (handleJoinMeeting st sid data).1
    cases hf : findSocket st.sockets sid with
    | none =>
      unfold handleJoinMeeting
      rw [hf]
      exact h
    | some c =>
      cases data with
      | none =>
        unfold handleJoinMeeting
        rw [hf]
        exact h
      | some m =>
        rw [handleJoinMeeting_eq st sid c m hf]
        apply hupd
        exact ⟨(h c (findSocket_some _ _ _ hf).1).1,
          fun _ => (mem_setAdd _ _ _).2 (Or.inr rfl)⟩
  | offer sid data =>
    show SocketsSound (relaySignal _ st sid data).1
    rw [relaySignal_fst]
    exact h
  | answer sid data =>
    show SocketsSound (relaySignal _ st sid data).1
    rw [relaySignal_fst]
    exact h
  | iceCandidate sid data =>
    show SocketsSound (relaySignal _ st sid data).1
    rw [relaySignal_fst]
    exact h
  | leaveMeeting sid data =>
    show SocketsSound (handleLeaveMeeting st sid data).1
    cases hf : findSocket st.sockets sid with
    | none =>
      unfold handleLeaveMeeting
      rw [hf]
      exact h
    | some c =>
      cases ht : c.meetingId.truthy with
      | false =>
        rw [handleLeaveMeeting_falsy st sid c data hf ht]
        exact h
      | true =>
        cases data with
        | none =>
          unfold handleLeaveMeeting
          rw [hf]
          exact h
        | some m =>
          rw [handleLeaveMeeting_eq st sid c m hf ht]
          apply hupd
          exact ⟨(h c (findSocket_some _ _ _ hf).1).1, fun hx => by cases hx⟩
  | chatMessage sid data now =>
    show SocketsSound (handleChatMessage st sid data now).1
    rw [handleChatMessage_fst]
    exact h
  | debugMeetings sid => exact h
  | disconnect sid =>
    show SocketsSound (handleDisconnect st sid).1
    cases hf : findSocket st.sockets sid with
    | none =>
      unfold handleDisconnect
      rw [hf]
      exact h
    | some c =>
      cases ht : c.meetingId.truthy with
      | false =>
        rw [handleDisconnect_falsy st sid c hf ht]
        exact hfil sid
      | true =>
        rw [handleDisconnect_eq st sid c hf ht]
        exact hfil sid

theorem socketsSound_run_from (evs : List Event) :
    ∀ st : State, SocketsSound st → SocketsSound (run st evs) := by
  induction evs with
  | nil => intro st h; exact h
  | cons e es ih => intro st h; exact ih _ (socketsSound_step st h e)

theorem socketsSound_run (evs : List Event) : SocketsSound (run State.init evs) :=
  socketsSound_run_from evs _ (by intro s hs; cases hs)

/-- The lookup of name and guest flag reads the `user` objects only. -/
theorem describeUser_map (l : List Socket) (f : Socket → Socket)
    (hf : ∀ s ∈ l, (f s).user = s.user) (uid : String) :
    describeUser (l.map f) uid = describeUser l uid := by
  induction l with
  | nil => rfl
  | cons q t ih =>
    have hq : (f q).user = q.user := hf q (List.mem_cons_self _ _)
    have ht : ∀ s ∈ t, (f s).user = s.user := fun s hs => hf s (List.mem_cons_of_mem _ hs)
    have hcons : ∀ (x : Socket) (r : List Socket),
        describeUser (x :: r) uid =
          if x.user.id = uid then
            { id := uid
              name := if x.user.username ≠ "" then x.user.username else "Participant"
              isGuest := x.user.isGuest }
          else describeUser r uid := by
      intro x r
      unfold describeUser
      by_cases hx : x.user.id = uid
      · simp [List.find?_cons, hx]
      · simp [List.find?_cons, hx]
    rw [List.map_cons, hcons, hcons, ih ht, hq]

theorem describeUser_updateSocket (l : List Socket) (hn : (l.map Socket.id).Nodup)
    (sid : String) (c s1 : Socket) (hc : findSocket l sid = some c) (hu : s1.user = c.user)
    (uid : String) : describeUser (updateSocket l sid s1) uid = describeUser l uid := by
  unfold updateSocket
  apply describeUser_map
  intro s hs
  by_cases hsid : s.id = sid
  · rw [if_pos hsid, hu]
    obtain ⟨hcl, hcid⟩ := findSocket_some _ _ _ hc
    have : s = c := List.inj_on_of_nodup_map hn hs hcl (hsid.trans hcid.symm)
    rw [this]
  · rw [if_neg hsid]

/-- The entry that the join handler builds for a participant id, in a state
whose sockets all have a non-empty display name. -/
theorem describeUser_spec (l : List Socket) (hname : ∀ s ∈ l, s.user.username ≠ "")
    (uid : String) :
    (∀ s, l.find? (fun s => decide (s.user.id = uid)) = some s →
        (describeUser l uid).name = s.user.username ∧
          (describeUser l uid).isGuest = s.user.isGuest) ∧
      (l.find? (fun s => decide (s.user.id = uid)) = none →
        (describeUser l uid).name = "Participant" ∧ (describeUser l uid).isGuest = true) := by
  constructor
  · intro s hs
    have hmem : s ∈ l := List.mem_of_find?_eq_some hs
    unfold describeUser
    rw [hs]
    simp [hname s hmem]
  · intro hs
    unfold describeUser
    rw [hs]
    exact ⟨rfl, rfl⟩

/-! ## Origins, update query, client list -/

theorem splitComma_ne_nil (cs : List Char) : splitComma cs ≠ [] := by
  cases cs with
  | nil => simp [splitComma]
  | cons c cs =>
    unfold splitComma
    split
    · simp
    · split <;> simp

theorem joinComma_splitComma (cs : List Char) : joinComma (splitComma cs) = cs := by
  induction cs with
  | nil => rfl
  | cons c cs ih =>
    unfold splitComma
    by_cases hc : c = ','
    · rw [if_pos hc]
      cases hs : splitComma cs with
      | nil => exact absurd hs (splitComma_ne_nil cs)
      | cons seg rest =>
        rw [hs] at ih
        simp [joinComma, ih, hc]
    · rw [if_neg hc]
      cases hs : splitComma cs with
      | nil => exact absurd hs (splitComma_ne_nil cs)
      | cons seg rest =>
        rw [hs] at ih
        cases rest with
        | nil =>
          simp only [joinComma] at ih ⊢
          rw [ih]
        | cons next rest =>
          simp only [joinComma] at ih ⊢
          rw [← ih]
          rfl

theorem splitComma_no_comma (cs : List Char) : ∀ seg ∈ splitComma cs, ',' ∉ seg := by
  induction cs with
  | nil =>
    intro seg hs
    simp [splitComma] at hs
    simp [hs]
  | cons c cs ih =>
    intro seg hseg
    unfold splitComma at hseg
    by_cases hc : c = ','
    · rw [if_pos hc] at hseg
      rcases List.mem_cons.1 hseg with h | h
      · simp [h]
      · exact ih seg h
    · rw [if_neg hc] at hseg
      cases hs : splitComma cs with
      | nil => exact absurd hs (splitComma_ne_nil cs)
      | cons s0 rest =>
        rw [hs] at hseg ih
        rcases List.mem_cons.1 hseg with h | h
        · rw [h]
          intro hm
          rcases List.mem_cons.1 hm with h1 | h1
          · exact hc h1.symm
          · exact ih s0 (List.mem_cons_self _ _) h1
        · exact ih seg (List.mem_cons_of_mem _ h)

theorem jsTrim_decompose (s : List Char) :
    ∃ pre post, s = pre ++ jsTrim s ++ post ∧ (∀ c ∈ pre, isJsWhitespace c = true) ∧
      (∀ c ∈ post, isJsWhitespace c = true) := by
  refine ⟨s.takeWhile isJsWhitespace,
    ((s.dropWhile isJsWhitespace).reverse.takeWhile isJsWhitespace).reverse, ?_, ?_, ?_⟩
  · have h1 := List.takeWhile_append_dropWhile isJsWhitespace s
    have h2 := List.takeWhile_append_dropWhile isJsWhitespace
      (s.dropWhile isJsWhitespace).reverse
    have h3 := congrArg List.reverse h2
    rw [List.reverse_append, List.reverse_reverse] at h3
    unfold jsTrim
    rw [List.append_assoc, h3, h1]
  · intro c hc
    exact List.mem_takeWhile_imp hc
  · intro c hc
    exact List.mem_takeWhile_imp (List.mem_reverse.1 hc)

theorem jsTrim_head (s : List Char) (ch : Char) (h : (jsTrim s).head? = some ch) :
    isJsWhitespace ch = false := by
  have hsuf : (s.dropWhile isJsWhitespace).reverse.dropWhile isJsWhitespace <:+
      (s.dropWhile isJsWhitespace).reverse := List.dropWhile_suffix _
  have hpre : jsTrim s <+: s.dropWhile isJsWhitespace := by
    unfold jsTrim
    rw [← List.reverse_suffix, List.reverse_reverse]
    exact hsuf
  obtain ⟨r, hr⟩ := hpre
  have hh := List.head?_dropWhile_not isJsWhitespace s
  cases hj : jsTrim s with
  | nil =>
    rw [hj] at h
    cases h
  | cons x xs =>
    rw [hj] at h hr
    rw [← hr] at hh
    simp only [List.cons_append, List.head?_cons] at hh h
    rw [← Option.some.inj h]
    exact hh

theorem jsTrim_last (s : List Char) (ch : Char) (h : (jsTrim s).getLast? = some ch) :
    isJsWhitespace ch = false := by
  unfold jsTrim at h
  rw [List.getLast?_reverse] at h
  have hh := List.head?_dropWhile_not isJsWhitespace (s.dropWhile isJsWhitespace).reverse
  rw [h] at hh
  exact hh

theorem buildUpdate_eq {α : Type} (id : α) (body : UpdateBody α) :
    buildUpdate id body =
      if (providedFields body).length = 0 then Except.error "No fields to update"
      else
        Except.ok
          { text := "UPDATE meetings SET " ++ ", ".intercalate (setClauses (providedFields body)) ++
              ", updated_at = CURRENT_TIMESTAMP WHERE id = $" ++
              toString ((providedFields body).length + 1) ++ " RETURNING *"
            params := (providedFields body).map Prod.snd ++ [id] } := by
  obtain ⟨t, d, s, u, m⟩ := body
  cases t <;> cases d <;> cases s <;> cases u <;> cases m <;> rfl

theorem params_positions {α : Type} (fields : List (String × α)) (id : α) :
    (fields.map Prod.snd ++ [id]).length = fields.length + 1 ∧
      (fields.map Prod.snd ++ [id]).get? fields.length = some id ∧
      ∀ i p, fields.get? i = some p → (fields.map Prod.snd ++ [id]).get? i = some p.2 := by
  refine ⟨by simp, ?_, ?_⟩
  · have : fields.length = (fields.map Prod.snd).length := by simp
    rw [this, List.get?_eq_getElem?, List.getElem?_append_right (le_refl _)]
    simp
  · intro i p hp
    rw [List.get?_eq_getElem?] at hp ⊢
    have hi : i < fields.length := by
      by_contra hc
      rw [List.getElem?_eq_none (by omega)] at hp
      cases hp
    rw [List.getElem?_append_left (by simpa using hi)]
    simp [hp]

theorem setClauses_get {α : Type} (fields : List (String × α)) (i : Nat) (p : String × α)
    (hp : fields.get? i = some p) :
    (setClauses fields).get? i = some (p.1 ++ " = $" ++ toString (i + 1)) := by
  unfold setClauses
  rw [List.get?_eq_getElem?] at hp ⊢
  simp [List.getElem?_map, List.getElem?_enum, hp]

theorem updateMeeting_reached {α υ ε : Type} [DecidableEq υ] (db : α → SelectResult υ)
    (req : UpdateRequest α υ ε) (userId : υ) (body : UpdateBody α) (rest : List υ)
    (hu : req.user = some userId) (he : req.errors = []) (hb : req.body = some body)
    (hd : db req.id = .rows (userId :: rest)) :
    updateMeeting db req =
      match buildUpdate req.id body with
      | .error message => .error 400 message
      | .ok q => .update q := by
  unfold updateMeeting
  rw [hu]
  simp only [he, List.length_nil, ne_eq, not_true_eq_false, if_false, hb, hd]

theorem updateMeeting_builder_only {α υ ε : Type} [DecidableEq υ] (db : α → SelectResult υ)
    (req : UpdateRequest α υ ε)
    (h : (∃ q, updateMeeting db req = .update q) ∨
      updateMeeting db req = .error 400 "No fields to update") :
    ∃ userId body rest, req.user = some userId ∧ req.errors = [] ∧ req.body = some body ∧
      db req.id = .rows (userId :: rest) := by
  unfold updateMeeting at h
  cases hu : req.user with
  | none =>
    rw [hu] at h
    rcases h with ⟨q, h⟩ | h <;> cases h
  | some userId =>
    rw [hu] at h
    dsimp only at h
    by_cases he : req.errors.length ≠ 0
    · rw [if_pos he] at h
      rcases h with ⟨q, h⟩ | h <;> cases h
    · rw [if_neg he] at h
      have he0 : req.errors = [] := List.length_eq_zero.1 (by simpa using he)
      cases hb : req.body with
      | none =>
        rw [hb] at h
        rcases h with ⟨q, h⟩ | h <;> cases h
      | some body =>
        rw [hb] at h
        dsimp only at h
        cases hd : db req.id with
        | failed =>
          rw [hd] at h
          rcases h with ⟨q, h⟩ | h <;> cases h
        | rows l =>
          rw [hd] at h
          cases l with
          | nil => rcases h with ⟨q, h⟩ | h <;> cases h
          | cons hostId rest =>
            dsimp only at h
            by_cases hh : hostId ≠ userId
            · rw [if_pos hh] at h
              rcases h with ⟨q, h⟩ | h <;> cases h
            · have : hostId = userId := by simpa using hh
              subst this
              exact ⟨hostId, body, rest, rfl, he0, rfl, rfl⟩

theorem updateMeeting_early {α υ ε : Type} [DecidableEq υ] (db : α → SelectResult υ)
    (req : UpdateRequest α υ ε) :
    (req.user = none → updateMeeting db req = .stopped) ∧
      (∀ userId, req.user = some userId → req.errors ≠ [] →
        updateMeeting db req = .invalid req.errors) ∧
      (∀ userId, req.user = some userId → req.errors = [] → req.body = none →
        updateMeeting db req = .error 500 "Failed to update meeting") ∧
      (∀ userId body, req.user = some userId → req.errors = [] → req.body = some body →
        db req.id = .failed → updateMeeting db req = .error 500 "Failed to update meeting") ∧
      (∀ userId body, req.user = some userId → req.errors = [] → req.body = some body →
        db req.id = .rows [] → updateMeeting db req = .error 404 "Meeting not found") ∧
      (∀ userId body hostId rest, req.user = some userId → req.errors = [] →
        req.body = some body → db req.id = .rows (hostId :: rest) → hostId ≠ userId →
        updateMeeting db req = .error 403 "Only meeting host can update meeting") := by
  refine ⟨?_, ?_, ?_, ?_, ?_, ?_⟩
  · intro hu
    unfold updateMeeting
    rw [hu]
  · intro userId hu he
    have hl : req.errors.length ≠ 0 := fun h0 => he (List.length_eq_zero.1 h0)
    unfold updateMeeting
    rw [hu]
    dsimp only
    rw [if_pos hl]
  · intro userId hu he hb
    unfold updateMeeting
    rw [hu]
    simp only [he, List.length_nil, ne_eq, not_true_eq_false, if_false, hb]
  · intro userId body hu he hb hd
    unfold updateMeeting
    rw [hu]
    simp only [he, List.length_nil, ne_eq, not_true_eq_false, if_false, hb, hd]
  · intro userId body hu he hb hd
    unfold updateMeeting
    rw [hu]
    simp only [he, List.length_nil, ne_eq, not_true_eq_false, if_false, hb, hd]
  · intro userId body hostId rest hu he hb hd hne
    unfold updateMeeting
    rw [hu]
    simp only [he, List.length_nil, ne_eq, not_true_eq_false, if_false, hb, hd]
    rw [if_pos hne]

theorem nodup_addIfAbsent (prev : List Participant) (p : Participant)
    (h : (prev.map Participant.id).Nodup) : ((addIfAbsent prev p).map Participant.id).Nodup := by
  unfold addIfAbsent
  split
  · exact h
  · rename_i hno
    rw [List.map_append, List.nodup_append]
    refine ⟨h, List.nodup_singleton _, ?_⟩
    intro a ha hb
    have e : a = p.id := by simpa using hb
    apply hno
    rcases List.mem_map.1 ha with ⟨q, hq, hqa⟩
    exact List.any_eq_true.2 ⟨q, hq, by simp [hqa, e]⟩

theorem nodup_onExistingUsers (users : List ExistingUser) :
    ∀ prev : List Participant, (prev.map Participant.id).Nodup →
      ((onExistingUsers prev users).map Participant.id).Nodup := by
  induction users with
  | nil => intro prev h; exact h
  | cons u us ih =>
    intro prev h
    unfold onExistingUsers
    rw [List.foldl_cons]
    apply ih
    have := nodup_addIfAbsent prev u.toParticipant h
    unfold addIfAbsent at this
    by_cases hany : prev.any (fun p => decide (p.id = u.toParticipant.id)) = true
    · simpa [hany] using h
    · simpa [hany] using this

theorem ids_onUserJoined_present (prev : List Participant) (userId username : String)
    (isGuest : Bool) (h : userId ∈ prev.map Participant.id) :
    onUserJoined prev userId username isGuest =
      prev.map (fun p =>
        if p.id = userId then { p with name := username, isGuest := isGuest } else p) := by
  unfold onUserJoined
  have : prev.any (fun p => decide (p.id = userId)) = true := by
    rcases List.mem_map.1 h with ⟨q, hq, e⟩
    exact List.any_eq_true.2 ⟨q, hq, by simp [e]⟩
  rw [if_pos this]

theorem nodup_onUserJoined (prev : List Participant) (userId username : String)
    (isGuest : Bool) (h : (prev.map Participant.id).Nodup) :
    ((onUserJoined prev userId username isGuest).map Participant.id).Nodup := by
  unfold onUserJoined
  split
  · have : (prev.map (fun p =>
        if p.id = userId then { p with name := username, isGuest := isGuest } else p)).map
        Participant.id = prev.map Participant.id := by
      rw [List.map_map]
      apply List.map_congr_left
      intro p _
      by_cases hp : p.id = userId <;> simp [hp]
    rw [this]
    exact h
  · rename_i hno
    have := nodup_addIfAbsent prev
      { id := userId, name := username, isGuest := isGuest, isCurrentUser := false } h
    unfold addIfAbsent at this
    simpa [hno] using this

theorem nodup_applyUpdates (us : List ClientUpdate) :
    ∀ prev : List Participant, (prev.map Participant.id).Nodup →
      ((applyUpdates prev us).map Participant.id).Nodup := by
  induction us with
  | nil => intro prev h; exact h
  | cons u us ih =>
    intro prev h
    unfold applyUpdates
    rw [List.foldl_cons]
    apply ih
    cases u with
    | existingUsers users => exact nodup_onExistingUsers users prev h
    | userJoined a b c => exact nodup_onUserJoined prev a b c h
    | peerAdded a b c => exact nodup_addIfAbsent prev _ h
    | currentUser a b c => exact nodup_addIfAbsent prev _ h

theorem getAllowedOrigins_some (v : String) :
    getAllowedOrigins (some v) =
      if (((splitComma v.data).map jsTrim).filter (fun u => decide (u ≠ []))).length = 0 then
        ["http://localhost:3000"]
      else (((splitComma v.data).map jsTrim).filter (fun u => decide (u ≠ []))).map String.mk := by
  have hv : (if v ≠ "" then v else "") = v := by
    by_cases h : v = ""
    · simp [h]
    · simp [h]
  unfold getAllowedOrigins
  simp only [hv]

theorem getAllowedOrigins_none : getAllowedOrigins none = getAllowedOrigins (some "") := rfl

theorem getAllowedOrigins_some_facts (v : String) :
    getAllowedOrigins (some v) ≠ [] ∧
      ∀ o ∈ getAllowedOrigins (some v),
        o ≠ "" ∧ (∀ ch, o.data.head? = some ch → isJsWhitespace ch = false) ∧
          (∀ ch, o.data.getLast? = some ch → isJsWhitespace ch = false) := by
  rw [getAllowedOrigins_some]
  by_cases h0 : (((splitComma v.data).map jsTrim).filter (fun u => decide (u ≠ []))).length = 0
  · rw [if_pos h0]
    refine ⟨by simp, ?_⟩
    intro o ho
    rw [List.mem_singleton] at ho
    rw [ho]
    refine ⟨by decide, ?_, ?_⟩
    · intro ch hch
      have e : ch = 'h' := (Option.some.inj hch).symm
      rw [e]
      decide
    · intro ch hch
      have e : ch = '0' := (Option.some.inj hch).symm
      rw [e]
      decide
  · rw [if_neg h0]
    constructor
    · intro hnil
      apply h0
      have := congrArg List.length hnil
      simpa using this
    · intro o ho
      rcases List.mem_map.1 ho with ⟨u, hu, e⟩
      obtain ⟨hmem, hne⟩ := List.mem_filter.1 hu
      rcases List.mem_map.1 hmem with ⟨seg, _, hseg⟩
      have hne1 : u ≠ [] := by simpa using hne
      rw [← e]
      refine ⟨?_, ?_, ?_⟩
      · intro h
        exact hne1 (congrArg String.data h)
      · intro ch hch
        rw [← hseg] at hch
        exact jsTrim_head seg ch hch
      · intro ch hch
        rw [← hseg] at hch
        exact jsTrim_last seg ch hch

/-! ## Claims -/

/-- C1: in every state reached from the empty registry by any finite sequence
of events, `activeMeetings` and `meetingUserSockets` have the same meeting ids
as keys (in the same order), and for every meeting id the participant set is
the key list of that room's directory. -/
theorem registry_matches_directory (evs : List Event) :
    mapKeys (run State.init evs).activeMeetings =
        mapKeys (run State.init evs).meetingUserSockets ∧
      ∀ m : JsVal,
        participantsOf (run State.init evs) m = mapKeys (directoryOf (run State.init evs) m) := by
  have h := wellFormed_run evs
  refine ⟨?_, participantsOf_eq_keys _ h.sync⟩
  rw [← h.sync, mapKeys_directoryKeys]

/-- C2: in every reachable state no entry of the registry holds an empty
participant set and no entry of the directory map holds an empty directory, so
a meeting id is a key exactly when its room is non-empty; and when a leave or
a disconnect of a connection joined to `m` leaves no participant in `m`, both
maps have no entry for `m` afterwards. -/
theorem no_empty_room (evs : List Event) :
    (∀ p ∈ (run State.init evs).activeMeetings, p.2 ≠ []) ∧
      (∀ p ∈ (run State.init evs).meetingUserSockets, p.2 ≠ []) ∧
      (∀ m : JsVal,
        (m ∈ mapKeys (run State.init evs).activeMeetings ↔
          participantsOf (run State.init evs) m ≠ []) ∧
        (m ∈ mapKeys (run State.init evs).meetingUserSockets ↔
          directoryOf (run State.init evs) m ≠ [])) ∧
      (∀ (sid : String) (c : Socket),
        findSocket (run State.init evs).sockets sid = some c →
        c.meetingId.truthy = true →
        setDelete (participantsOf (run State.init evs) c.meetingId) c.user.id = [] →
        (c.meetingId ∉
            mapKeys (handleLeaveMeeting (run State.init evs) sid (some c.meetingId)).1.activeMeetings ∧
          c.meetingId ∉
            mapKeys
              (handleLeaveMeeting (run State.init evs) sid (some c.meetingId)).1.meetingUserSockets) ∧
        (c.meetingId ∉ mapKeys (handleDisconnect (run State.init evs) sid).1.activeMeetings ∧
          c.meetingId ∉
            mapKeys (handleDisconnect (run State.init evs) sid).1.meetingUserSockets)) := by
  have h := wellFormed_run evs
  refine ⟨h.nonempty, ?_, wellFormed_keys _ h, ?_⟩
  · intro p hp hnil
    have hk : (p.1, mapKeys p.2) ∈ (run State.init evs).activeMeetings := by
      rw [← h.sync]
      exact List.mem_map.2 ⟨p, hp, rfl⟩
    exact h.nonempty _ hk (by simp [hnil, mapKeys])
  · intro sid c hf ht hlast
    have ha : c.meetingId ∉
        mapKeys (removeParticipant (run State.init evs).activeMeetings c.meetingId c.user.id) := by
      rw [mem_keys_removeParticipant]
      exact fun hne => hne hlast
    have hb : c.meetingId ∉
        mapKeys
          (removeUserSocket (run State.init evs).meetingUserSockets c.meetingId c.user.id) := by
      rw [← mapKeys_directoryKeys, directoryKeys_removeUserSocket, h.sync]
      exact ha
    rw [handleLeaveMeeting_eq _ sid c c.meetingId hf ht, handleDisconnect_eq _ sid c hf ht]
    exact ⟨⟨ha, hb⟩, ⟨ha, hb⟩⟩

/-- Witness for C2: Ann alone in meeting A leaves, and the registry no longer
has A. -/
theorem no_empty_room_witness :
    JsVal.str "A" ∉
      mapKeys (handleLeaveMeeting (run State.init traceAnnInA) "s1"
        (some (JsVal.str "A"))).1.activeMeetings :=
  ((no_empty_room traceAnnInA).2.2.2 "s1"
    { id := "s1", user := { id := "u1", username := "Ann", isGuest := false },
      meetingId := JsVal.str "A", rooms := [Room.own "s1", Room.meeting "A"] }
    (by decide) (by decide) (by decide)).1.1

/-- C3, counterexample: after Ann joins meeting A and then meeting B on the same
socket, A's directory still maps her id to that socket although the socket's
current meeting is B. -/
theorem directory_entry_outlives_membership :
    ¬ DirectoryLive (run State.init traceAnnMoves) := by
  intro h
  obtain ⟨c, hc, _, hm⟩ := h (JsVal.str "A") "u1" "s1" (by decide)
  have hs : findSocket (run State.init traceAnnMoves).sockets "s1" =
      some { id := "s1", user := { id := "u1", username := "Ann", isGuest := false },
             meetingId := JsVal.str "B",
             rooms := [Room.own "s1", Room.meeting "A", Room.meeting "B"] } := by decide
  rw [hs] at hc
  have e := Option.some.inj hc
  rw [← e] at hm
  exact absurd hm (by decide)

/-- C3, amended: when every join names a truthy meeting id and comes from a
socket that is in no meeting or already in that one, and every leave names the
sender's current meeting, then in the state reached every directory entry
refers to a connected socket that carries that participant id and whose
current meeting is that room. -/
theorem directory_live_of_disciplined (evs : List Event)
    (h : disciplinedTrace State.init evs = true) : DirectoryLive (run State.init evs) :=
  directoryLive_of_liveEntries _ (liveEntries_run evs _ liveEntries_init h)

/-- Witness for C3: the trace in which Ann joins meeting A is disciplined. -/
theorem directory_live_of_disciplined_witness :
    disciplinedTrace State.init traceAnnInA = true ∧
      DirectoryLive (run State.init traceAnnInA) :=
  ⟨by decide, directory_live_of_disciplined traceAnnInA (by decide)⟩

/-- C4, counterexample: Ann is in meeting A and joins meeting B on the same
socket; afterwards her id is still in A's participant set and A's directory
still maps it to her socket. -/
theorem join_leaves_prior_room_untouched :
    "u1" ∈ participantsOf
        (handleJoinMeeting (run State.init traceAnnInA) "s1" (some (JsVal.str "B"))).1
        (JsVal.str "A") ∧
      ("u1", "s1") ∈ directoryOf
        (handleJoinMeeting (run State.init traceAnnInA) "s1" (some (JsVal.str "B"))).1
        (JsVal.str "A") := by
  decide

/-- C4, amended: when a connection registered in meeting A joins a different
meeting B, the join does not touch A (A's participant set and directory are
the same as before, so the connection's participant id stays registered in
A), it registers the participant id in B's participant set and maps it to the
connection in B's directory, and the connection's current meeting becomes B. -/
theorem join_other_meeting (st : State) (sid : String) (c : Socket) (A B : JsVal)
    (hf : findSocket st.sockets sid = some c) (hAB : A ≠ B)
    (hA : c.user.id ∈ participantsOf st A) (hD : (c.user.id, sid) ∈ directoryOf st A) :
    participantsOf (handleJoinMeeting st sid (some B)).1 A = participantsOf st A ∧
      directoryOf (handleJoinMeeting st sid (some B)).1 A = directoryOf st A ∧
      c.user.id ∈ participantsOf (handleJoinMeeting st sid (some B)).1 A ∧
      (c.user.id, sid) ∈ directoryOf (handleJoinMeeting st sid (some B)).1 A ∧
      c.user.id ∈ participantsOf (handleJoinMeeting st sid (some B)).1 B ∧
      mapGet (directoryOf (handleJoinMeeting st sid (some B)).1 B) c.user.id = some sid ∧
      ∃ c1, findSocket (handleJoinMeeting st sid (some B)).1.sockets sid = some c1 ∧
        c1.meetingId = B ∧ c1.user = c.user := by
  obtain ⟨_, hid⟩ := findSocket_some _ _ _ hf
  rw [handleJoinMeeting_eq st sid c B hf]
  have h1 : participantsOf
      { activeMeetings := mapSet st.activeMeetings B (setAdd (participantsOf st B) c.user.id)
        meetingUserSockets :=
          mapSet st.meetingUserSockets B (mapSet (directoryOf st B) c.user.id sid)
        sockets := updateSocket st.sockets sid
          { c with rooms := setAdd c.rooms (roomName B), meetingId := B } } A =
      participantsOf st A := by
    unfold participantsOf
    rw [mapGet_mapSet_ne _ _ _ _ hAB]
  have h2 : directoryOf
      { activeMeetings := mapSet st.activeMeetings B (setAdd (participantsOf st B) c.user.id)
        meetingUserSockets :=
          mapSet st.meetingUserSockets B (mapSet (directoryOf st B) c.user.id sid)
        sockets := updateSocket st.sockets sid
          { c with rooms := setAdd c.rooms (roomName B), meetingId := B } } A =
      directoryOf st A := by
    unfold directoryOf
    rw [mapGet_mapSet_ne _ _ _ _ hAB]
  refine ⟨h1, h2, ?_, ?_, ?_, ?_, ?_⟩
  · rw [h1]
    exact hA
  · rw [h2]
    exact hD
  · show c.user.id ∈ (mapGet (mapSet _ _ _) B).getD []
    rw [mapGet_mapSet_self]
    exact (mem_setAdd _ _ _).2 (Or.inr rfl)
  · show mapGet ((mapGet (mapSet _ _ _) B).getD []) c.user.id = some sid
    rw [mapGet_mapSet_self]
    exact mapGet_mapSet_self _ _ _
  · exact ⟨_, findSocket_updateSocket _ _ _ _ hf hid, rfl, rfl⟩

/-- Witness for C4: Ann, in meeting A, joins meeting B. -/
theorem join_other_meeting_witness :
    participantsOf
        (handleJoinMeeting (run State.init traceAnnInA) "s1" (some (JsVal.str "B"))).1
        (JsVal.str "A") =
      participantsOf (run State.init traceAnnInA) (JsVal.str "A") :=
  (join_other_meeting (run State.init traceAnnInA) "s1"
    { id := "s1", user := { id := "u1", username := "Ann", isGuest := false },
      meetingId := JsVal.str "A", rooms := [Room.own "s1", Room.meeting "A"] }
    (JsVal.str "A") (JsVal.str "B") (by decide) (by decide) (by decide) (by decide)).1

/-- C5: in every reachable state, for a connection whose current meeting id is
`m`, the leave-meeting event naming `m` and the transport disconnect produce the
same registry and the same directory map, and make the same deliveries (the same
`user-left` event to the same recipients). -/
theorem leave_and_disconnect_agree (evs : List Event) (sid : String) (c : Socket)
    (hf : findSocket (run State.init evs).sockets sid = some c) :
    (handleLeaveMeeting (run State.init evs) sid (some c.meetingId)).1.activeMeetings =
        (handleDisconnect (run State.init evs) sid).1.activeMeetings ∧
      (handleLeaveMeeting (run State.init evs) sid (some c.meetingId)).1.meetingUserSockets =
        (handleDisconnect (run State.init evs) sid).1.meetingUserSockets ∧
      (handleLeaveMeeting (run State.init evs) sid (some c.meetingId)).2 =
        (handleDisconnect (run State.init evs) sid).2 := by
  have h := wellFormed_run evs
  cases ht : c.meetingId.truthy with
  | false =>
    rw [handleLeaveMeeting_falsy _ sid c _ hf ht, handleDisconnect_falsy _ sid c hf ht]
    exact ⟨rfl, rfl, rfl⟩
  | true =>
    rw [handleLeaveMeeting_eq _ sid c _ hf ht, handleDisconnect_eq _ sid c hf ht]
    refine ⟨rfl, rfl, ?_⟩
    exact (emitToRoomExcept_filter_sender _ h.own _ _ _).symm

/-- Witness for C5: Bob, in meeting A with Ann, leaves or disconnects. -/
theorem leave_and_disconnect_agree_witness :
    (handleLeaveMeeting (run State.init traceAnnBobInA) "s2" (some (JsVal.str "A"))).2 =
      (handleDisconnect (run State.init traceAnnBobInA) "s2").2 :=
  (leave_and_disconnect_agree traceAnnBobInA "s2"
    { id := "s2", user := { id := "u2", username := "Bob", isGuest := false },
      meetingId := JsVal.str "A", rooms := [Room.own "s2", Room.meeting "A"] }
    (by decide)).2.2

/-- C6: the `existing-users` list of a join is computed from the state before
the joiner is inserted. It is the first delivery, addressed to the joiner, and
the `user-joined` broadcast follows it; its ids are the members of the
meeting's participant set in the pre-state other than the joiner's own id, in
order, each once; the joiner's id is not among them; it is empty when the
meeting did not exist; and the state returned has the joiner inserted. -/
theorem existing_users_snapshot (st : State) (sid : String) (c : Socket) (m : JsVal)
    (hf : findSocket st.sockets sid = some c) (hn : (participantsOf st m).Nodup) :
    ∃ users : List UserInfo,
      (handleJoinMeeting st sid (some m)).2 =
          (sid, OutEvent.existingUsers users) ::
            emitToRoomExcept (handleJoinMeeting st sid (some m)).1.sockets (roomName m) sid
              (OutEvent.userJoined c.user.id c.user.username c.user.isGuest) ∧
        users.map UserInfo.id =
          (participantsOf st m).filter (fun uid => decide (uid ≠ c.user.id)) ∧
        (∀ uid, uid ∈ users.map UserInfo.id ↔ uid ∈ participantsOf st m ∧ uid ≠ c.user.id) ∧
        c.user.id ∉ users.map UserInfo.id ∧
        (users.map UserInfo.id).Nodup ∧
        (mapHas st.activeMeetings m = false → users = []) ∧
        c.user.id ∈ participantsOf (handleJoinMeeting st sid (some m)).1 m := by
  rw [handleJoinMeeting_eq st sid c m hf]
  have hids : ∀ (l : List Socket) (ps : List String),
      (ps.map (describeUser l)).map UserInfo.id = ps := by
    intro l ps
    rw [List.map_map]
    conv_rhs => rw [← List.map_id ps]
    apply List.map_congr_left
    intro u _
    exact describeUser_id l u
  refine ⟨_, rfl, hids _ _, ?_, ?_, ?_, ?_, ?_⟩
  · intro uid
    rw [hids]
    simp
  · rw [hids]
    simp
  · rw [hids]
    exact hn.filter _
  · intro hh
    have hnone : mapGet st.activeMeetings m = none :=
      (mapGet_eq_none_iff _ _).2 (fun hk => by
        rw [(mapHas_iff_mem_keys _ _).2 hk] at hh
        cases hh)
    have : participantsOf st m = [] := by
      unfold participantsOf
      rw [hnone]
      rfl
    rw [this]
    rfl
  · show c.user.id ∈ (mapGet (mapSet _ _ _) m).getD []
    rw [mapGet_mapSet_self]
    exact (mem_setAdd _ _ _).2 (Or.inr rfl)

/-- Witness for C6: Bob joins meeting A, where Ann is; his list holds Ann only. -/
theorem existing_users_snapshot_witness :
    ∃ users : List UserInfo,
      (handleJoinMeeting (run State.init traceAnnBobInA) "s2" (some (JsVal.str "A"))).2 =
          ("s2", OutEvent.existingUsers users) ::
            emitToRoomExcept
              (handleJoinMeeting (run State.init traceAnnBobInA) "s2"
                (some (JsVal.str "A"))).1.sockets
              (roomName (JsVal.str "A")) "s2" (OutEvent.userJoined "u2" "Bob" false) ∧
        users.map UserInfo.id = ["u1"] := by
  obtain ⟨users, h1, h2, _⟩ := existing_users_snapshot (run State.init traceAnnBobInA) "s2"
    { id := "s2", user := { id := "u2", username := "Bob", isGuest := false },
      meetingId := JsVal.str "A", rooms := [Room.own "s2", Room.meeting "A"] }
    (JsVal.str "A") (by decide) (by decide)
  exact ⟨users, h1, h2.trans (by decide)⟩

/-- C7: after a join of meeting `m` by a connected socket, both maps have the
key `m`, `m`'s participant set is the previous one (empty if absent) with the
joiner's id added, `m`'s directory is the previous one with the joiner's id
mapped to the joiner's socket (replacing an earlier mapping of that id, other
ids untouched), and the socket's current meeting is `m`. -/
theorem join_effect (st : State) (sid : String) (c : Socket) (m : JsVal)
    (hf : findSocket st.sockets sid = some c) :
    m ∈ mapKeys (handleJoinMeeting st sid (some m)).1.activeMeetings ∧
      m ∈ mapKeys (handleJoinMeeting st sid (some m)).1.meetingUserSockets ∧
      participantsOf (handleJoinMeeting st sid (some m)).1 m =
        setAdd (participantsOf st m) c.user.id ∧
      (∀ uid, uid ∈ participantsOf (handleJoinMeeting st sid (some m)).1 m ↔
        uid ∈ participantsOf st m ∨ uid = c.user.id) ∧
      directoryOf (handleJoinMeeting st sid (some m)).1 m =
        mapSet (directoryOf st m) c.user.id sid ∧
      mapGet (directoryOf (handleJoinMeeting st sid (some m)).1 m) c.user.id = some sid ∧
      (∀ uid, uid ≠ c.user.id →
        mapGet (directoryOf (handleJoinMeeting st sid (some m)).1 m) uid =
          mapGet (directoryOf st m) uid) ∧
      ∃ c1, findSocket (handleJoinMeeting st sid (some m)).1.sockets sid = some c1 ∧
        c1.meetingId = m ∧ c1.user = c.user ∧ c1.id = sid := by
  obtain ⟨_, hid⟩ := findSocket_some _ _ _ hf
  rw [handleJoinMeeting_eq st sid c m hf]
  have hp : participantsOf
      { activeMeetings := mapSet st.activeMeetings m (setAdd (participantsOf st m) c.user.id)
        meetingUserSockets :=
          mapSet st.meetingUserSockets m (mapSet (directoryOf st m) c.user.id sid)
        sockets := updateSocket st.sockets sid
          { c with rooms := setAdd c.rooms (roomName m), meetingId := m } } m =
      setAdd (participantsOf st m) c.user.id := by
    show (mapGet (mapSet _ _ _) m).getD [] = _
    rw [mapGet_mapSet_self]
    rfl
  have hd : directoryOf
      { activeMeetings := mapSet st.activeMeetings m (setAdd (participantsOf st m) c.user.id)
        meetingUserSockets :=
          mapSet st.meetingUserSockets m (mapSet (directoryOf st m) c.user.id sid)
        sockets := updateSocket st.sockets sid
          { c with rooms := setAdd c.rooms (roomName m), meetingId := m } } m =
      mapSet (directoryOf st m) c.user.id sid := by
    show (mapGet (mapSet _ _ _) m).getD [] = _
    rw [mapGet_mapSet_self]
    rfl
  refine ⟨?_, ?_, hp, ?_, hd, ?_, ?_, ?_⟩
  · show m ∈ mapKeys (mapSet _ _ _)
    rw [mapKeys_mapSet]
    exact (mem_setAdd _ _ _).2 (Or.inr rfl)
  · show m ∈ mapKeys (mapSet _ _ _)
    rw [mapKeys_mapSet]
    exact (mem_setAdd _ _ _).2 (Or.inr rfl)
  · intro uid
    rw [hp]
    exact mem_setAdd _ _ _
  · rw [hd]
    exact mapGet_mapSet_self _ _ _
  · intro uid hne
    rw [hd]
    exact mapGet_mapSet_ne _ _ _ _ hne
  · exact ⟨_, findSocket_updateSocket _ _ _ _ hf hid, rfl, rfl, hid⟩

/-- Witness for C7: Bob joins a meeting B that does not exist yet. -/
theorem join_effect_witness :
    participantsOf
        (handleJoinMeeting (run State.init traceAnnBobInA) "s2" (some (JsVal.str "B"))).1
        (JsVal.str "B") =
      setAdd (participantsOf (run State.init traceAnnBobInA) (JsVal.str "B")) "u2" :=
  (join_effect (run State.init traceAnnBobInA) "s2"
    { id := "s2", user := { id := "u2", username := "Bob", isGuest := false },
      meetingId := JsVal.str "A", rooms := [Room.own "s2", Room.meeting "A"] }
    (JsVal.str "B") (by decide)).2.2.1

/-- C8, counterexample: Ann has joined meeting A on sockets s1 and s2, so A's
directory maps her id to s2 only; when Cid joins A, the `user-joined` event is
delivered to s1 as well, a socket that A's directory does not register. -/
theorem user_joined_reaches_unregistered_socket :
    ("s1", OutEvent.userJoined "u3" "Cid" false) ∈
        (handleJoinMeeting (run State.init traceTwoTabs) "s3" (some (JsVal.str "A"))).2 ∧
      directoryOf (run State.init traceTwoTabs) (JsVal.str "A") = [("u1", "s2")] ∧
      directoryOf
          (handleJoinMeeting (run State.init traceTwoTabs) "s3" (some (JsVal.str "A"))).1
          (JsVal.str "A") = [("u1", "s2"), ("u3", "s3")] := by
  decide

/-- C8, amended: in every reachable state, a join of meeting `m` by a connected
socket delivers the `user-joined` event carrying the joiner's identity exactly
once to each connected socket other than the joiner that is in the transport
room of `m`, and to no other socket (so never to the joiner); every
`user-joined` event delivered carries the joiner's identity. -/
theorem user_joined_recipients (evs : List Event) (sid : String) (c : Socket) (m : JsVal)
    (hf : findSocket (run State.init evs).sockets sid = some c) :
    (∀ r, (r ≠ sid ∧ ∃ s ∈ (run State.init evs).sockets, s.id = r ∧ roomName m ∈ s.rooms) →
        List.count (r, OutEvent.userJoined c.user.id c.user.username c.user.isGuest)
          (handleJoinMeeting (run State.init evs) sid (some m)).2 = 1) ∧
      (∀ r, ¬ (r ≠ sid ∧
          ∃ s ∈ (run State.init evs).sockets, s.id = r ∧ roomName m ∈ s.rooms) →
        List.count (r, OutEvent.userJoined c.user.id c.user.username c.user.isGuest)
          (handleJoinMeeting (run State.init evs) sid (some m)).2 = 0) ∧
      (∀ r uid name g,
        (r, OutEvent.userJoined uid name g) ∈
          (handleJoinMeeting (run State.init evs) sid (some m)).2 →
        uid = c.user.id ∧ name = c.user.username ∧ g = c.user.isGuest) := by
  have hw := wellFormed_join _ (wellFormed_run evs) sid (some m)
  obtain ⟨_, hid⟩ := findSocket_some _ _ _ hf
  rw [handleJoinMeeting_eq _ sid c m hf] at hw ⊢
  obtain ⟨h1, h0, hev⟩ := emitToRoomExcept_spec _ hw.ids hw.own (roomName m) sid
    (OutEvent.userJoined c.user.id c.user.username c.user.isGuest)
  have hhead : ∀ (r : String) (us : List UserInfo) (rest : List Delivery),
      List.count (r, OutEvent.userJoined c.user.id c.user.username c.user.isGuest)
        ((sid, OutEvent.existingUsers us) :: rest) =
      List.count (r, OutEvent.userJoined c.user.id c.user.username c.user.isGuest) rest := by
    intro r us rest
    apply List.count_cons_of_ne
    intro e
    have := congrArg Prod.snd e
    cases this
  have hmem := fun r => room_members_updateSocket (run State.init evs).sockets sid
    { c with rooms := setAdd c.rooms (roomName m), meetingId := m } hid (roomName m) r
  refine ⟨?_, ?_, ?_⟩
  · intro r hr
    rw [hhead]
    exact h1 r ((hmem r).2 hr)
  · intro r hr
    rw [hhead]
    exact h0 r (fun h => hr ((hmem r).1 h))
  · intro r uid name g hmem
    rcases List.mem_cons.1 hmem with h2 | h2
    · have := congrArg Prod.snd h2
      cases this
    · have := hev _ h2
      simp only [OutEvent.userJoined.injEq] at this
      exact this

/-- Witness for C8: Cid joins meeting A, where Ann is on two sockets; the socket
s1 receives the `user-joined` event once. -/
theorem user_joined_recipients_witness :
    List.count ("s1", OutEvent.userJoined "u3" "Cid" false)
      (handleJoinMeeting (run State.init traceTwoTabs) "s3" (some (JsVal.str "A"))).2 = 1 :=
  (user_joined_recipients traceTwoTabs "s3"
    { id := "s3", user := { id := "u3", username := "Cid", isGuest := false },
      meetingId := JsVal.undefined, rooms := [Room.own "s3"] }
    (JsVal.str "A") (by decide)).1 "s1"
    ⟨by decide,
      { id := "s1", user := { id := "u1", username := "Ann", isGuest := false },
        meetingId := JsVal.str "A", rooms := [Room.own "s1", Room.meeting "A"] },
      by decide, rfl, by decide⟩

/-- C9, counterexample: Ann joins meeting A and then meeting B on the same
socket, so she is registered in A (in its participant set, and its directory
maps her id to her socket). When her socket disconnects, A's participant set
and directory still hold her, and A's entries are not deleted. -/
theorem registered_member_not_removed :
    participantsOf (run State.init traceAnnMoves) (JsVal.str "A") = ["u1"] ∧
      directoryOf (run State.init traceAnnMoves) (JsVal.str "A") = [("u1", "s1")] ∧
      participantsOf (handleDisconnect (run State.init traceAnnMoves) "s1").1 (JsVal.str "A") =
        ["u1"] ∧
      directoryOf (handleDisconnect (run State.init traceAnnMoves) "s1").1 (JsVal.str "A") =
        [("u1", "s1")] ∧
      (handleDisconnect (run State.init traceAnnMoves) "s1").1.sockets = [] := by
  decide

/-- C9, amended: in every reachable state, for a connected socket whose current
meeting id `m` is truthy, the leave naming `m` and the disconnect each remove the
socket's participant id from `m`'s participant set and directory and leave the
other participants and their directory entries as they were, keep `m`'s entries
in both maps exactly when a participant remains, leave every other room
untouched, and deliver the `user-left` event carrying the socket's identity
once to each other connected socket in the transport room of `m` and to nobody
else. -/
theorem removal_effect (evs : List Event) (sid : String) (c : Socket)
    (hf : findSocket (run State.init evs).sockets sid = some c)
    (ht : c.meetingId.truthy = true) (res : State × List Delivery)
    (hres : res = handleLeaveMeeting (run State.init evs) sid (some c.meetingId) ∨
      res = handleDisconnect (run State.init evs) sid) :
    participantsOf res.1 c.meetingId =
        setDelete (participantsOf (run State.init evs) c.meetingId) c.user.id ∧
      directoryOf res.1 c.meetingId =
        mapDelete (directoryOf (run State.init evs) c.meetingId) c.user.id ∧
      c.user.id ∉ participantsOf res.1 c.meetingId ∧
      c.user.id ∉ mapKeys (directoryOf res.1 c.meetingId) ∧
      (c.meetingId ∈ mapKeys res.1.activeMeetings ↔
        setDelete (participantsOf (run State.init evs) c.meetingId) c.user.id ≠ []) ∧
      (c.meetingId ∈ mapKeys res.1.meetingUserSockets ↔
        setDelete (participantsOf (run State.init evs) c.meetingId) c.user.id ≠ []) ∧
      (∀ m1, m1 ≠ c.meetingId →
        mapGet res.1.activeMeetings m1 = mapGet (run State.init evs).activeMeetings m1 ∧
        mapGet res.1.meetingUserSockets m1 =
          mapGet (run State.init evs).meetingUserSockets m1) ∧
      (∀ r, (r ≠ sid ∧
          ∃ s ∈ (run State.init evs).sockets, s.id = r ∧ roomName c.meetingId ∈ s.rooms) →
        List.count (r, OutEvent.userLeft c.user.id c.user.username c.user.isGuest) res.2 = 1) ∧
      (∀ r, ¬ (r ≠ sid ∧
          ∃ s ∈ (run State.init evs).sockets, s.id = r ∧ roomName c.meetingId ∈ s.rooms) →
        List.count (r, OutEvent.userLeft c.user.id c.user.username c.user.isGuest) res.2 = 0) ∧
      (∀ d ∈ res.2, d.2 = OutEvent.userLeft c.user.id c.user.username c.user.isGuest) := by
  have h := wellFormed_run evs
  have hA : res.1.activeMeetings =
      removeParticipant (run State.init evs).activeMeetings c.meetingId c.user.id := by
    rcases hres with e | e
    · rw [e, handleLeaveMeeting_eq _ sid c _ hf ht]
    · rw [e, handleDisconnect_eq _ sid c hf ht]
  have hM : res.1.meetingUserSockets =
      removeUserSocket (run State.init evs).meetingUserSockets c.meetingId c.user.id := by
    rcases hres with e | e
    · rw [e, handleLeaveMeeting_eq _ sid c _ hf ht]
    · rw [e, handleDisconnect_eq _ sid c hf ht]
  have hO : res.2 = emitToRoomExcept (run State.init evs).sockets (roomName c.meetingId) sid
      (OutEvent.userLeft c.user.id c.user.username c.user.isGuest) := by
    rcases hres with e | e
    · rw [e, handleLeaveMeeting_eq _ sid c _ hf ht]
    · rw [e, handleDisconnect_eq _ sid c hf ht]
      exact emitToRoomExcept_filter_sender _ h.own _ _ _
  have hp : participantsOf res.1 c.meetingId =
      setDelete (participantsOf (run State.init evs) c.meetingId) c.user.id := by
    unfold participantsOf
    rw [hA]
    exact mapGet_removeParticipant_self _ _ _
  have hd : directoryOf res.1 c.meetingId =
      mapDelete (directoryOf (run State.init evs) c.meetingId) c.user.id := by
    unfold directoryOf
    rw [hM]
    exact mapGet_removeUserSocket_self _ _ _
  have hk : c.meetingId ∈ mapKeys res.1.activeMeetings ↔
      setDelete (participantsOf (run State.init evs) c.meetingId) c.user.id ≠ [] := by
    rw [hA]
    exact mem_keys_removeParticipant _ _ _
  obtain ⟨h1, h0, hev⟩ := emitToRoomExcept_spec _ h.ids h.own (roomName c.meetingId) sid
    (OutEvent.userLeft c.user.id c.user.username c.user.isGuest)
  refine ⟨hp, hd, ?_, ?_, hk, ?_, ?_, ?_, ?_, ?_⟩
  · rw [hp, mem_setDelete]
    exact fun hx => hx.2 rfl
  · rw [hd, mapKeys_mapDelete, mem_setDelete]
    exact fun hx => hx.2 rfl
  · rw [hM, ← mapKeys_directoryKeys, directoryKeys_removeUserSocket, h.sync, ← hA]
    exact hk
  · intro m1 hne
    rw [hA, hM]
    exact ⟨mapGet_removeParticipant_ne _ _ _ _ hne, mapGet_removeUserSocket_ne _ _ _ _ hne⟩
  · rw [hO]
    exact h1
  · rw [hO]
    exact h0
  · rw [hO]
    exact hev

/-- Witness for C9: Bob, in meeting A with Ann, disconnects; Ann's socket gets
the `user-left` event once. -/
theorem removal_effect_witness :
    List.count ("s1", OutEvent.userLeft "u2" "Bob" false)
      (handleDisconnect (run State.init traceAnnBobInA) "s2").2 = 1 :=
  (removal_effect traceAnnBobInA "s2"
    { id := "s2", user := { id := "u2", username := "Bob", isGuest := false },
      meetingId := JsVal.str "A", rooms := [Room.own "s2", Room.meeting "A"] }
    (by decide) (by decide) (handleDisconnect (run State.init traceAnnBobInA) "s2")
    (Or.inr rfl)).2.2.2.2.2.2.2.1 "s1"
    ⟨by decide,
      { id := "s1", user := { id := "u1", username := "Ann", isGuest := false },
        meetingId := JsVal.str "A", rooms := [Room.own "s1", Room.meeting "A"] },
      by decide, rfl, by decide⟩

/-- C10: removal is idempotent. For every state, socket and meeting id,
processing the same leave a second time changes nothing (registry, directory
map and sockets are as after the first) and delivers nothing, in particular no
error event; and a disconnect that follows a leave changes neither the registry
nor the directory map and delivers nothing. -/
theorem removal_idempotent (st : State) (sid : String) (m : JsVal) :
    handleLeaveMeeting (handleLeaveMeeting st sid (some m)).1 sid (some m) =
        ((handleLeaveMeeting st sid (some m)).1, []) ∧
      (handleDisconnect (handleLeaveMeeting st sid (some m)).1 sid).1.activeMeetings =
        (handleLeaveMeeting st sid (some m)).1.activeMeetings ∧
      (handleDisconnect (handleLeaveMeeting st sid (some m)).1 sid).1.meetingUserSockets =
        (handleLeaveMeeting st sid (some m)).1.meetingUserSockets ∧
      (handleDisconnect (handleLeaveMeeting st sid (some m)).1 sid).2 = [] := by
  cases hf : findSocket st.sockets sid with
  | none =>
    have h1 : handleLeaveMeeting st sid (some m) = (st, []) := by
      unfold handleLeaveMeeting
      rw [hf]
    have h2 : handleDisconnect st sid = (st, []) := by
      unfold handleDisconnect
      rw [hf]
    rw [h1]
    simp only
    rw [h1, h2]
    exact ⟨rfl, rfl, rfl, rfl⟩
  | some c =>
    cases ht : c.meetingId.truthy with
    | false =>
      have h1 := handleLeaveMeeting_falsy st sid c (some m) hf ht
      rw [h1]
      simp only
      rw [h1, handleDisconnect_falsy st sid c hf ht]
      exact ⟨rfl, rfl, rfl, rfl⟩
    | true =>
      obtain ⟨_, hid⟩ := findSocket_some _ _ _ hf
      have h1 := handleLeaveMeeting_eq st sid c m hf ht
      have hf1 : findSocket (handleLeaveMeeting st sid (some m)).1.sockets sid =
          some { c with rooms := setDelete c.rooms (roomName m), meetingId := .null } := by
        rw [h1]
        exact findSocket_updateSocket _ _ _ _ hf hid
      rw [handleLeaveMeeting_falsy _ sid _ (some m) hf1 rfl,
        handleDisconnect_falsy _ sid _ hf1 rfl]
      exact ⟨rfl, rfl, rfl, rfl⟩

/-- C11, evaluation at the failing input: Ann is in meeting A, Bob in meeting B,
and Ann is not registered in B. Her leave naming B is not a no-op: Bob receives
a `user-left` event for her, and her socket's `meetingId` becomes `null` while
A still registers her. -/
theorem leave_of_foreign_room_takes_effect :
    "u1" ∉ participantsOf (run State.init traceAnnABobB) (JsVal.str "B") ∧
      (handleLeaveMeeting (run State.init traceAnnABobB) "s1" (some (JsVal.str "B"))).2 =
        [("s2", OutEvent.userLeft "u1" "Ann" false)] ∧
      findSocket (run State.init traceAnnABobB).sockets "s1" =
        some { id := "s1", user := { id := "u1", username := "Ann", isGuest := false },
               meetingId := JsVal.str "A", rooms := [Room.own "s1", Room.meeting "A"] } ∧
      findSocket
          (handleLeaveMeeting (run State.init traceAnnABobB) "s1"
            (some (JsVal.str "B"))).1.sockets "s1" =
        some { id := "s1", user := { id := "u1", username := "Ann", isGuest := false },
               meetingId := JsVal.null, rooms := [Room.own "s1", Room.meeting "A"] } ∧
      participantsOf
          (handleLeaveMeeting (run State.init traceAnnABobB) "s1" (some (JsVal.str "B"))).1
          (JsVal.str "A") = ["u1"] := by
  decide

/-- C13: a relay (offer, answer or ice-candidate) from a connected socket to a
recipient that the directory of the sender's current meeting does not hold
delivers nothing, so no error event either, and leaves the whole state as it
was, so the sender is still joined and a following relay is processed as it
would have been before. -/
theorem relay_to_absent_dropped (st : State) (sid : String) (c : Socket) (t payload : JsVal)
    (hf : findSocket st.sockets sid = some c)
    (habs : ∀ uid, t = JsVal.str uid → mapGet (directoryOf st c.meetingId) uid = none) :
    handleOffer st sid (some (t, payload)) = (st, []) ∧
      handleAnswer st sid (some (t, payload)) = (st, []) ∧
      handleIceCandidate st sid (some (t, payload)) = (st, []) ∧
      (∀ data, handleOffer (handleIceCandidate st sid (some (t, payload))).1 sid data =
        handleOffer st sid data) := by
  have key : ∀ mk : String → JsVal → OutEvent,
      relaySignal mk st sid (some (t, payload)) = (st, []) := by
    intro mk
    unfold relaySignal
    rw [hf]
    simp only
    cases ht : c.meetingId.truthy with
    | false => simp
    | true =>
      simp only [Bool.not_true, Bool.false_eq_true, if_false]
      cases hg : mapGet st.meetingUserSockets c.meetingId with
      | none => rfl
      | some d =>
        cases t with
        | undefined => rfl
        | null => rfl
        | str uid =>
          have := habs uid rfl
          unfold directoryOf at this
          rw [hg] at this
          simp only [Option.getD_some] at this
          simp only [this]
  refine ⟨key _, key _, key _, ?_⟩
  intro data
  have h3 : handleIceCandidate st sid (some (t, payload)) = (st, []) := key _
  rw [h3]

/-- Witness for C13: Ann, in meeting A, sends an ice-candidate to an id nobody
has. -/
theorem relay_to_absent_dropped_witness :
    handleIceCandidate (run State.init traceAnnInA) "s1"
        (some (JsVal.str "ghost", JsVal.str "P")) =
      (run State.init traceAnnInA, []) :=
  (relay_to_absent_dropped (run State.init traceAnnInA) "s1"
    { id := "s1", user := { id := "u1", username := "Ann", isGuest := false },
      meetingId := JsVal.str "A", rooms := [Room.own "s1", Room.meeting "A"] }
    (JsVal.str "ghost") (JsVal.str "P") (by decide)
    (by
      intro uid h
      cases h
      decide)).2.2.1

/-- C15: the relay is stateless. For every state and every offer, answer or
ice-candidate event, with any sender, recipient and payload and also with no
data object, the state after the event (registry, directory map and every
socket with its identity and `meetingId`) is the state before it. -/
theorem relay_keeps_state (st : State) (sid : String) (data : Option (JsVal × JsVal)) :
    (handleOffer st sid data).1 = st ∧
      (handleAnswer st sid data).1 = st ∧
      (handleIceCandidate st sid data).1 = st :=
  ⟨relaySignal_fst _ st sid data, relaySignal_fst _ st sid data, relaySignal_fst _ st sid data⟩

/-- C16, evaluation at the failing input: Bob is in meeting B; Mal, whose socket
carries Bob's user id, is in meeting A and not joined to B. Mal's leave naming B
empties B's participant set and directory (both entries are deleted) and
delivers a `user-left` event to Bob, who is still connected with B as his
current meeting. -/
theorem leave_reaches_into_foreign_room :
    participantsOf (run State.init traceBorrowedId) (JsVal.str "B") = ["u2"] ∧
      directoryOf (run State.init traceBorrowedId) (JsVal.str "B") = [("u2", "s2")] ∧
      (handleLeaveMeeting (run State.init traceBorrowedId) "s1" (some (JsVal.str "B"))).2 =
        [("s2", OutEvent.userLeft "u2" "Mal" false)] ∧
      (handleLeaveMeeting (run State.init traceBorrowedId) "s1"
          (some (JsVal.str "B"))).1.activeMeetings = [(JsVal.str "A", ["u2"])] ∧
      (handleLeaveMeeting (run State.init traceBorrowedId) "s1"
          (some (JsVal.str "B"))).1.meetingUserSockets = [(JsVal.str "A", [("u2", "s1")])] ∧
      findSocket
          (handleLeaveMeeting (run State.init traceBorrowedId) "s1"
            (some (JsVal.str "B"))).1.sockets "s2" =
        some { id := "s2", user := { id := "u2", username := "Bob", isGuest := false },
               meetingId := JsVal.str "B", rooms := [Room.own "s2", Room.meeting "B"] } := by
  decide

/-- C17, counterexample: a join whose data object has no `meetingId` is not
rejected. The sender gets an `existing-users` event and no error event, the
registry gets the key `undefined`, and the sender's socket is put in the room
"meeting-undefined". -/
theorem join_without_meeting_id_accepted :
    handleJoinMeeting (run State.init [Event.connect "s1" (hello "u1" "Ann") 0 0]) "s1"
        (some JsVal.undefined) =
      ({ activeMeetings := [(JsVal.undefined, ["u1"])]
         meetingUserSockets := [(JsVal.undefined, [("u1", "s1")])]
         sockets :=
           [{ id := "s1", user := { id := "u1", username := "Ann", isGuest := false },
              meetingId := JsVal.undefined,
              rooms := [Room.own "s1", Room.meeting "undefined"] }] },
       [("s1", OutEvent.existingUsers [])]) := by
  decide

/-- C17, amended: a join-meeting event with no data object at all is rejected:
the only delivery is an error event to the sender and the state is unchanged. A
join-meeting event whose data object has no `meetingId` is processed as a join
of the meeting keyed by `undefined`: the key is in the registry afterwards and
no error event is delivered. -/
theorem join_without_data_rejected (st : State) (sid : String) (c : Socket)
    (hf : findSocket st.sockets sid = some c) :
    handleJoinMeeting st sid none = (st, [(sid, OutEvent.error "Failed to join meeting")]) ∧
      JsVal.undefined ∈
        mapKeys (handleJoinMeeting st sid (some JsVal.undefined)).1.activeMeetings ∧
      (∀ d ∈ (handleJoinMeeting st sid (some JsVal.undefined)).2,
        ∀ msg, d.2 ≠ OutEvent.error msg) := by
  refine ⟨?_, ?_, ?_⟩
  · unfold handleJoinMeeting
    rw [hf]
  · rw [handleJoinMeeting_eq st sid c _ hf]
    show JsVal.undefined ∈ mapKeys (mapSet _ _ _)
    rw [mapKeys_mapSet]
    exact (mem_setAdd _ _ _).2 (Or.inr rfl)
  · rw [handleJoinMeeting_eq st sid c _ hf]
    intro d hd msg
    rcases List.mem_cons.1 hd with h1 | h1
    · rw [h1]
      intro e
      cases e
    · unfold emitToRoomExcept at h1
      rcases List.mem_map.1 h1 with ⟨s, _, e⟩
      rw [← e]
      intro e2
      cases e2

/-- Witness for C17: Ann, connected, sends join-meeting with no data object. -/
theorem join_without_data_rejected_witness :
    handleJoinMeeting (run State.init traceAnnInA) "s1" none =
      (run State.init traceAnnInA, [("s1", OutEvent.error "Failed to join meeting")]) :=
  (join_without_data_rejected (run State.init traceAnnInA) "s1"
    { id := "s1", user := { id := "u1", username := "Ann", isGuest := false },
      meetingId := JsVal.str "A", rooms := [Room.own "s1", Room.meeting "A"] }
    (by decide)).1

/-- C18, evaluation at the failing input: from the empty registry Ann joins the
meeting whose id is the empty string. After her disconnect, and likewise after
her leave naming that meeting, the registry and the directory map still hold
the room with her in it. -/
theorem empty_id_room_survives :
    (run State.init (traceEmptyId ++ [Event.disconnect "s1"])).activeMeetings =
        [(JsVal.str "", ["u1"])] ∧
      (run State.init (traceEmptyId ++ [Event.disconnect "s1"])).meetingUserSockets =
        [(JsVal.str "", [("u1", "s1")])] ∧
      (run State.init (traceEmptyId ++ [Event.disconnect "s1"])).sockets = [] ∧
      (run State.init
          (traceEmptyId ++ [Event.leaveMeeting "s1" (some (JsVal.str ""))])).activeMeetings =
        [(JsVal.str "", ["u1"])] ∧
      (run State.init
          (traceEmptyId ++
            [Event.leaveMeeting "s1" (some (JsVal.str ""))])).meetingUserSockets =
        [(JsVal.str "", [("u1", "s1")])] := by
  decide

/-- C12, counterexample: Ann joined meeting A, moved to meeting B on the same
socket and disconnected, so A's directory still maps her id to the closed
socket s1. Bob, joined to A, sends an offer to her id, which is present in A's
directory, and nothing is delivered. -/
theorem relay_to_closed_target_lost :
    directoryOf (run State.init traceClosedTarget) (JsVal.str "A") =
        [("u1", "s1"), ("u2", "s2")] ∧
      findSocket (run State.init traceClosedTarget).sockets "s2" =
        some { id := "s2", user := { id := "u2", username := "Bob", isGuest := false },
               meetingId := JsVal.str "A", rooms := [Room.own "s2", Room.meeting "A"] } ∧
      (handleOffer (run State.init traceClosedTarget) "s2"
        (some (JsVal.str "u1", JsVal.str "P"))).2 = [] := by
  decide

/-- C12, amended: in every reachable state, for a connected socket whose
current meeting id is truthy and a recipient id that the directory of that
meeting maps to a socket that is still connected, an offer, answer or
ice-candidate makes exactly one delivery: to that socket, of the same kind,
with the sender's participant id as `from` and the payload unchanged. -/
theorem relay_delivers_to_target (evs : List Event) (sid : String) (c : Socket)
    (uid tsid : String) (payload : JsVal)
    (hf : findSocket (run State.init evs).sockets sid = some c)
    (ht : c.meetingId.truthy = true)
    (hdir : mapGet (directoryOf (run State.init evs) c.meetingId) uid = some tsid)
    (hopen : ∃ s ∈ (run State.init evs).sockets, s.id = tsid) :
    (handleOffer (run State.init evs) sid (some (JsVal.str uid, payload))).2 =
        [(tsid, OutEvent.offer c.user.id payload)] ∧
      (handleAnswer (run State.init evs) sid (some (JsVal.str uid, payload))).2 =
        [(tsid, OutEvent.answer c.user.id payload)] ∧
      (handleIceCandidate (run State.init evs) sid (some (JsVal.str uid, payload))).2 =
        [(tsid, OutEvent.iceCandidate c.user.id payload)] := by
  have h := wellFormed_run evs
  have hne : tsid ≠ "" := by
    obtain ⟨s, hs, e⟩ := hopen
    rw [← e]
    exact socket_ids_nonempty_run evs s hs
  have key : ∀ mk : String → JsVal → OutEvent,
      (relaySignal mk (run State.init evs) sid (some (JsVal.str uid, payload))).2 =
        [(tsid, mk c.user.id payload)] := by
    intro mk
    rw [relaySignal_found mk _ sid c uid tsid payload hf ht hdir hne]
    exact emitToRoom_own _ h.ids h.own tsid _ hopen
  exact ⟨key _, key _, key _⟩

/-- Witness for C12: Bob, in meeting A with Ann, sends her an offer. -/
theorem relay_delivers_to_target_witness :
    (handleOffer (run State.init traceAnnBobInA) "s2"
        (some (JsVal.str "u1", JsVal.str "P"))).2 =
      [("s1", OutEvent.offer "u2" (JsVal.str "P"))] :=
  (relay_delivers_to_target traceAnnBobInA "s2"
    { id := "s2", user := { id := "u2", username := "Bob", isGuest := false },
      meetingId := JsVal.str "A", rooms := [Room.own "s2", Room.meeting "A"] }
    "u1" "s1" (JsVal.str "P") (by decide) (by decide) (by decide)
    ⟨{ id := "s1", user := { id := "u1", username := "Ann", isGuest := false },
       meetingId := JsVal.str "A", rooms := [Room.own "s1", Room.meeting "A"] },
      by decide, rfl⟩).1

/-- C14, counterexample: Ann joined meeting A on sockets s1 and s2 and her
socket s2 left A, so her id is neither in A's participant set nor in A's
directory; an offer from her socket s1, whose current meeting is still A, is
delivered to Cid all the same. -/
theorem relay_from_unregistered_sender_delivered :
    participantsOf (run State.init traceSecondTabLeft) (JsVal.str "A") = ["u3"] ∧
      directoryOf (run State.init traceSecondTabLeft) (JsVal.str "A") = [("u3", "s3")] ∧
      (handleOffer (run State.init traceSecondTabLeft) "s1"
        (some (JsVal.str "u3", JsVal.str "P"))).2 =
        [("s3", OutEvent.offer "u1" (JsVal.str "P"))] := by
  decide

/-- C14, amended: an offer, answer or ice-candidate event (the handlers are
`relaySignal` at the three event kinds) results in a delivery only if the
sender is connected and has a truthy current meeting id, and then the room
used for routing is that meeting: the recipient id is a key of its directory,
the delivery goes to a connected socket in the room of the socket id found
there, and it carries the sender's participant id and the payload. A relay
from a socket whose `meetingId` is not truthy (it never joined, or its leave
was processed) delivers nothing. -/
theorem relay_routed_by_current_meeting (mk : String → JsVal → OutEvent) (st : State)
    (sid : String) (data : Option (JsVal × JsVal)) :
    (∀ d ∈ (relaySignal mk st sid data).2,
        ∃ c uid payload tsid,
          findSocket st.sockets sid = some c ∧ c.meetingId.truthy = true ∧
          data = some (JsVal.str uid, payload) ∧
          mapGet (directoryOf st c.meetingId) uid = some tsid ∧
          d.2 = mk c.user.id payload ∧
          ∃ s ∈ st.sockets, s.id = d.1 ∧ Room.own tsid ∈ s.rooms) ∧
      (∀ c, findSocket st.sockets sid = some c → c.meetingId.truthy = false →
        (relaySignal mk st sid data).2 = []) ∧
      (findSocket st.sockets sid = none → (relaySignal mk st sid data).2 = []) := by
  refine ⟨fun d hd => relaySignal_delivery mk st sid data d hd, ?_, ?_⟩
  · intro c hf ht
    rw [relaySignal_falsy mk st sid data c hf ht]
  · intro hf
    unfold relaySignal
    rw [hf]

/-- Witness for C14: Ann's socket s2 has left its meeting; its offer is dropped. -/
theorem relay_routed_by_current_meeting_witness :
    (relaySignal OutEvent.offer (run State.init traceSecondTabLeft) "s2"
      (some (JsVal.str "u3", JsVal.str "P"))).2 = [] :=
  (relay_routed_by_current_meeting OutEvent.offer (run State.init traceSecondTabLeft) "s2"
    (some (JsVal.str "u3", JsVal.str "P"))).2.1
    { id := "s2", user := { id := "u1", username := "Ann", isGuest := false },
      meetingId := JsVal.null, rooms := [Room.own "s2"] }
    (by decide) (by decide)

/-- C20, counterexample. First: Ann has joined meeting A on sockets s1 and s2
and her socket s2 has left A; socket s1 joined A before Cid and has neither
left nor disconnected, yet the snapshot Cid receives on joining A is empty.
Second: Ann is in meeting A when Bob joins it, so Bob's snapshot holds her id,
although a join of A by Ann's socket can still be processed after Bob's. -/
theorem snapshot_misses_earlier_joiner :
    findSocket (run State.init traceSecondTabLeftEarly).sockets "s1" =
        some { id := "s1", user := { id := "u1", username := "Ann", isGuest := false },
               meetingId := JsVal.str "A", rooms := [Room.own "s1", Room.meeting "A"] } ∧
      (handleJoinMeeting (run State.init traceSecondTabLeftEarly) "s3"
          (some (JsVal.str "A"))).2 =
        [("s3", OutEvent.existingUsers []), ("s1", OutEvent.userJoined "u3" "Cid" false)] ∧
      (handleJoinMeeting (run State.init traceAnnInABobConnected) "s2"
          (some (JsVal.str "A"))).2 =
        [("s2", OutEvent.existingUsers [{ id := "u1", name := "Ann", isGuest := false }]),
         ("s1", OutEvent.userJoined "u2" "Bob" false)] ∧
      (handleJoinMeeting
          (handleJoinMeeting (run State.init traceAnnInABobConnected) "s2"
            (some (JsVal.str "A"))).1 "s1" (some (JsVal.str "A"))).2 =
        [("s1", OutEvent.existingUsers [{ id := "u2", name := "Bob", isGuest := false }]),
         ("s2", OutEvent.userJoined "u1" "Ann" false)] := by
  decide

/-- C20, amended: let X and Y be sockets with distinct participant ids, let Y's
id not be in `m`'s participant set when X's join of `m` is processed, and let
no event between the two joins be a leave naming `m`, or a disconnect with
current meeting `m`, of a socket carrying X's participant id. Then the
`existing-users` list X receives does not contain Y's id, and the list Y
receives on joining `m` contains X's id. -/
theorem snapshot_order (st : State) (x y : String) (cx cy : Socket) (m : JsVal)
    (evs : List Event) (hx : findSocket st.sockets x = some cx)
    (hy0 : cy.user.id ∉ participantsOf st m)
    (hkeep : keepsParticipant cx.user.id m (handleJoinMeeting st x (some m)).1 evs = true)
    (hy : findSocket (run (handleJoinMeeting st x (some m)).1 evs).sockets y = some cy)
    (hne : cx.user.id ≠ cy.user.id) :
    (∃ users rest,
        (handleJoinMeeting st x (some m)).2 = (x, OutEvent.existingUsers users) :: rest ∧
        cy.user.id ∉ users.map UserInfo.id) ∧
      (∃ users rest,
        (handleJoinMeeting (run (handleJoinMeeting st x (some m)).1 evs) y (some m)).2 =
          (y, OutEvent.existingUsers users) :: rest ∧
        cx.user.id ∈ users.map UserInfo.id) := by
  have hin : cx.user.id ∈ participantsOf (handleJoinMeeting st x (some m)).1 m := by
    rw [handleJoinMeeting_eq st x cx m hx]
    show cx.user.id ∈ (mapGet (mapSet _ _ _) m).getD []
    rw [mapGet_mapSet_self]
    exact (mem_setAdd _ _ _).2 (Or.inr rfl)
  have hin2 := keeps_run evs _ _ _ hkeep hin
  constructor
  · rw [handleJoinMeeting_eq st x cx m hx]
    refine ⟨_, _, rfl, ?_⟩
    rw [describeUser_ids]
    intro hmem
    exact hy0 (List.mem_filter.1 hmem).1
  · rw [handleJoinMeeting_eq _ y cy m hy]
    refine ⟨_, _, rfl, ?_⟩
    rw [describeUser_ids]
    exact List.mem_filter.2 ⟨hin2, by simpa using hne⟩

/-- Witness for C20: Ann joins meeting A, Bob connects and joins A. -/
theorem snapshot_order_witness :
    ∃ users rest,
      (handleJoinMeeting
          (run (handleJoinMeeting (run State.init [Event.connect "s1" (hello "u1" "Ann") 0 0])
            "s1" (some (JsVal.str "A"))).1 [Event.connect "s2" (hello "u2" "Bob") 0 0])
          "s2" (some (JsVal.str "A"))).2 =
        ("s2", OutEvent.existingUsers users) :: rest ∧
      "u1" ∈ users.map UserInfo.id :=
  (snapshot_order (run State.init [Event.connect "s1" (hello "u1" "Ann") 0 0]) "s1" "s2"
    { id := "s1", user := { id := "u1", username := "Ann", isGuest := false },
      meetingId := JsVal.undefined, rooms := [Room.own "s1"] }
    { id := "s2", user := { id := "u2", username := "Bob", isGuest := false },
      meetingId := JsVal.undefined, rooms := [Room.own "s2"] }
    (JsVal.str "A") [Event.connect "s2" (hello "u2" "Bob") 0 0]
    (by decide) (by decide) (by decide) (by decide) (by decide)).2

/-- C19: end-to-end scenario 1, for any two sockets A and B with distinct
participant ids, any non-empty meeting id and any payload, from the empty
registry. A's join delivers `existing-users []` to A; B's join delivers
`existing-users` with exactly A's identity to B and `user-joined` for B to A;
B's offer to A is delivered to A only, with B's id as sender and the payload
unchanged; A's disconnect delivers `user-left` for A to B and leaves the
meeting with participant set and directory keys exactly B's id; B's leave then
removes the meeting from the registry and the directory map. -/
theorem scenario_one (a b : String) (qa qb : Handshake) (na ra nb rb : Nat) (name : String)
    (P : JsVal) (ha : a ≠ "") (hb : b ≠ "") (hab : a ≠ b)
    (hu : (authenticate qa na ra).id ≠ (authenticate qb nb rb).id) (hm : name ≠ "") :
    runOutputs State.init (scenarioOne a b qa qb na ra nb rb name P) =
        [[], [], [(a, OutEvent.existingUsers [])],
         [(b, OutEvent.existingUsers
             [UserInfo.mk (authenticate qa na ra).id (authenticate qa na ra).username
               (authenticate qa na ra).isGuest]),
          (a, OutEvent.userJoined (authenticate qb nb rb).id (authenticate qb nb rb).username
             (authenticate qb nb rb).isGuest)],
         [(a, OutEvent.offer (authenticate qb nb rb).id P)],
         [(b, OutEvent.userLeft (authenticate qa na ra).id (authenticate qa na ra).username
             (authenticate qa na ra).isGuest)],
         []] ∧
      participantsOf (run State.init ((scenarioOne a b qa qb na ra nb rb name P).take 6))
          (JsVal.str name) = [(authenticate qb nb rb).id] ∧
      mapKeys
          (directoryOf (run State.init ((scenarioOne a b qa qb na ra nb rb name P).take 6))
            (JsVal.str name)) = [(authenticate qb nb rb).id] ∧
      (run State.init (scenarioOne a b qa qb na ra nb rb name P)).activeMeetings = [] ∧
      (run State.init (scenarioOne a b qa qb na ra nb rb name P)).meetingUserSockets = [] := by
  have hna := authenticate_username_ne qa na ra
  have hba : ¬ b = a := fun e => hab e.symm
  have hc1 : handleConnect State.init a qa na ra =
      ({ activeMeetings := [], meetingUserSockets := [],
         sockets := [{ id := a, user := authenticate qa na ra, meetingId := JsVal.undefined,
                       rooms := [Room.own a] }] }, []) := by
    simp [handleConnect, State.init, findSocket, ha]
  have hc2 : handleConnect
      { activeMeetings := [], meetingUserSockets := [],
        sockets := [{ id := a, user := authenticate qa na ra, meetingId := JsVal.undefined,
                      rooms := [Room.own a] }] } b qb nb rb =
      ({ activeMeetings := [], meetingUserSockets := [],
         sockets :=
           [{ id := a, user := authenticate qa na ra, meetingId := JsVal.undefined,
              rooms := [Room.own a] },
            { id := b, user := authenticate qb nb rb, meetingId := JsVal.undefined,
              rooms := [Room.own b] }] }, []) := by
    simp [handleConnect, findSocket, hb, hab]
  have hj1 := scenario_join_first a b (authenticate qa na ra) (authenticate qb nb rb) name hab
  have hj2 := scenario_join_second a b (authenticate qa na ra) (authenticate qb nb rb) name
    hab hu hna
  have ho := scenario_offer a b (authenticate qa na ra) (authenticate qb nb rb) name P ha hab hm
  have hd := scenario_disconnect a b (authenticate qa na ra) (authenticate qb nb rb) name
    hab hu hm
  have hl := scenario_leave b (authenticate qb nb rb) name hm
  simp only [scenarioOne, runOutputs, run, step, List.take, hc1, hc2, hj1, hj2, ho, hd, hl]
  refine ⟨trivial, ?_, ?_, trivial, trivial⟩
  · simp [participantsOf, mapGet]
  · simp [directoryOf, mapGet, mapKeys]

/-- Witness for C19: sockets s1 (Ann) and s2 (Bob), meeting m1. -/
theorem scenario_one_witness :
    (run State.init
        (scenarioOne "s1" "s2" (hello "u1" "Ann") (hello "u2" "Bob") 0 0 0 0 "m1"
          (JsVal.str "P"))).activeMeetings = [] :=
  (scenario_one "s1" "s2" (hello "u1" "Ann") (hello "u2" "Bob") 0 0 0 0 "m1" (JsVal.str "P")
    (by decide) (by decide) (by decide) (by decide) (by decide)).2.2.2.1

/-- C22: a join-meeting event of a connected socket that carries a data object
emits exactly one `existing-users` event, addressed to the joining socket; a
join with no data object emits none; and no other event (connect, leave,
offer, answer, ice-candidate, chat-message, debug-meetings, disconnect) emits
an `existing-users` event to anyone. -/
theorem existing_users_once (st : State) :
    (∀ sid c m, findSocket st.sockets sid = some c →
        ∃ users,
          (handleJoinMeeting st sid (some m)).2.filter (fun d => d.2.isExistingUsers) =
            [(sid, OutEvent.existingUsers users)]) ∧
      (∀ sid, ∀ d ∈ (handleJoinMeeting st sid none).2, d.2.isExistingUsers = false) ∧
      (∀ e : Event, (∀ sid data, e ≠ Event.joinMeeting sid data) →
        ∀ d ∈ (step st e).2, d.2.isExistingUsers = false) := by
  refine ⟨?_, ?_, ?_⟩
  · intro sid c m hf
    have key : ∃ users rest,
        (handleJoinMeeting st sid (some m)).2 = (sid, OutEvent.existingUsers users) :: rest ∧
          ∀ d ∈ rest, d.2 = OutEvent.userJoined c.user.id c.user.username c.user.isGuest := by
      rw [handleJoinMeeting_eq st sid c m hf]
      exact ⟨_, _, rfl, fun d hd => mem_emitToRoomExcept_snd _ _ _ _ d hd⟩
    obtain ⟨users, rest, hout, hrest⟩ := key
    refine ⟨users, ?_⟩
    rw [hout, List.filter_cons_of_pos (by rfl)]
    congr 1
    rw [List.filter_eq_nil_iff]
    intro d hd
    rw [hrest d hd]
    simp [OutEvent.isExistingUsers]
  · intro sid d hd
    unfold handleJoinMeeting at hd
    cases hf : findSocket st.sockets sid with
    | none =>
      rw [hf] at hd
      cases hd
    | some c =>
      rw [hf] at hd
      simp only [List.mem_singleton] at hd
      rw [hd]
      rfl
  · intro e hne d hd
    cases e with
    | connect sid q now rnd =>
      have : d ∈ (handleConnect st sid q now rnd).2 := hd
      rw [handleConnect_snd] at this
      cases this
    | joinMeeting sid data => exact absurd rfl (hne sid data)
    | offer sid data =>
      obtain ⟨c, uid, payload, tsid, _, _, _, _, h5, _⟩ :=
        relaySignal_delivery OutEvent.offer st sid data d hd
      rw [h5]
      rfl
    | answer sid data =>
      obtain ⟨c, uid, payload, tsid, _, _, _, _, h5, _⟩ :=
        relaySignal_delivery OutEvent.answer st sid data d hd
      rw [h5]
      rfl
    | iceCandidate sid data =>
      obtain ⟨c, uid, payload, tsid, _, _, _, _, h5, _⟩ :=
        relaySignal_delivery OutEvent.iceCandidate st sid data d hd
      rw [h5]
      rfl
    | leaveMeeting sid data =>
      obtain ⟨_, _, _, h5⟩ := handleLeaveMeeting_snd st sid data d hd
      rw [h5]
      rfl
    | chatMessage sid data now =>
      rcases handleChatMessage_snd st sid data now d hd with ⟨_, _, _, _, _, h5⟩ | ⟨_, h5⟩
      · rw [h5]
        rfl
      · rw [h5]
        rfl
    | debugMeetings sid => cases hd
    | disconnect sid =>
      obtain ⟨_, _, _, h5⟩ := handleDisconnect_snd st sid d hd
      rw [h5]
      rfl

/-- Witness for C22: Bob joins meeting A, where Ann is. -/
theorem existing_users_once_witness :
    ∃ users,
      (handleJoinMeeting (run State.init traceAnnInABobConnected) "s2"
          (some (JsVal.str "A"))).2.filter (fun d => d.2.isExistingUsers) =
        [("s2", OutEvent.existingUsers users)] :=
  (existing_users_once (run State.init traceAnnInABobConnected)).1 "s2"
    { id := "s2", user := { id := "u2", username := "Bob", isGuest := false },
      meetingId := JsVal.undefined, rooms := [Room.own "s2"] }
    (JsVal.str "A") (by decide)

/-- C23: for a handshake whose query supplies a non-empty userId and a non-empty
userName, the identity attached to the socket has that userId as id and that
userName as name, unmodified, and is a guest exactly when the isGuest parameter
is the string "true"; and the handshake is accepted: a socket with a fresh
non-empty id enters the namespace with that identity. -/
theorem handshake_identity (uid uname : String) (g : Option String) (now rnd : Nat)
    (hu : uid ≠ "") (hn : uname ≠ "") :
    authenticate { userId := some uid, userName := some uname, isGuest := g } now rnd =
        { id := uid, username := uname, isGuest := decide (g = some "true") } ∧
      ((authenticate { userId := some uid, userName := some uname, isGuest := g } now
          rnd).isGuest = true ↔ g = some "true") ∧
      (∀ (st : State) (sid : String), sid ≠ "" → findSocket st.sockets sid = none →
        (handleConnect st sid { userId := some uid, userName := some uname, isGuest := g }
            now rnd).1.sockets =
          st.sockets ++
            [{ id := sid, user := { id := uid, username := uname,
                                    isGuest := decide (g = some "true") },
               meetingId := JsVal.undefined, rooms := [Room.own sid] }]) := by
  have h1 : authenticate { userId := some uid, userName := some uname, isGuest := g } now rnd =
      { id := uid, username := uname, isGuest := decide (g = some "true") } := by
    simp [authenticate, hu, hn]
  refine ⟨h1, ?_, ?_⟩
  · rw [h1]
    simp
  · intro st sid hs hf
    unfold handleConnect
    rw [hf, h1]
    simp [hs]

/-- Witness for C23: the handshake of a guest named Gil. -/
theorem handshake_identity_witness :
    authenticate { userId := some "g1", userName := some "Gil", isGuest := some "true" } 7 3 =
      { id := "g1", username := "Gil", isGuest := decide (some "true" = some "true") } :=
  (handshake_identity "g1" "Gil" (some "true") 7 3 (by decide) (by decide)).1

/-- C24: a connection's identity is immutable. For every state and every event
(join-meeting, leave-meeting, offer, answer, ice-candidate, chat-message,
debug-meetings, disconnect, or the handshake of another socket, from any
socket), a socket that is connected before and after the event has the same
participant id, display name and guest flag after it as before it. -/
theorem identity_immutable (st : State) (e : Event) (sid : String) (c c1 : Socket)
    (h0 : findSocket st.sockets sid = some c)
    (h1 : findSocket (step st e).1.sockets sid = some c1) : c1.user = c.user := by
  have hsame : ∀ st1 : State, st1 = st → findSocket st1.sockets sid = some c1 →
      c1.user = c.user := by
    intro st1 e1 h2
    rw [e1, h0] at h2
    rw [← Option.some.inj h2]
  have hupd : ∀ (sid0 : String) (c0 s1 : Socket), findSocket st.sockets sid0 = some c0 →
      findSocket (updateSocket st.sockets sid0 s1) sid = some c1 →
      s1.id = sid0 → s1.user = c0.user → c1.user = c.user := by
    intro sid0 c0 s1 hf0 h2 hid hus
    by_cases hs : sid = sid0
    · subst hs
      rw [findSocket_updateSocket _ _ _ _ hf0 hid] at h2
      rw [h0] at hf0
      rw [← Option.some.inj h2, hus, ← Option.some.inj hf0]
    · rw [findSocket_updateSocket_ne _ _ _ _ hid hs, h0] at h2
      rw [← Option.some.inj h2]
  have hfil : ∀ sid0 : String,
      findSocket (st.sockets.filter (fun s => decide (s.id ≠ sid0))) sid = some c1 →
      c1.user = c.user := by
    intro sid0 h2
    by_cases hs : sid = sid0
    · subst hs
      have := (findSocket_some _ _ _ h2).1
      have h3 := (List.mem_filter.1 this).2
      have h4 := (findSocket_some _ _ _ h2).2
      simp [h4] at h3
    · rw [findSocket_filter_ne _ _ _ hs, h0] at h2
      rw [← Option.some.inj h2]
  cases e with
  | connect sid0 q now rnd =>
    have h2 : findSocket (handleConnect st sid0 q now rnd).1.sockets sid = some c1 := h1
    unfold handleConnect at h2
    split at h2
    · exact hsame _ rfl h2
    · have h3 : findSocket (st.sockets ++ [_]) sid = some c1 := h2
      rw [findSocket_append _ _ _ _ h0] at h3
      rw [← Option.some.inj h3]
  | joinMeeting sid0 data =>
    have h2 : findSocket (handleJoinMeeting st sid0 data).1.sockets sid = some c1 := h1
    cases hf : findSocket st.sockets sid0 with
    | none =>
      unfold handleJoinMeeting at h2
      rw [hf] at h2
      exact hsame _ rfl h2
    | some c0 =>
      cases data with
      | none =>
        unfold handleJoinMeeting at h2
        rw [hf] at h2
        exact hsame _ rfl h2
      | some m =>
        rw [handleJoinMeeting_eq st sid0 c0 m hf] at h2
        exact hupd sid0 c0 _ hf h2 (findSocket_some _ _ _ hf).2 rfl
  | offer sid0 data =>
    have h2 : findSocket (relaySignal _ st sid0 data).1.sockets sid = some c1 := h1
    rw [relaySignal_fst] at h2
    exact hsame _ rfl h2
  | answer sid0 data =>
    have h2 : findSocket (relaySignal _ st sid0 data).1.sockets sid = some c1 := h1
    rw [relaySignal_fst] at h2
    exact hsame _ rfl h2
  | iceCandidate sid0 data =>
    have h2 : findSocket (relaySignal _ st sid0 data).1.sockets sid = some c1 := h1
    rw [relaySignal_fst] at h2
    exact hsame _ rfl h2
  | leaveMeeting sid0 data =>
    have h2 : findSocket (handleLeaveMeeting st sid0 data).1.sockets sid = some c1 := h1
    cases hf : findSocket st.sockets sid0 with
    | none =>
      unfold handleLeaveMeeting at h2
      rw [hf] at h2
      exact hsame _ rfl h2
    | some c0 =>
      cases ht : c0.meetingId.truthy with
      | false =>
        rw [handleLeaveMeeting_falsy st sid0 c0 data hf ht] at h2
        exact hsame _ rfl h2
      | true =>
        cases data with
        | none =>
          unfold handleLeaveMeeting at h2
          rw [hf] at h2
          exact hsame _ rfl h2
        | some m =>
          rw [handleLeaveMeeting_eq st sid0 c0 m hf ht] at h2
          exact hupd sid0 c0 _ hf h2 (findSocket_some _ _ _ hf).2 rfl
  | chatMessage sid0 data now =>
    have h2 : findSocket (handleChatMessage st sid0 data now).1.sockets sid = some c1 := h1
    rw [handleChatMessage_fst] at h2
    exact hsame _ rfl h2
  | debugMeetings sid0 => exact hsame _ rfl h1
  | disconnect sid0 =>
    have h2 : findSocket (handleDisconnect st sid0).1.sockets sid = some c1 := h1
    cases hf : findSocket st.sockets sid0 with
    | none =>
      unfold handleDisconnect at h2
      rw [hf] at h2
      exact hsame _ rfl h2
    | some c0 =>
      cases ht : c0.meetingId.truthy with
      | false =>
        rw [handleDisconnect_falsy st sid0 c0 hf ht] at h2
        exact hfil sid0 h2
      | true =>
        rw [handleDisconnect_eq st sid0 c0 hf ht] at h2
        exact hfil sid0 h2

/-- Witness for C24: Ann's identity before and after her join of meeting B. -/
theorem identity_immutable_witness :
    ({ id := "s1", user := { id := "u1", username := "Ann", isGuest := false },
       meetingId := JsVal.str "B",
       rooms := [Room.own "s1", Room.meeting "A", Room.meeting "B"] } : Socket).user =
      ({ id := "s1", user := { id := "u1", username := "Ann", isGuest := false },
         meetingId := JsVal.str "A", rooms := [Room.own "s1", Room.meeting "A"] } : Socket).user :=
  identity_immutable (run State.init traceAnnInA) (Event.joinMeeting "s1" (some (JsVal.str "B")))
    "s1" _ _ (by decide) (by decide)

/-- C26: joining the same room twice is idempotent on state. For every state,
socket and meeting id, the state after a second identical join (registry,
directory map and every socket, so also the joiner's current meeting) is the
state after the first, and the `existing-users` list of the second join does
not contain the joiner's own id. -/
theorem join_twice (st : State) (sid : String) (m : JsVal) :
    (handleJoinMeeting (handleJoinMeeting st sid (some m)).1 sid (some m)).1 =
        (handleJoinMeeting st sid (some m)).1 ∧
      (∀ c, findSocket st.sockets sid = some c →
        ∃ users rest,
          (handleJoinMeeting (handleJoinMeeting st sid (some m)).1 sid (some m)).2 =
            (sid, OutEvent.existingUsers users) :: rest ∧
          c.user.id ∉ users.map UserInfo.id) := by
  cases hf : findSocket st.sockets sid with
  | none =>
    have h1 : handleJoinMeeting st sid (some m) = (st, []) := by
      unfold handleJoinMeeting
      rw [hf]
    rw [h1]
    simp only
    rw [h1]
    exact ⟨rfl, fun c hc => by cases hc⟩
  | some c =>
    obtain ⟨_, hid⟩ := findSocket_some _ _ _ hf
    have h1 := handleJoinMeeting_eq st sid c m hf
    have hf1 : findSocket (handleJoinMeeting st sid (some m)).1.sockets sid =
        some { c with rooms := setAdd c.rooms (roomName m), meetingId := m } := by
      rw [h1]
      exact findSocket_updateSocket _ _ _ _ hf hid
    have hp : participantsOf (handleJoinMeeting st sid (some m)).1 m =
        setAdd (participantsOf st m) c.user.id := by
      rw [h1]
      show (mapGet (mapSet _ _ _) m).getD [] = _
      rw [mapGet_mapSet_self]
      rfl
    have hd : directoryOf (handleJoinMeeting st sid (some m)).1 m =
        mapSet (directoryOf st m) c.user.id sid := by
      rw [h1]
      show (mapGet (mapSet _ _ _) m).getD [] = _
      rw [mapGet_mapSet_self]
      rfl
    have h2 := handleJoinMeeting_eq (handleJoinMeeting st sid (some m)).1 sid _ m hf1
    constructor
    · rw [h2]
      simp only [hp, hd, setAdd_idem, mapSet_idem]
      rw [h1]
      simp only [mapSet_idem]
      rw [updateSocket_idem]
      exact hid
    · intro c0 hc0
      have e0 : c0 = c := (Option.some.inj hc0).symm
      subst e0
      rw [h2]
      refine ⟨_, _, rfl, ?_⟩
      rw [describeUser_ids]
      intro hmem
      have := (List.mem_filter.1 hmem).2
      simp at this

/-- Witness for C26: Ann, in meeting A, joins A again. -/
theorem join_twice_witness :
    (handleJoinMeeting
        (handleJoinMeeting (run State.init traceAnnInA) "s1" (some (JsVal.str "A"))).1 "s1"
        (some (JsVal.str "A"))).1 =
      (handleJoinMeeting (run State.init traceAnnInA) "s1" (some (JsVal.str "A"))).1 :=
  (join_twice (run State.init traceAnnInA) "s1" (JsVal.str "A")).1

/-- C21, counterexample: sockets s1 (name Mal) and s2 (name Bob) carry the same
user id u2 and s2 has joined meeting A, so A's directory maps u2 to s2. When
Cid joins A, the entry for u2 in his `existing-users` list carries the name
Mal, the name of the first connected socket with that user id, not Bob. -/
theorem snapshot_name_from_other_socket :
    directoryOf (run State.init traceSameIdTwoNames) (JsVal.str "A") = [("u2", "s2")] ∧
      findSocket (run State.init traceSameIdTwoNames).sockets "s2" =
        some { id := "s2", user := { id := "u2", username := "Bob", isGuest := false },
               meetingId := JsVal.str "A", rooms := [Room.own "s2", Room.meeting "A"] } ∧
      (handleJoinMeeting (run State.init traceSameIdTwoNames) "s3" (some (JsVal.str "A"))).2 =
        [("s3", OutEvent.existingUsers [{ id := "u2", name := "Mal", isGuest := false }]),
         ("s2", OutEvent.userJoined "u3" "Cid" false)] := by
  decide

/-- C21, amended: in every reachable state, each entry of the `existing-users`
list of a join carries the display name and the guest flag of the first
connected socket, in connection order, whose user id is the entry's id, and
the name "Participant" with the guest flag set when no connected socket has
that id. This is the identity of the socket that the meeting's directory maps
the id to whenever that socket is connected, carries that id, and is the only
connected socket that carries it. -/
theorem existing_users_identity (evs : List Event) (sid : String) (c : Socket) (m : JsVal)
    (hf : findSocket (run State.init evs).sockets sid = some c) :
    ∃ users rest,
      (handleJoinMeeting (run State.init evs) sid (some m)).2 =
          (sid, OutEvent.existingUsers users) :: rest ∧
        ∀ e ∈ users,
          (∀ s, (run State.init evs).sockets.find? (fun s => decide (s.user.id = e.id)) =
              some s → e.name = s.user.username ∧ e.isGuest = s.user.isGuest) ∧
          ((run State.init evs).sockets.find? (fun s => decide (s.user.id = e.id)) = none →
            e.name = "Participant" ∧ e.isGuest = true) ∧
          (∀ tsid t, mapGet (directoryOf (run State.init evs) m) e.id = some tsid →
            findSocket (run State.init evs).sockets tsid = some t → t.user.id = e.id →
            (∀ s ∈ (run State.init evs).sockets, s.user.id = e.id → s = t) →
            e.name = t.user.username ∧ e.isGuest = t.user.isGuest) := by
  have hw := wellFormed_run evs
  have hs := socketsSound_run evs
  have hname : ∀ s ∈ (run State.init evs).sockets, s.user.username ≠ "" :=
    fun s hmem => (hs s hmem).1
  rw [handleJoinMeeting_eq _ sid c m hf]
  refine ⟨_, _, rfl, ?_⟩
  intro e he
  rcases List.mem_map.1 he with ⟨uid, _, hd⟩
  rw [describeUser_updateSocket _ hw.ids sid c] at hd
  rotate_left
  · exact hf
  · rfl
  have hid : e.id = uid := by
    rw [← hd]
    exact describeUser_id _ _
  obtain ⟨h1, h2⟩ := describeUser_spec _ hname uid
  rw [hid, ← hd]
  refine ⟨h1, h2, ?_⟩
  intro tsid t _ ht htu huniq
  have htm : t ∈ (run State.init evs).sockets := (findSocket_some _ _ _ ht).1
  cases hfind : (run State.init evs).sockets.find? (fun s => decide (s.user.id = uid)) with
  | none =>
    have := List.find?_eq_none.1 hfind t htm
    simp [htu] at this
  | some s =>
    have hsm : s ∈ (run State.init evs).sockets := List.mem_of_find?_eq_some hfind
    have hsu : s.user.id = uid := by
      have := List.find?_some hfind
      simpa using this
    have : s = t := huniq s hsm hsu
    rw [← this]
    exact h1 s hfind

/-- Witness for C21: Bob joins meeting A, where Ann is. -/
theorem existing_users_identity_witness :
    ∃ users rest,
      (handleJoinMeeting (run State.init traceAnnInABobConnected) "s2"
          (some (JsVal.str "A"))).2 = ("s2", OutEvent.existingUsers users) :: rest ∧
        ∀ e ∈ users,
          ((run State.init traceAnnInABobConnected).sockets.find?
              (fun s => decide (s.user.id = e.id)) = none →
            e.name = "Participant" ∧ e.isGuest = true) := by
  obtain ⟨users, rest, h1, h2⟩ := existing_users_identity traceAnnInABobConnected "s2"
    { id := "s2", user := { id := "u2", username := "Bob", isGuest := false },
      meetingId := JsVal.undefined, rooms := [Room.own "s2"] }
    (JsVal.str "A") (by decide)
  exact ⟨users, rest, h1, fun e he => (h2 e he).2.1⟩

/-- C27, counterexample. First: Ann, in meeting A, sends a chat-message event
with no data object; no chat-message is delivered to the room, and an error
event is delivered to her. Second: after Ann's socket s2 has left meeting A,
her id is in neither A's participant set nor A's directory, yet a chat message
of Cid in A is delivered to her socket s1, which is still in the transport
room of A. -/
theorem chat_without_data_gives_error :
    handleChatMessage (run State.init traceAnnBobInA) "s1" none 5 =
        (run State.init traceAnnBobInA, [("s1", OutEvent.error "Failed to send message")]) ∧
      participantsOf (run State.init traceSecondTabLeft) (JsVal.str "A") = ["u3"] ∧
      directoryOf (run State.init traceSecondTabLeft) (JsVal.str "A") = [("u3", "s3")] ∧
      (handleChatMessage (run State.init traceSecondTabLeft) "s3"
          (some (JsVal.str "hi", JsVal.undefined)) 5).2 =
        [("s1", OutEvent.chatMessage "u3" "Cid" (JsVal.str "hi") (JsVal.str "text") 5),
         ("s3", OutEvent.chatMessage "u3" "Cid" (JsVal.str "hi") (JsVal.str "text") 5)] := by
  decide

/-- C27, amended: in every reachable state, for a chat-message event of a
connected socket that carries a data object: when the socket's current meeting
id is truthy, the chat-message event with the sender's participant id and
display name, the message unchanged, the message type (or "text" when it is
undefined) and the timestamp is delivered exactly once to each connected
socket in the transport room of that meeting, the sender included, and to
nobody else; when it is not truthy nothing is delivered. A chat-message event
with no data object delivers one error event to the sender. The state, so the
registry and the directory map, is unchanged in every case. -/
theorem chat_broadcast (evs : List Event) (sid : String) (c : Socket) (message mt : JsVal)
    (now : Nat) (hf : findSocket (run State.init evs).sockets sid = some c) :
    (handleChatMessage (run State.init evs) sid (some (message, mt)) now).1 =
        run State.init evs ∧
      (c.meetingId.truthy = true →
        (∀ r, (∃ s ∈ (run State.init evs).sockets, s.id = r ∧ roomName c.meetingId ∈ s.rooms) →
          List.count
            (r, OutEvent.chatMessage c.user.id c.user.username message
              (if mt = JsVal.undefined then JsVal.str "text" else mt) now)
            (handleChatMessage (run State.init evs) sid (some (message, mt)) now).2 = 1) ∧
        (∀ r, ¬ (∃ s ∈ (run State.init evs).sockets,
            s.id = r ∧ roomName c.meetingId ∈ s.rooms) →
          List.count
            (r, OutEvent.chatMessage c.user.id c.user.username message
              (if mt = JsVal.undefined then JsVal.str "text" else mt) now)
            (handleChatMessage (run State.init evs) sid (some (message, mt)) now).2 = 0) ∧
        (∀ d ∈ (handleChatMessage (run State.init evs) sid (some (message, mt)) now).2,
          d.2 = OutEvent.chatMessage c.user.id c.user.username message
            (if mt = JsVal.undefined then JsVal.str "text" else mt) now) ∧
        List.count
          (sid, OutEvent.chatMessage c.user.id c.user.username message
            (if mt = JsVal.undefined then JsVal.str "text" else mt) now)
          (handleChatMessage (run State.init evs) sid (some (message, mt)) now).2 = 1) ∧
      (c.meetingId.truthy = false →
        (handleChatMessage (run State.init evs) sid (some (message, mt)) now).2 = []) ∧
      handleChatMessage (run State.init evs) sid none now =
        (run State.init evs, [(sid, OutEvent.error "Failed to send message")]) := by
  have hw := wellFormed_run evs
  have hs := socketsSound_run evs
  obtain ⟨hcm, hcid⟩ := findSocket_some _ _ _ hf
  refine ⟨handleChatMessage_fst _ _ _ _, ?_, ?_, ?_⟩
  · intro ht
    have hout : (handleChatMessage (run State.init evs) sid (some (message, mt)) now).2 =
        emitToRoom (run State.init evs).sockets (roomName c.meetingId)
          (OutEvent.chatMessage c.user.id c.user.username message
            (if mt = JsVal.undefined then JsVal.str "text" else mt) now) := by
      unfold handleChatMessage
      rw [hf]
      simp [ht]
    rw [hout]
    have hcount := fun r => count_deliveries (run State.init evs).sockets hw.ids
      (fun s => decide (roomName c.meetingId ∈ s.rooms))
      (OutEvent.chatMessage c.user.id c.user.username message
        (if mt = JsVal.undefined then JsVal.str "text" else mt) now) r
    have h1 : ∀ r, (∃ s ∈ (run State.init evs).sockets,
        s.id = r ∧ roomName c.meetingId ∈ s.rooms) →
        List.count
          (r, OutEvent.chatMessage c.user.id c.user.username message
            (if mt = JsVal.undefined then JsVal.str "text" else mt) now)
          (emitToRoom (run State.init evs).sockets (roomName c.meetingId)
            (OutEvent.chatMessage c.user.id c.user.username message
              (if mt = JsVal.undefined then JsVal.str "text" else mt) now)) = 1 := by
      rintro r ⟨s, hsm, e, hroom⟩
      exact (hcount r).1 ⟨s, hsm, e, by simpa using hroom⟩
    refine ⟨h1, ?_, ?_, ?_⟩
    · intro r hno
      apply (hcount r).2
      rintro ⟨s, hsm, e, hroom⟩
      exact hno ⟨s, hsm, e, by simpa using hroom⟩
    · intro d hd
      exact mem_emitToRoom_snd _ _ _ d hd
    · exact h1 sid ⟨c, hcm, hcid, (hs c hcm).2 ht⟩
  · intro ht
    unfold handleChatMessage
    rw [hf]
    simp [ht]
  · unfold handleChatMessage
    rw [hf]

/-- Witness for C27: Bob, in meeting A with Ann, sends a chat message; Ann's
socket receives it once. -/
theorem chat_broadcast_witness :
    List.count
      ("s1", OutEvent.chatMessage "u2" "Bob" (JsVal.str "hi")
        (if JsVal.undefined = JsVal.undefined then JsVal.str "text" else JsVal.undefined) 5)
      (handleChatMessage (run State.init traceAnnBobInA) "s2"
        (some (JsVal.str "hi", JsVal.undefined)) 5).2 = 1 :=
  ((chat_broadcast traceAnnBobInA "s2"
    { id := "s2", user := { id := "u2", username := "Bob", isGuest := false },
      meetingId := JsVal.str "A", rooms := [Room.own "s2", Room.meeting "A"] }
    (JsVal.str "hi") JsVal.undefined 5 (by decide)).2.1 (by decide)).1 "s1"
    ⟨{ id := "s1", user := { id := "u1", username := "Ann", isGuest := false },
       meetingId := JsVal.str "A", rooms := [Room.own "s1", Room.meeting "A"] },
      by decide, rfl, by decide⟩

/-- C28: for every value of FRONTEND_URL, `getAllowedOrigins` returns a
non-empty list whose elements are non-empty and neither begin nor end with
white space. When the segments between the commas, trimmed, include a non-empty
one, the result is exactly the non-empty trimmed segments in their order;
otherwise, and so when the variable is unset or empty, it is the single default
origin. The segments are those of a split at the commas (they contain no
comma and give back the value when joined with commas), and trimming a segment
drops white space at its two ends only. -/
theorem allowed_origins (env : Option String) :
    getAllowedOrigins env ≠ [] ∧
      (∀ o ∈ getAllowedOrigins env,
        o ≠ "" ∧ (∀ ch, o.data.head? = some ch → isJsWhitespace ch = false) ∧
          (∀ ch, o.data.getLast? = some ch → isJsWhitespace ch = false)) ∧
      (∀ v : String, env = some v →
        (((splitComma v.data).map jsTrim).filter (fun u => decide (u ≠ [])) ≠ [] →
          getAllowedOrigins env =
            (((splitComma v.data).map jsTrim).filter (fun u => decide (u ≠ []))).map
              String.mk) ∧
        (((splitComma v.data).map jsTrim).filter (fun u => decide (u ≠ [])) = [] →
          getAllowedOrigins env = ["http://localhost:3000"])) ∧
      (env = none ∨ env = some "" → getAllowedOrigins env = ["http://localhost:3000"]) ∧
      (∀ cs : List Char, joinComma (splitComma cs) = cs ∧ ∀ seg ∈ splitComma cs, ',' ∉ seg) ∧
      (∀ seg : List Char, ∃ pre post, seg = pre ++ jsTrim seg ++ post ∧
        (∀ c ∈ pre, isJsWhitespace c = true) ∧ (∀ c ∈ post, isJsWhitespace c = true)) := by
  have hfacts : getAllowedOrigins env ≠ [] ∧
      ∀ o ∈ getAllowedOrigins env,
        o ≠ "" ∧ (∀ ch, o.data.head? = some ch → isJsWhitespace ch = false) ∧
          (∀ ch, o.data.getLast? = some ch → isJsWhitespace ch = false) := by
    cases env with
    | none =>
      rw [getAllowedOrigins_none]
      exact getAllowedOrigins_some_facts ""
    | some v => exact getAllowedOrigins_some_facts v
  refine ⟨hfacts.1, hfacts.2, ?_, ?_, ?_, jsTrim_decompose⟩
  · intro v hv
    rw [hv, getAllowedOrigins_some]
    constructor
    · intro hne
      rw [if_neg]
      intro h0
      exact hne (List.length_eq_zero.1 h0)
    · intro hnil
      rw [if_pos]
      rw [hnil]
      rfl
  · rintro (h | h)
    · rw [h]
      rfl
    · rw [h]
      rfl
  · intro cs
    exact ⟨joinComma_splitComma cs, splitComma_no_comma cs⟩

/-- Witness for C28: two origins, with white space and empty segments around
them. -/
theorem allowed_origins_witness :
    getAllowedOrigins (some " https://a.example , ,http://b.example,") =
      (((splitComma " https://a.example , ,http://b.example,".data).map jsTrim).filter
        (fun u => decide (u ≠ []))).map String.mk :=
  ((allowed_origins (some " https://a.example , ,http://b.example,")).2.2.1
    " https://a.example , ,http://b.example," rfl).1 (by decide)

/-- C29, counterexample: an empty body sent by a user who is not
the host is rejected with status 403 and "Only meeting host can update
meeting", not with "No fields to update"; and a body that defines title and
duration with values the validator chains refuse is rejected with status 400
and the validation errors, with no statement built. -/
theorem update_rejected_before_builder :
    (∃ body, emptyUpdateByOther.body = some body ∧ providedFields body = []) ∧
      updateMeeting meetingSevenOfOne emptyUpdateByOther =
        .error 403 "Only meeting host can update meeting" ∧
      (∃ body, invalidUpdateByHost.body = some body ∧
        providedFields body = [("title", ""), ("duration", "5")]) ∧
      updateMeeting meetingSevenOfOne invalidUpdateByHost = .invalid ["title", "duration"] :=
  ⟨⟨_, rfl, rfl⟩, rfl, ⟨_, rfl, rfl⟩, rfl⟩

/-- C29, amended: the update-meeting route builds its statement only for a
request that passed everything before the builder. For a request of an
authenticated user, without validation errors, with a body, for a meeting
whose row names that user as host, and with the fields defined in the body
taken in the fixed order title, description, start_time, duration,
max_participants: when there is none the request is rejected with status 400
and "No fields to update" and no statement is built; otherwise the SET clause
lists exactly these fields with the placeholders 1 to n in order, the
parameter array is their values in the same order followed by the meeting id,
and the WHERE placeholder is n + 1; so the k-th assignment has placeholder k
and the k-th parameter is its value, and parameter n + 1 is the meeting id.
A statement is built, or "No fields to update" answered, for no other request:
one with validation errors gets status 400 with these errors, one for an
unknown meeting 404 "Meeting not found", one of a user other than the host 403
"Only meeting host can update meeting", whatever fields the body defines. -/
theorem update_query_built {α υ ε : Type} [DecidableEq υ] (db : α → SelectResult υ)
    (req : UpdateRequest α υ ε) :
    (∀ userId body rest, req.user = some userId → req.errors = [] → req.body = some body →
      db req.id = .rows (userId :: rest) →
        ((providedFields body).length = 0 →
          updateMeeting db req = .error 400 "No fields to update") ∧
        ((providedFields body).length ≠ 0 →
          updateMeeting db req =
            .update
              { text := "UPDATE meetings SET " ++
                  ", ".intercalate (setClauses (providedFields body)) ++
                  ", updated_at = CURRENT_TIMESTAMP WHERE id = $" ++
                  toString ((providedFields body).length + 1) ++ " RETURNING *"
                params := (providedFields body).map Prod.snd ++ [req.id] }) ∧
        (setClauses (providedFields body)).length = (providedFields body).length ∧
        ((providedFields body).map Prod.snd ++ [req.id]).length =
          (providedFields body).length + 1 ∧
        ((providedFields body).map Prod.snd ++ [req.id]).get? (providedFields body).length =
          some req.id ∧
        (∀ i p, (providedFields body).get? i = some p →
          (setClauses (providedFields body)).get? i =
              some (p.1 ++ " = $" ++ toString (i + 1)) ∧
            ((providedFields body).map Prod.snd ++ [req.id]).get? i = some p.2)) ∧
      (((∃ q, updateMeeting db req = .update q) ∨
          updateMeeting db req = .error 400 "No fields to update") →
        ∃ userId body rest, req.user = some userId ∧ req.errors = [] ∧
          req.body = some body ∧ db req.id = .rows (userId :: rest)) ∧
      (∀ userId, req.user = some userId → req.errors ≠ [] →
        updateMeeting db req = .invalid req.errors) ∧
      (∀ userId body, req.user = some userId → req.errors = [] → req.body = some body →
        db req.id = .rows [] → updateMeeting db req = .error 404 "Meeting not found") ∧
      (∀ userId body hostId rest, req.user = some userId → req.errors = [] →
        req.body = some body → db req.id = .rows (hostId :: rest) → hostId ≠ userId →
        updateMeeting db req = .error 403 "Only meeting host can update meeting") := by
  obtain ⟨_, hinv, _, _, h404, h403⟩ := updateMeeting_early db req
  refine ⟨?_, updateMeeting_builder_only db req, hinv, h404, h403⟩
  intro userId body rest hu he hb hd
  obtain ⟨h1, h2, h3⟩ := params_positions (providedFields body) req.id
  have hr := updateMeeting_reached db req userId body rest hu he hb hd
  refine ⟨?_, ?_, ?_, h1, h2, ?_⟩
  · intro h0
    rw [hr, buildUpdate_eq, if_pos h0]
  · intro h0
    rw [hr, buildUpdate_eq, if_neg h0]
  · simp [setClauses]
  · intro i p hp
    exact ⟨setClauses_get _ i p hp, h3 i p hp⟩

/-- Witness for C29: the host of meeting 7 sends a title and a start time. -/
theorem update_query_built_witness :
    updateMeeting meetingSevenOfOne titleAndStartByHost =
      .update
        { text := "UPDATE meetings SET " ++
            ", ".intercalate (setClauses [("title", "Standup"),
              ("start_time", "2026-11-05T10:00:00Z")]) ++
            ", updated_at = CURRENT_TIMESTAMP WHERE id = $" ++ toString (2 + 1) ++
            " RETURNING *"
          params := ["Standup", "2026-11-05T10:00:00Z", "7"] } :=
  ((update_query_built meetingSevenOfOne titleAndStartByHost).1 1
    { title := some "Standup", description := none,
      startTime := some "2026-11-05T10:00:00Z", duration := none, maxParticipants := none }
    [] rfl rfl rfl rfl).2.1 (by decide)

/-- C30: the client's participant list never holds two entries with the same
id. Starting from the empty list, after any sequence of updates by the
`existing-users` handler, the `user-joined` handler, the updater that goes with
a peer creation (also from the queue of pending peers) and the addition of the
current user, the ids in the list are pairwise distinct; and a `user-joined`
for an id already in the list only rewrites the name and the guest flag of the
entries with that id, leaving ids, order and the other entries as they were. -/
theorem client_ids_distinct (us : List ClientUpdate) :
    ((applyUpdates [] us).map Participant.id).Nodup ∧
      (∀ (prev : List Participant) (userId username : String) (isGuest : Bool),
        userId ∈ prev.map Participant.id →
        onUserJoined prev userId username isGuest =
            prev.map (fun p =>
              if p.id = userId then { p with name := username, isGuest := isGuest } else p) ∧
          (onUserJoined prev userId username isGuest).map Participant.id =
            prev.map Participant.id ∧
          (onUserJoined prev userId username isGuest).map Participant.isCurrentUser =
            prev.map Participant.isCurrentUser ∧
          (∀ p ∈ prev, p.id ≠ userId → p ∈ onUserJoined prev userId username isGuest)) := by
  refine ⟨nodup_applyUpdates us [] List.nodup_nil, ?_⟩
  intro prev userId username isGuest hmem
  have heq := ids_onUserJoined_present prev userId username isGuest hmem
  refine ⟨heq, ?_, ?_, ?_⟩
  · rw [heq, List.map_map]
    apply List.map_congr_left
    intro p _
    by_cases hp : p.id = userId <;> simp [hp]
  · rw [heq, List.map_map]
    apply List.map_congr_left
    intro p _
    by_cases hp : p.id = userId <;> simp [hp]
  · intro p hp hne
    rw [heq]
    exact List.mem_map.2 ⟨p, hp, by rw [if_neg hne]⟩

/-- Witness for C30: a `user-joined` for Ann, who is already in the list. -/
theorem client_ids_distinct_witness :
    onUserJoined [{ id := "u1", name := "Participant", isGuest := true, isCurrentUser := false }]
        "u1" "Ann" false =
      [{ id := "u1", name := "Participant", isGuest := true, isCurrentUser := false }].map
        (fun p => if p.id = "u1" then { p with name := "Ann", isGuest := false } else p) :=
  ((client_ids_distinct []).2
    [{ id := "u1", name := "Participant", isGuest := true, isCurrentUser := false }]
    "u1" "Ann" false (by decide)).1

end VideoConference

